import Mathlib

/-!
# VolleySimulator: season-outcome projection engine

A shallow embedding of the Go backend's projection engine
(`utils/elo.go`, `handlers/calculate.go`, `handlers/predict_all.go`).

Modelling conventions.

* `float64` is idealised as an arbitrary linear ordered field `F` with exact
  arithmetic (rounding, NaN and infinities are not modelled).  The library
  function `math.Pow(10, ·)` is a parameter `pow10 : F → F`; theorems that
  need properties of the power function are stated over `ℝ` with the real
  power `fun x => (10 : ℝ) ^ x`.
* Go `int` is the 64-bit two's complement integer of the platforms the server
  is built for.  A value is an `Int`; the request's numbers lie in
  `[-2^63, 2^63)` after JSON decoding, and wherever the code adds or subtracts
  standings the exact result is wrapped back into that range by `wrapInt64`.
  Ranks and counters, which are bounded by the number of teams and of trials,
  are plain `Int`.
* `rand.Float64()` is made explicit: every draw is an argument of
  `simulateMatch`, and `Calculate` reads its draws from a stream `rnd : Nat → F`
  and returns the number of draws it has consumed.
* Ranging over a Go map visits every key once in an unspecified order; the
  order of trial `i` is a parameter `rangeOrder i` (`RangeOrderSpec`).
* A request is taken after JSON decoding; a field that is missing from the body
  is the empty list or the empty string.
* A Go `map[string]T` is a function `String → Option T`; reading a missing
  key of a `map[string]float64` yields the zero value `0`.
* `sort.Slice` is a parameter of the functions that call it; its documented
  contract (the result is a permutation ordered by `less`, stability not
  guaranteed) is the predicate `SortSliceSpec`.  The algorithm behind it in the
  Go standard library is transcribed as `goSortSlice`, on the branches that a
  short slice takes, for statements about the order of equal elements.
-/

namespace VolleySimulator

/-! ## Data model -/

/-- The record `TeamStats` of `utils/elo.go`. -/
structure TeamStats where
  Name : String
  Points : Int
  Wins : Int
  Played : Int
  SetsWon : Int
  SetsLost : Int
deriving DecidableEq

/-- The record `Match` of `utils/elo.go`. -/
structure Match where
  HomeTeam : String
  AwayTeam : String
  ResultScore : String
  IsPlayed : Bool
  MatchDate : String
deriving DecidableEq

/-- The record `MatchOutcome` of `handlers/calculate.go`. -/
structure MatchOutcome where
  HomeSets : Int
  AwaySets : Int
  HomePoints : Int
  AwayPoints : Int
  HomeWin : Bool
deriving DecidableEq

/-! ## Machine integers -/

/-- The value that a Go `int` holds after an addition or subtraction whose
exact result is `x`: the result modulo `2^64`, taken in `[-2^63, 2^63)`. -/
def wrapInt64 (x : Int) : Int :=
  (x + 9223372036854775808) % 18446744073709551616 - 9223372036854775808

/-! ## Expected score -/

/-- The expression `1.0 / (1.0 + math.Pow(10, (awayElo-homeElo)/400.0))`, which
occurs verbatim in `simulateMatch`, `CalculateElo` and `PredictAll`. -/
def expectedHome {F : Type} [LinearOrderedField F] (pow10 : F → F)
    (homeElo awayElo : F) : F :=
  1 / (1 + pow10 ((awayElo - homeElo) / 400))

/-! ## simulateMatch (handlers/calculate.go) -/

/-- The function `simulateMatch`; `r1` and `r2` are the two values returned by
`rand.Float64()`, in the order in which they are drawn. -/
def simulateMatch {F : Type} [LinearOrderedField F] (pow10 : F → F)
    (homeElo awayElo r1 r2 : F) : MatchOutcome :=
  let expectedHome := 1 / (1 + pow10 ((awayElo - homeElo) / 400))
  let homeWin : Bool := decide (r1 < expectedHome)
  let sets : Int × Int :=
    if homeWin then
      let dominance := expectedHome
      if dominance > 0.8 then
        (if r2 < 0.7 then (3, 0) else (3, 1))
      else if dominance > 0.6 then
        (if r2 < 0.5 then (3, 1) else (3, 2))
      else (3, 2)
    else
      let dominance := 1 - expectedHome
      if dominance > 0.8 then
        (if r2 < 0.7 then (0, 3) else (1, 3))
      else if dominance > 0.6 then
        (if r2 < 0.5 then (1, 3) else (2, 3))
      else (2, 3)
  let hSets := sets.1
  let aSets := sets.2
  let points : Int × Int :=
    if hSets = 3 then
      (if aSets ≤ 1 then (3, 0) else (2, 1))
    else
      (if hSets ≤ 1 then (0, 3) else (1, 2))
  { HomeSets := hSets, AwaySets := aSets,
    HomePoints := points.1, AwayPoints := points.2, HomeWin := homeWin }

/-! ## Library functions used by the rating model -/

/-- Go string comparison `a < b` (bytewise lexicographic; on the UTF-8 strings
that JSON decoding produces this is the lexicographic order of the code
points). -/
def strLess (a b : String) : Bool :=
  decide (a.data.map Char.toNat < b.data.map Char.toNat)

/-- The call `strings.Split(s, "-")` on the characters of `s`: the fields between
the occurrences of `-`; the result is never empty. -/
def splitDash : List Char → List (List Char)
  | [] => [[]]
  | c :: cs =>
    if c = '-' then [] :: splitDash cs
    else
      match splitDash cs with
      | [] => [[c]]
      | p :: ps => (c :: p) :: ps

/-- The value of a string of decimal digits, `none` when a character is not one
of `0` .. `9`. -/
def digitsValue : List Char → Nat → Option Nat
  | [], acc => some acc
  | c :: cs, acc =>
    if c.isDigit then digitsValue cs (acc * 10 + (c.toNat - '0'.toNat)) else none

/-- The first result of `strconv.Atoi(s)`, the error being discarded as in
`hSets, _ := strconv.Atoi(parts[0])`: an optional sign followed by one or more
decimal digits gives the number (clamped to the 64-bit range), anything else
gives `0`. -/
def atoi (s : List Char) : Int :=
  let neg : Bool := s.head? = some '-'
  let body := if s.head? = some '-' ∨ s.head? = some '+' then s.tail else s
  if body = [] then 0
  else
    match digitsValue body 0 with
    | none => 0
    | some n =>
      if neg then (if n > 2 ^ 63 then -(2 ^ 63 : Int) else -(n : Int))
      else (if n ≥ 2 ^ 63 then (2 ^ 63 - 1 : Int) else (n : Int))

/-- Reading `m[k]` from a Go `map[string]float64`: the zero value for a missing
key. -/
def mapGet {F : Type} [Zero F] (m : String → Option F) (k : String) : F :=
  (m k).getD 0

/-- The lookup `x := m[k]; if x == 0 { x = 1200 }` that `CalculateElo`,
`Calculate` and `PredictAll` perform before using a rating: a team that is
missing from the map (or stored as 0) is rated 1200. -/
def ratingOr1200 {F : Type} [LinearOrderedField F] (m : String → Option F)
    (k : String) : F :=
  if mapGet m k = 0 then 1200 else mapGet m k

/-- The assignment `m[k] = v` on a Go map. -/
def mapSet {V : Type} (m : String → Option V) (k : String) (v : V) :
    String → Option V :=
  fun k' => if k' = k then some v else m k'

/-- The documented contract of `sort.Slice` for a `less` that is a strict weak
ordering: the result is a rearrangement of the input in which no element is
`less` than an earlier one.  Stability is not part of the contract. -/
def SortSliceSpec {α : Type} (sortSlice : (α → α → Bool) → List α → List α) : Prop :=
  ∀ less : α → α → Bool,
    (∀ a, less a a = false) →
    (∀ a b c, less a b = true → less b c = true → less a c = true) →
    (∀ a b c, less a b = false → less b c = false → less a c = false) →
    ∀ l, (sortSlice less l).Perm l ∧
      (sortSlice less l).Pairwise (fun a b => less b a = false)

/-- A stable sort with the signature of `sort.Slice` (insertion sort).  It shows
that `SortSliceSpec` can be met, and it is the sorter for statements that
depend on equal keys keeping their input order. -/
def stableSortSlice {α : Type} (less : α → α → Bool) (l : List α) : List α :=
  List.insertionSort (fun a b => less b a = false) l

/-! ## The algorithm of sort.Slice (Go standard library, package `sort`)

`sort.Slice(x, less)` runs `pdqsort_func(lessSwap{less, swap}, 0, length,
bits.Len(uint(length)))` (Go 1.19 and later).  The definitions below follow that
function on the branches a slice of fewer than 50 elements takes as long as every
partition is balanced: insertion sort for at most 12 elements, otherwise the
median of three as pivot, the check for a slice that is already sorted, and the
partition around the pivot.  The remaining branches (pattern breaking after an
unbalanced partition, the partition of equal elements, the ninther and the
shifting of elements for 50 elements and more, heap sort) are not transcribed:
on a run that reaches one of them the model returns `none`. -/

/-- The call `data.Less(i, j)`: the comparator of the caller at two positions of
the slice. -/
def lessAt {α : Type} (less : α → α → Bool) (data : List α) (i j : Nat) : Bool :=
  match data[i]?, data[j]? with
  | some x, some y => less x y
  | _, _ => false

/-- The call `data.Swap(i, j)`: the elements at two positions of the slice are
exchanged. -/
def swapAt {α : Type} (data : List α) (i j : Nat) : List α :=
  match data[i]?, data[j]? with
  | some x, some y => (data.set i y).set j x
  | _, _ => data

/-- The inner loop `for j := i; j > a && data.Less(j, j-1); j-- { data.Swap(j, j-1) }`
of `insertionSort_func`, started at `j`. -/
def insertionSortInner {α : Type} (less : α → α → Bool) (a : Nat) : Nat → List α → List α
  | 0, data => data
  | j + 1, data =>
    if a < j + 1 && lessAt less data (j + 1) j then
      insertionSortInner less a j (swapAt data (j + 1) j)
    else data

/-- The function `insertionSort_func(data, a, b)`: insertion sort of the
positions `a` .. `b - 1`. -/
def insertionSortFunc {α : Type} (less : α → α → Bool) (data : List α) (a b : Nat) :
    List α :=
  (List.range' (a + 1) (b - (a + 1))).foldl (fun d i => insertionSortInner less a i d) data

/-- The function `order2_func(data, a, b, swaps)`: the two positions with the
smaller element first, and the number of swaps counted so far. -/
def order2Func {α : Type} (less : α → α → Bool) (data : List α) (a b swaps : Nat) :
    Nat × Nat × Nat :=
  if lessAt less data b a then (b, a, swaps + 1) else (a, b, swaps)

/-- The function `median_func(data, a, b, c, swaps)`: the position of the median
of three elements, and the number of swaps counted. -/
def medianFunc {α : Type} (less : α → α → Bool) (data : List α) (a b c swaps : Nat) :
    Nat × Nat :=
  let r1 := order2Func less data a b swaps
  let r2 := order2Func less data r1.2.1 c r1.2.2
  let r3 := order2Func less data r1.1 r2.1 r2.2.2
  (r3.2.1, r3.2.2)

/-- The loop `for i <= j && data.Less(i, a) { i++ }` of `partition_func`: the
value of `i` after it. -/
def scanUp {α : Type} (less : α → α → Bool) (data : List α) (a j : Nat) : Nat → Nat → Nat
  | 0, i => i
  | fuel + 1, i =>
    if i ≤ j && lessAt less data i a then scanUp less data a j fuel (i + 1) else i

/-- The loop `for i <= j && !data.Less(j, a) { j-- }` of `partition_func`: the
value of `j` after it. -/
def scanDown {α : Type} (less : α → α → Bool) (data : List α) (a i : Nat) : Nat → Nat → Nat
  | 0, j => j
  | fuel + 1, j =>
    if i ≤ j && !lessAt less data j a then scanDown less data a i fuel (j - 1) else j

/-- The loop `for { ... }` of `partition_func`: both scans, then either the end
of the loop or a swap and the next round.  The result is the slice and `j`. -/
def partitionLoop {α : Type} (less : α → α → Bool) (a : Nat) :
    Nat → List α → Nat → Nat → List α × Nat
  | 0, data, _, j => (data, j)
  | fuel + 1, data, i, j =>
    let i1 := scanUp less data a j data.length i
    let j1 := scanDown less data a i1 data.length j
    if j1 < i1 then (data, j1)
    else partitionLoop less a fuel (swapAt data i1 j1) (i1 + 1) (j1 - 1)

/-- The function `partition_func(data, a, b, pivot)`: the slice after the
partition, the new position of the pivot, and whether the slice was already
partitioned. -/
def partitionFunc {α : Type} (less : α → α → Bool) (data : List α) (a b pivot : Nat) :
    List α × Nat × Bool :=
  let data1 := swapAt data a pivot
  let i := scanUp less data1 a (b - 1) data1.length (a + 1)
  let j := scanDown less data1 a i data1.length (b - 1)
  if j < i then (swapAt data1 j a, j, true)
  else
    let r := partitionLoop less a data1.length (swapAt data1 i j) (i + 1) (j - 1)
    (swapAt r.1 r.2 a, r.2, false)

/-- The test made by `partialInsertionSort_func(data, a, b)` on fewer than 50
elements, which it does not move: whether the positions `a` .. `b - 1` are
already in order. -/
def rangeSorted {α : Type} (less : α → α → Bool) (data : List α) (a b : Nat) : Bool :=
  (List.range' (a + 1) (b - (a + 1))).all (fun i => !lessAt less data i (i - 1))

/-- The function `pdqsort_func(data, a, b, limit)` on the transcribed branches;
`wasBalanced` and `wasPartitioned` are its two local variables, and the first
argument bounds the depth of the recursion (the length of the slice plus one is
enough, since each partition puts one element in place). -/
def pdqsortFunc {α : Type} (less : α → α → Bool) :
    Nat → List α → Nat → Nat → Bool → Bool → Option (List α)
  | 0, _, _, _, _, _ => none
  | fuel + 1, data, a, b, wasBalanced, wasPartitioned =>
    let length := b - a
    if length ≤ 12 then some (insertionSortFunc less data a b)
    else if !wasBalanced then none
    else if 50 ≤ length then none
    else
      let pv := medianFunc less data (a + length / 4 * 1) (a + length / 4 * 2)
        (a + length / 4 * 3) 0
      if wasPartitioned && pv.2 == 0 && rangeSorted less data a b then some data
      else if 0 < a && !lessAt less data (a - 1) pv.1 then none
      else
        let p := partitionFunc less data a b pv.1
        let mid := p.2.1
        let leftLen := mid - a
        let rightLen := b - mid
        let balanceThreshold := length / 8
        if leftLen < rightLen then
          match pdqsortFunc less fuel p.1 a mid true true with
          | none => none
          | some d =>
            pdqsortFunc less fuel d (mid + 1) b (decide (balanceThreshold ≤ leftLen)) p.2.2
        else
          match pdqsortFunc less fuel p.1 (mid + 1) b true true with
          | none => none
          | some d =>
            pdqsortFunc less fuel d a mid (decide (balanceThreshold ≤ rightLen)) p.2.2

/-- The call `sort.Slice(x, less)` on the transcribed branches of the
algorithm. -/
def goSortSlice {α : Type} (less : α → α → Bool) (l : List α) : Option (List α) :=
  pdqsortFunc less (l.length + 1) l 0 l.length true true

/-! ## CalculateElo (utils/elo.go) -/

/-- The body of the loop `for _, m := range validMatches` of `CalculateElo`:
one match applied to the rating map. -/
def eloStep {F : Type} [LinearOrderedField F] (pow10 : F → F)
    (ratings : String → Option F) (m : Match) : String → Option F :=
  let homeRatings := ratingOr1200 ratings m.HomeTeam
  let awayRatings := ratingOr1200 ratings m.AwayTeam
  let parts := splitDash m.ResultScore.data
  if parts.length ≠ 2 then ratings
  else
    let hSets := atoi (parts.getD 0 [])
    let aSets := atoi (parts.getD 1 [])
    let actualHome : F := if hSets > aSets then 1 else 0
    let actualAway : F := 1 - actualHome
    let k : F := 32
    let expectedHome := 1 / (1 + pow10 ((awayRatings - homeRatings) / 400))
    let expectedAway := 1 / (1 + pow10 ((homeRatings - awayRatings) / 400))
    let diff : Int := |hSets - aSets|
    let multiplier : F := if diff = 3 then 1.3 else if diff = 2 then 1.1 else 1
    let newHome := homeRatings + k * multiplier * (actualHome - expectedHome)
    let newAway := awayRatings + k * multiplier * (actualAway - expectedAway)
    mapSet (mapSet ratings m.HomeTeam newHome) m.AwayTeam newAway

/-- The function `CalculateElo`: every listed team starts at 1200, the played
matches with a score are sorted by date with `sort.Slice` and replayed. -/
def CalculateElo {F : Type} [LinearOrderedField F] (pow10 : F → F)
    (sortSlice : (Match → Match → Bool) → List Match → List Match)
    (teams : List TeamStats) (matchList : List Match) : String → Option F :=
  let ratings : String → Option F :=
    teams.foldl (fun r t => mapSet r t.Name 1200) (fun _ => none)
  let validMatches := matchList.filter (fun m => m.IsPlayed && m.ResultScore != "")
  let sorted := sortSlice (fun a b => strLess a.MatchDate b.MatchDate) validMatches
  sorted.foldl (eloStep pow10) ratings

/-! ## Ranking and aggregation in Calculate (handlers/calculate.go) -/

/-- The comparator passed to `sort.Slice(simList, ...)` in `Calculate`. -/
def rankLess (x y : TeamStats) : Bool :=
  if x.Points ≠ y.Points then decide (x.Points > y.Points)
  else if x.Wins ≠ y.Wins then decide (x.Wins > y.Wins)
  else decide (wrapInt64 (x.SetsWon - x.SetsLost) > wrapInt64 (y.SetsWon - y.SetsLost))

/-- The ranking sort of one trial: `sort.Slice(simList, ...)`. -/
def rankSort (sortSlice : (TeamStats → TeamStats → Bool) → List TeamStats → List TeamStats)
    (simList : List TeamStats) : List TeamStats :=
  sortSlice rankLess simList

/-- The five accumulators of step 4 of `Calculate`. -/
structure RankStats where
  minRank : Int
  maxRank : Int
  champCount : Int
  playoffCount : Int
  relCount : Int
deriving DecidableEq

/-- The body of the loop `for _, r := range ranks` of `Calculate`. -/
def rankStatsStep (totalTeams : Int) (s : RankStats) (r : Int) : RankStats :=
  { minRank := if r < s.minRank then r else s.minRank
    maxRank := if r > s.maxRank then r else s.maxRank
    champCount := if r = 1 then s.champCount + 1 else s.champCount
    playoffCount := if r ≤ 4 then s.playoffCount + 1 else s.playoffCount
    relCount := if r ≥ totalTeams - 1 then s.relCount + 1 else s.relCount }

/-- Step 4 of `Calculate`: the accumulators after the loop over the recorded
ranks, `totalTeams` being `len(req.Teams)`. -/
def rankStats (totalTeams : Int) (ranks : List Int) : RankStats :=
  ranks.foldl (rankStatsStep totalTeams)
    { minRank := 100, maxRank := 0, champCount := 0, playoffCount := 0, relCount := 0 }

/-- The numeric fields of the JSON object that `Calculate` returns after the
simulation. -/
structure ProjectionResult (F : Type) where
  bestRank : Int
  worstRank : Int
  championshipProbability : F
  playoffProbability : F
  relegationProbability : F

/-- The final `c.JSON(fiber.Map{...})` of `Calculate`, built from the recorded
ranks. -/
def projectionResult {F : Type} [LinearOrderedField F] (teams : List TeamStats)
    (ranks : List Int) : ProjectionResult F :=
  let s := rankStats (teams.length : Int) ranks
  { bestRank := s.minRank
    worstRank := s.maxRank
    championshipProbability := (s.champCount : F) / 10.0
    playoffProbability := (s.playoffCount : F) / 10.0
    relegationProbability := (s.relCount : F) / 10.0 }

/-! ## PredictAll (handlers/predict_all.go) -/

/-- The scoreline chosen in one iteration of the loop
`for _, m := range req.UpcomingMatches` of `PredictAll` (the rating lookups,
the expected score and the chain of bands). -/
def predictScore {F : Type} [LinearOrderedField F] (pow10 : F → F)
    (eloMap : String → Option F) (m : Match) : String :=
  let hElo := ratingOr1200 eloMap m.HomeTeam
  let aElo := ratingOr1200 eloMap m.AwayTeam
  let expectedHome := 1 / (1 + pow10 ((aElo - hElo) / 400))
  if expectedHome > 0.85 then "3-0"
  else if expectedHome > 0.70 then "3-1"
  else if expectedHome > 0.55 then "3-2"
  else if expectedHome < 0.15 then "0-3"
  else if expectedHome < 0.30 then "1-3"
  else if expectedHome < 0.45 then "2-3"
  else if expectedHome ≥ 0.5 then "3-2"
  else "2-3"

/-- The key `m.HomeTeam + "|||" + m.AwayTeam` under which `PredictAll` stores
the prediction of a fixture. -/
def matchID (m : Match) : String :=
  m.HomeTeam ++ "|||" ++ m.AwayTeam

/-- One iteration of the loop `for _, m := range req.UpcomingMatches` of
`PredictAll`: the scoreline is stored under the fixture's key. -/
def predictStep {F : Type} [LinearOrderedField F] (pow10 : F → F)
    (eloMap : String → Option F) (predictions : String → Option String) (m : Match) :
    String → Option String :=
  mapSet predictions (matchID m) (predictScore pow10 eloMap m)

/-- The handler `PredictAll` on a decoded request: a 400 response when `teams`
is empty, otherwise the map of predictions. -/
def PredictAll {F : Type} [LinearOrderedField F] (pow10 : F → F)
    (sortSlice : (Match → Match → Bool) → List Match → List Match)
    (teams : List TeamStats) (upcomingMatches allMatches : List Match) :
    Except (Nat × String) (String → Option String) :=
  if teams.length = 0 then Except.error (400, "Missing match data")
  else
    let eloMap : String → Option F := CalculateElo pow10 sortSlice teams allMatches
    Except.ok (upcomingMatches.foldl (predictStep pow10 eloMap) (fun _ => none))

/-! ## Calculate (handlers/calculate.go) -/

/-- The decoded body `CalculateRequest`.  A field that is missing from the JSON
body decodes to the empty list or the empty string; `Overrides` is never read
and is left out. -/
structure CalculateRequest where
  Teams : List TeamStats
  Fixture : List Match
  TargetTeam : String

/-- The three kinds of response of `Calculate`: an error status with its
message, the short answer given when no match is left to simulate (it has the
fields `bestRank`, `worstRank` and `aiAnalysis` only), and the answer after a
simulation (the text of `aiAnalysis` comes from an external service and is left
out). -/
inductive CalculateResponse (F : Type) where
  | error (status : Nat) (message : String) : CalculateResponse F
  | allPlayed (bestRank worstRank : Int) (aiAnalysis : String) : CalculateResponse F
  | projection (result : ProjectionResult F) : CalculateResponse F

/-- The map `baseTeamMap` of `Calculate`: each team stored under its name, a
later team replacing an earlier one of the same name. -/
def baseTeamMap (teams : List TeamStats) : String → Option TeamStats :=
  teams.foldl (fun m t => mapSet m t.Name t) (fun _ => none)

/-- The keys of `baseTeamMap`, and of every `simStats` cloned from it: the
distinct team names of the request. -/
def teamNames (teams : List TeamStats) : List String :=
  (teams.map (fun t => t.Name)).dedup

/-- What is known about the order in which `for _, v := range simStats` visits
the keys of the map in trial `i`: every key once, in an unspecified order. -/
def RangeOrderSpec (rangeOrder : Nat → List String → List String) : Prop :=
  ∀ i keys, (rangeOrder i keys).Perm keys

/-- The block `if h, ok := simStats[hName]; ok { ... }` of `Calculate`: the home
team's entry, when there is one, is updated with the outcome `res`. -/
def updateHome (res : MatchOutcome) (simStats : String → Option TeamStats)
    (hName : String) : String → Option TeamStats :=
  match simStats hName with
  | some h =>
    mapSet simStats hName
      { h with
        Played := wrapInt64 (h.Played + 1)
        Wins := if res.HomeWin then wrapInt64 (h.Wins + 1) else h.Wins
        Points := wrapInt64 (h.Points + res.HomePoints)
        SetsWon := wrapInt64 (h.SetsWon + res.HomeSets)
        SetsLost := wrapInt64 (h.SetsLost + res.AwaySets) }
  | none => simStats

/-- The block `if a, ok := simStats[aName]; ok { ... }` of `Calculate`: the away
team's entry, when there is one, is updated with the outcome `res`. -/
def updateAway (res : MatchOutcome) (simStats : String → Option TeamStats)
    (aName : String) : String → Option TeamStats :=
  match simStats aName with
  | some a =>
    mapSet simStats aName
      { a with
        Played := wrapInt64 (a.Played + 1)
        Wins := if !res.HomeWin then wrapInt64 (a.Wins + 1) else a.Wins
        Points := wrapInt64 (a.Points + res.AwayPoints)
        SetsWon := wrapInt64 (a.SetsWon + res.AwaySets)
        SetsLost := wrapInt64 (a.SetsLost + res.HomeSets) }
  | none => simStats

/-- One iteration of the loop `for _, m := range matchesToSimulate` of
`Calculate`.  The state is the number of values drawn from `rand.Float64()` so
far, whose stream is `rnd`, and the map `simStats`. -/
def fixtureStep {F : Type} [LinearOrderedField F] (pow10 : F → F)
    (eloMap : String → Option F) (rnd : Nat → F)
    (st : Nat × (String → Option TeamStats)) (m : Match) :
    Nat × (String → Option TeamStats) :=
  let hName := m.HomeTeam
  let aName := m.AwayTeam
  let hElo := ratingOr1200 eloMap hName
  let aElo := ratingOr1200 eloMap aName
  let res := simulateMatch pow10 hElo aElo (rnd st.1) (rnd (st.1 + 1))
  (st.1 + 2, updateAway res (updateHome res st.2 hName) aName)

/-- The exact result `x` of an addition is a 64-bit integer, so that the
addition does not overflow. -/
def fitsInt64 (x : Int) : Prop :=
  -9223372036854775808 ≤ x ∧ x < 9223372036854775808

/-- No addition of the home update `updateHome res simStats hName` overflows. -/
def homeFits (res : MatchOutcome) (simStats : String → Option TeamStats)
    (hName : String) : Prop :=
  ∀ h, simStats hName = some h →
    fitsInt64 (h.Played + 1) ∧ (res.HomeWin = true → fitsInt64 (h.Wins + 1)) ∧
    fitsInt64 (h.Points + res.HomePoints) ∧ fitsInt64 (h.SetsWon + res.HomeSets) ∧
    fitsInt64 (h.SetsLost + res.AwaySets)

/-- No addition of the away update `updateAway res simStats aName` overflows. -/
def awayFits (res : MatchOutcome) (simStats : String → Option TeamStats)
    (aName : String) : Prop :=
  ∀ a, simStats aName = some a →
    fitsInt64 (a.Played + 1) ∧ (res.HomeWin = false → fitsInt64 (a.Wins + 1)) ∧
    fitsInt64 (a.Points + res.AwayPoints) ∧ fitsInt64 (a.SetsWon + res.AwaySets) ∧
    fitsInt64 (a.SetsLost + res.HomeSets)

/-- No addition of the iteration `fixtureStep pow10 eloMap rnd st m` overflows:
none of the home update, and none of the away update that follows it. -/
def fixtureFits {F : Type} [LinearOrderedField F] (pow10 : F → F)
    (eloMap : String → Option F) (rnd : Nat → F)
    (st : Nat × (String → Option TeamStats)) (m : Match) : Prop :=
  homeFits
    (simulateMatch pow10 (ratingOr1200 eloMap m.HomeTeam) (ratingOr1200 eloMap m.AwayTeam)
      (rnd st.1) (rnd (st.1 + 1)))
    st.2 m.HomeTeam ∧
  awayFits
    (simulateMatch pow10 (ratingOr1200 eloMap m.HomeTeam) (ratingOr1200 eloMap m.AwayTeam)
      (rnd st.1) (rnd (st.1 + 1)))
    (updateHome
      (simulateMatch pow10 (ratingOr1200 eloMap m.HomeTeam) (ratingOr1200 eloMap m.AwayTeam)
        (rnd st.1) (rnd (st.1 + 1)))
      st.2 m.HomeTeam)
    m.AwayTeam

/-- No addition overflows while the fixtures are replayed one after the other
from the state `st`. -/
def replayFits {F : Type} [LinearOrderedField F] (pow10 : F → F)
    (eloMap : String → Option F) (rnd : Nat → F) :
    List Match → Nat × (String → Option TeamStats) → Prop
  | [], _ => True
  | m :: fixtures, st =>
    fixtureFits pow10 eloMap rnd st m ∧
      replayFits pow10 eloMap rnd fixtures (fixtureStep pow10 eloMap rnd st m)

/-- Each of `played`, `wins`, `points`, `setsWon` and `setsLost` of the standing
is a 64-bit integer and is still one after `c` has been added to it. -/
def hasRoom (c : Int) (t : TeamStats) : Prop :=
  (-9223372036854775808 ≤ t.Played ∧ t.Played + c < 9223372036854775808) ∧
  (-9223372036854775808 ≤ t.Wins ∧ t.Wins + c < 9223372036854775808) ∧
  (-9223372036854775808 ≤ t.Points ∧ t.Points + c < 9223372036854775808) ∧
  (-9223372036854775808 ≤ t.SetsWon ∧ t.SetsWon + c < 9223372036854775808) ∧
  (-9223372036854775808 ≤ t.SetsLost ∧ t.SetsLost + c < 9223372036854775808)

/-- The second standing is the first one with the same name and with `played`,
`wins`, `points`, `setsWon` and `setsLost` not decreased. -/
def statsGrown (t t' : TeamStats) : Prop :=
  t'.Name = t.Name ∧ t.Played ≤ t'.Played ∧ t.Wins ≤ t'.Wins ∧ t.Points ≤ t'.Points ∧
    t.SetsWon ≤ t'.SetsWon ∧ t.SetsLost ≤ t'.SetsLost

/-- The second map of standings has the same keys as the first, and under each
key the standing of the first map, grown in the sense of `statsGrown`. -/
def standingsGrown (s s' : String → Option TeamStats) : Prop :=
  ∀ k, (s k = none → s' k = none) ∧
    (∀ t, s k = some t → ∃ t', s' k = some t' ∧ statsGrown t t')

/-- The second map of standings has the same keys as the first, and under each
key a standing of the same name. -/
def standingsKept (s s' : String → Option TeamStats) : Prop :=
  ∀ k, (s k = none → s' k = none) ∧
    (∀ t, s k = some t → ∃ t', s' k = some t' ∧ t'.Name = t.Name)

/-- One iteration of the loop `for i := 0; i < SIMULATIONS; i++` of `Calculate`,
started after `n` random draws: the standings are cloned, the fixtures replayed,
the teams listed in the order `rangeOrder i` and sorted, and the position of
the first team named `targetTeam` recorded.  The result is the number of draws
after the trial and the rank recorded, if any. -/
def runTrial {F : Type} [LinearOrderedField F] (pow10 : F → F)
    (sortTeams : (TeamStats → TeamStats → Bool) → List TeamStats → List TeamStats)
    (rangeOrder : Nat → List String → List String)
    (eloMap : String → Option F) (rnd : Nat → F) (teams : List TeamStats)
    (matchesToSimulate : List Match) (targetTeam : String) (i : Nat) (n : Nat) :
    Nat × Option Int :=
  let simStats := baseTeamMap teams
  let st := matchesToSimulate.foldl (fixtureStep pow10 eloMap rnd) (n, simStats)
  let simList := (rangeOrder i (teamNames teams)).filterMap st.2
  let sorted := rankSort sortTeams simList
  let idx := sorted.findIdx (fun t => t.Name == targetTeam)
  (st.1, if idx < sorted.length then some ((idx : Int) + 1) else none)

/-- The Monte Carlo loop of `Calculate`: 1000 trials, each appending at most one
rank to `ranks`.  The result is the number of random draws and the ranks. -/
def simulateRanks {F : Type} [LinearOrderedField F] (pow10 : F → F)
    (sortTeams : (TeamStats → TeamStats → Bool) → List TeamStats → List TeamStats)
    (rangeOrder : Nat → List String → List String)
    (eloMap : String → Option F) (rnd : Nat → F) (teams : List TeamStats)
    (matchesToSimulate : List Match) (targetTeam : String) : Nat × List Int :=
  (List.range 1000).foldl
    (fun acc i =>
      let t := runTrial pow10 sortTeams rangeOrder eloMap rnd teams matchesToSimulate
        targetTeam i acc.1
      (t.1, match t.2 with
        | some r => acc.2 ++ [r]
        | none => acc.2))
    (0, [])

/-- The handler `Calculate` on a decoded request: the response and the number of
values it has drawn from `rand.Float64()`. -/
def Calculate {F : Type} [LinearOrderedField F] (pow10 : F → F)
    (sortMatches : (Match → Match → Bool) → List Match → List Match)
    (sortTeams : (TeamStats → TeamStats → Bool) → List TeamStats → List TeamStats)
    (rangeOrder : Nat → List String → List String) (rnd : Nat → F)
    (req : CalculateRequest) : CalculateResponse F × Nat :=
  if req.TargetTeam = "" ∨ req.Teams.length = 0 then
    (CalculateResponse.error 400 "Missing required fields", 0)
  else
    let eloMap : String → Option F := CalculateElo pow10 sortMatches req.Teams req.Fixture
    let matchesToSimulate := req.Fixture.filter (fun m => !m.IsPlayed)
    if matchesToSimulate.length = 0 then
      (CalculateResponse.allPlayed 1 1 "All matches played.", 0)
    else
      let sim := simulateRanks pow10 sortTeams rangeOrder eloMap rnd req.Teams
        matchesToSimulate req.TargetTeam
      (CalculateResponse.projection (projectionResult req.Teams sim.2), sim.1)

/-! ## Theorems -/

/-- C1: for all ratings and draws, `simulateMatch` returns the set score of the
sampler: the home side wins iff `r1 < expectedHome`, the winner has 3 sets, and
the loser's sets follow the dominance bands (above 0.8: 0 if `r2 < 0.7` else 1;
in (0.6, 0.8]: 1 if `r2 < 0.5` else 2; at most 0.6: 2). -/
theorem simulateMatch_set_score {F : Type} [LinearOrderedField F] (pow10 : F → F)
    (homeElo awayElo r1 r2 : F) :
    ((simulateMatch pow10 homeElo awayElo r1 r2).HomeWin = true ↔
        r1 < expectedHome pow10 homeElo awayElo) ∧
    (∀ dominance winnerSets loserSets,
      ((r1 < expectedHome pow10 homeElo awayElo ∧
          dominance = expectedHome pow10 homeElo awayElo ∧
          winnerSets = (simulateMatch pow10 homeElo awayElo r1 r2).HomeSets ∧
          loserSets = (simulateMatch pow10 homeElo awayElo r1 r2).AwaySets) ∨
        (¬ r1 < expectedHome pow10 homeElo awayElo ∧
          dominance = 1 - expectedHome pow10 homeElo awayElo ∧
          winnerSets = (simulateMatch pow10 homeElo awayElo r1 r2).AwaySets ∧
          loserSets = (simulateMatch pow10 homeElo awayElo r1 r2).HomeSets)) →
      winnerSets = 3 ∧
      (dominance > 0.8 → r2 < 0.7 → loserSets = 0) ∧
      (dominance > 0.8 → ¬ r2 < 0.7 → loserSets = 1) ∧
      (0.6 < dominance → dominance ≤ 0.8 → r2 < 0.5 → loserSets = 1) ∧
      (0.6 < dominance → dominance ≤ 0.8 → ¬ r2 < 0.5 → loserSets = 2) ∧
      (dominance ≤ 0.6 → loserSets = 2)) := by
  have h86 : (0.6 : F) < 0.8 := by norm_num
  simp only [expectedHome, simulateMatch]
  generalize 1 / (1 + pow10 ((awayElo - homeElo) / 400)) = e
  refine ⟨by simp, ?_⟩
  rintro d w l (⟨hw, rfl, rfl, rfl⟩ | ⟨hw, rfl, rfl, rfl⟩)
  · simp only [hw, decide_True, if_true]
    refine ⟨by split_ifs <;> rfl, ?_, ?_, ?_, ?_, ?_⟩
    · intro h1 h2; simp [h1, h2]
    · intro h1 h2; simp [h1, h2]
    · intro h1 h2 h3; simp [not_lt.mpr h2, h1, h3]
    · intro h1 h2 h3; simp [not_lt.mpr h2, h1, h3]
    · intro h1; simp [not_lt.mpr h1, not_lt.mpr (h1.trans h86.le)]
  · simp only [hw, decide_False, Bool.false_eq_true, if_false]
    refine ⟨by split_ifs <;> rfl, ?_, ?_, ?_, ?_, ?_⟩
    · intro h1 h2; simp [h1, h2]
    · intro h1 h2; simp [h1, h2]
    · intro h1 h2 h3; simp [not_lt.mpr h2, h1, h3]
    · intro h1 h2 h3; simp [not_lt.mpr h2, h1, h3]
    · intro h1; simp [not_lt.mpr h1, not_lt.mpr (h1.trans h86.le)]

/-- C2: the league points of a sampled outcome follow its set score: the side
with 3 sets is the home side iff `HomeWin`; the winner gets 3 and the loser 0
when the loser has at most 1 set, otherwise the winner gets 2 and the loser 1. -/
theorem simulateMatch_points {F : Type} [LinearOrderedField F] (pow10 : F → F)
    (homeElo awayElo r1 r2 : F) :
    ((simulateMatch pow10 homeElo awayElo r1 r2).HomeSets = 3 ↔
        (simulateMatch pow10 homeElo awayElo r1 r2).HomeWin = true) ∧
    ((simulateMatch pow10 homeElo awayElo r1 r2).AwaySets = 3 ↔
        (simulateMatch pow10 homeElo awayElo r1 r2).HomeWin = false) ∧
    (∀ winnerSets loserSets winnerPoints loserPoints,
      (((simulateMatch pow10 homeElo awayElo r1 r2).HomeWin = true ∧
          winnerSets = (simulateMatch pow10 homeElo awayElo r1 r2).HomeSets ∧
          loserSets = (simulateMatch pow10 homeElo awayElo r1 r2).AwaySets ∧
          winnerPoints = (simulateMatch pow10 homeElo awayElo r1 r2).HomePoints ∧
          loserPoints = (simulateMatch pow10 homeElo awayElo r1 r2).AwayPoints) ∨
        ((simulateMatch pow10 homeElo awayElo r1 r2).HomeWin = false ∧
          winnerSets = (simulateMatch pow10 homeElo awayElo r1 r2).AwaySets ∧
          loserSets = (simulateMatch pow10 homeElo awayElo r1 r2).HomeSets ∧
          winnerPoints = (simulateMatch pow10 homeElo awayElo r1 r2).AwayPoints ∧
          loserPoints = (simulateMatch pow10 homeElo awayElo r1 r2).HomePoints)) →
      winnerSets = 3 ∧
      (loserSets ≤ 1 → winnerPoints = 3 ∧ loserPoints = 0) ∧
      (¬ loserSets ≤ 1 → winnerPoints = 2 ∧ loserPoints = 1)) := by
  simp only [simulateMatch]
  generalize 1 / (1 + pow10 ((awayElo - homeElo) / 400)) = e
  by_cases hw : r1 < e
  · simp only [hw, decide_True, if_true]
    refine ⟨by split_ifs <;> simp, by split_ifs <;> simp, ?_⟩
    rintro w l wp lp (⟨-, rfl, rfl, rfl, rfl⟩ | ⟨h, -⟩)
    · split_ifs <;> simp_all
    · simp at h
  · simp only [hw, decide_False, Bool.false_eq_true, if_false]
    refine ⟨by split_ifs <;> simp, by split_ifs <;> simp, ?_⟩
    rintro w l wp lp (⟨h, -⟩ | ⟨-, rfl, rfl, rfl, rfl⟩)
    · simp at h
    · split_ifs <;> simp_all

/-! ### The ranking sort -/

/-- An exact result inside the 64-bit range is stored unchanged. -/
theorem wrapInt64_of_inRange (x : Int) (h1 : -9223372036854775808 ≤ x)
    (h2 : x < 9223372036854775808) : wrapInt64 x = x := by
  unfold wrapInt64
  omega

/-- A stored result lies in the 64-bit range. -/
theorem wrapInt64_inRange (x : Int) :
    -9223372036854775808 ≤ wrapInt64 x ∧ wrapInt64 x < 9223372036854775808 := by
  unfold wrapInt64
  omega

/-- What `rankLess` decides: the first team is strictly better than the second
under (points, wins, set difference), compared lexicographically, the set
difference being the 64-bit result of the subtraction. -/
theorem rankLess_iff (x y : TeamStats) :
    rankLess x y = true ↔
      x.Points > y.Points ∨ (x.Points = y.Points ∧ (x.Wins > y.Wins ∨
        (x.Wins = y.Wins ∧
          wrapInt64 (x.SetsWon - x.SetsLost) > wrapInt64 (y.SetsWon - y.SetsLost)))) := by
  unfold rankLess
  generalize wrapInt64 (x.SetsWon - x.SetsLost) = dx
  generalize wrapInt64 (y.SetsWon - y.SetsLost) = dy
  split_ifs with h1 h2
  · simp only [decide_eq_true_eq]; omega
  · simp only [decide_eq_true_eq]; omega
  · simp only [decide_eq_true_eq]; omega

theorem rankLess_eq_false_iff (x y : TeamStats) :
    rankLess x y = false ↔
      y.Points > x.Points ∨ (y.Points = x.Points ∧ (y.Wins > x.Wins ∨
        (y.Wins = x.Wins ∧
          wrapInt64 (y.SetsWon - y.SetsLost) ≥ wrapInt64 (x.SetsWon - x.SetsLost)))) := by
  rw [← Bool.not_eq_true, rankLess_iff]
  generalize wrapInt64 (x.SetsWon - x.SetsLost) = dx
  generalize wrapInt64 (y.SetsWon - y.SetsLost) = dy
  omega

theorem rankLess_irrefl (a : TeamStats) : rankLess a a = false := by
  rw [rankLess_eq_false_iff]
  generalize wrapInt64 (a.SetsWon - a.SetsLost) = d
  omega

theorem rankLess_trans (a b c : TeamStats) (hab : rankLess a b = true)
    (hbc : rankLess b c = true) : rankLess a c = true := by
  rw [rankLess_iff] at *
  generalize wrapInt64 (a.SetsWon - a.SetsLost) = da at *
  generalize wrapInt64 (b.SetsWon - b.SetsLost) = db at *
  generalize wrapInt64 (c.SetsWon - c.SetsLost) = dc at *
  omega

theorem rankLess_negTrans (a b c : TeamStats) (hab : rankLess a b = false)
    (hbc : rankLess b c = false) : rankLess a c = false := by
  rw [rankLess_eq_false_iff] at *
  generalize wrapInt64 (a.SetsWon - a.SetsLost) = da at *
  generalize wrapInt64 (b.SetsWon - b.SetsLost) = db at *
  generalize wrapInt64 (c.SetsWon - c.SetsLost) = dc at *
  omega

/-- Insertion sort meets the contract of `sort.Slice`. -/
theorem stableSortSlice_spec {α : Type} : SortSliceSpec (@stableSortSlice α) := by
  intro less hirr htrans hneg l
  have hasym : ∀ a b, less a b = true → less b a = false := by
    intro a b hab
    by_contra hba
    have := htrans a b a hab (by simpa using hba)
    rw [hirr a] at this
    exact Bool.false_ne_true this
  haveI : IsTotal α (fun a b => less b a = false) :=
    ⟨fun a b => by
      by_cases h : less b a = true
      · exact Or.inr (hasym b a h)
      · exact Or.inl (by simpa using h)⟩
  haveI : IsTrans α (fun a b => less b a = false) :=
    ⟨fun a b c hab hbc => hneg c b a hbc hab⟩
  exact ⟨List.perm_insertionSort _ l, List.sorted_insertionSort _ l⟩

/-- C3, counterexample: team A (10 points, 3 wins, setsWon 9223372036854775807,
setsLost -1) and team B (10 points, 3 wins, setsWon 0, setsLost 0).  A has the
same points and wins as B and the larger difference setsWon - setsLost, so B is
strictly worse under the key of the claim; the subtraction for A wraps around to
-9223372036854775808, the comparator puts B before A, and the ranking sort
returns B before A whichever of the two comes first in the list. -/
theorem rankSort_wrapped_difference :
    (⟨"A", 10, 3, 5, 9223372036854775807, -1⟩ : TeamStats).Points
        = (⟨"B", 10, 3, 5, 0, 0⟩ : TeamStats).Points ∧
    (⟨"A", 10, 3, 5, 9223372036854775807, -1⟩ : TeamStats).Wins
        = (⟨"B", 10, 3, 5, 0, 0⟩ : TeamStats).Wins ∧
    (⟨"A", 10, 3, 5, 9223372036854775807, -1⟩ : TeamStats).SetsWon
        - (⟨"A", 10, 3, 5, 9223372036854775807, -1⟩ : TeamStats).SetsLost
      > (⟨"B", 10, 3, 5, 0, 0⟩ : TeamStats).SetsWon
        - (⟨"B", 10, 3, 5, 0, 0⟩ : TeamStats).SetsLost ∧
    rankLess ⟨"B", 10, 3, 5, 0, 0⟩ ⟨"A", 10, 3, 5, 9223372036854775807, -1⟩ = true ∧
    rankSort stableSortSlice
        [⟨"A", 10, 3, 5, 9223372036854775807, -1⟩, ⟨"B", 10, 3, 5, 0, 0⟩]
      = [⟨"B", 10, 3, 5, 0, 0⟩, ⟨"A", 10, 3, 5, 9223372036854775807, -1⟩] ∧
    rankSort stableSortSlice
        [⟨"B", 10, 3, 5, 0, 0⟩, ⟨"A", 10, 3, 5, 9223372036854775807, -1⟩]
      = [⟨"B", 10, 3, 5, 0, 0⟩, ⟨"A", 10, 3, 5, 9223372036854775807, -1⟩] ∧
    ¬ (rankSort stableSortSlice
        [⟨"A", 10, 3, 5, 9223372036854775807, -1⟩, ⟨"B", 10, 3, 5, 0, 0⟩]).Chain'
      (fun x y =>
        x.Points > y.Points ∨ (x.Points = y.Points ∧ (x.Wins > y.Wins ∨
          (x.Wins = y.Wins ∧ x.SetsWon - x.SetsLost ≥ y.SetsWon - y.SetsLost)))) := by
  refine ⟨by decide, by decide, by decide, by decide, by decide, by decide, ?_⟩
  have h : rankSort stableSortSlice
      [⟨"A", 10, 3, 5, 9223372036854775807, -1⟩, ⟨"B", 10, 3, 5, 0, 0⟩]
      = [⟨"B", 10, 3, 5, 0, 0⟩, ⟨"A", 10, 3, 5, 9223372036854775807, -1⟩] := by decide
  rw [h]
  simp

/-- C3, amended: whenever `sort.Slice` honours its contract, the ranking sort of
a trial returns a permutation of the standings in which every earlier team is at
least as good as every later one, and each adjacent pair is non-increasing, in
the key (points, wins, set difference) compared lexicographically, where the set
difference is the 64-bit result of `SetsWon - SetsLost`.  When no team's exact
difference setsWon - setsLost leaves the 64-bit range, the same holds with the
exact difference. -/
theorem rankSort_perm_sorted
    (sortSlice : (TeamStats → TeamStats → Bool) → List TeamStats → List TeamStats)
    (hsort : SortSliceSpec sortSlice) (simList : List TeamStats) :
    (rankSort sortSlice simList).Perm simList ∧
    (rankSort sortSlice simList).Pairwise (fun x y =>
      x.Points > y.Points ∨ (x.Points = y.Points ∧ (x.Wins > y.Wins ∨
        (x.Wins = y.Wins ∧
          wrapInt64 (x.SetsWon - x.SetsLost) ≥ wrapInt64 (y.SetsWon - y.SetsLost))))) ∧
    (rankSort sortSlice simList).Chain' (fun x y =>
      x.Points > y.Points ∨ (x.Points = y.Points ∧ (x.Wins > y.Wins ∨
        (x.Wins = y.Wins ∧
          wrapInt64 (x.SetsWon - x.SetsLost) ≥ wrapInt64 (y.SetsWon - y.SetsLost))))) ∧
    ((∀ t ∈ simList, -9223372036854775808 ≤ t.SetsWon - t.SetsLost ∧
        t.SetsWon - t.SetsLost < 9223372036854775808) →
      (rankSort sortSlice simList).Pairwise (fun x y =>
        x.Points > y.Points ∨ (x.Points = y.Points ∧ (x.Wins > y.Wins ∨
          (x.Wins = y.Wins ∧ x.SetsWon - x.SetsLost ≥ y.SetsWon - y.SetsLost)))) ∧
      (rankSort sortSlice simList).Chain' (fun x y =>
        x.Points > y.Points ∨ (x.Points = y.Points ∧ (x.Wins > y.Wins ∨
          (x.Wins = y.Wins ∧ x.SetsWon - x.SetsLost ≥ y.SetsWon - y.SetsLost))))) := by
  obtain ⟨hperm, hpair⟩ :=
    hsort rankLess rankLess_irrefl rankLess_trans rankLess_negTrans simList
  have hp : (rankSort sortSlice simList).Pairwise (fun x y =>
      x.Points > y.Points ∨ (x.Points = y.Points ∧ (x.Wins > y.Wins ∨
        (x.Wins = y.Wins ∧
          wrapInt64 (x.SetsWon - x.SetsLost) ≥ wrapInt64 (y.SetsWon - y.SetsLost))))) := by
    refine List.Pairwise.imp ?_ hpair
    intro x y h
    exact (rankLess_eq_false_iff y x).mp h
  refine ⟨hperm, hp, List.Pairwise.chain' hp, ?_⟩
  intro hrange
  have hq : (rankSort sortSlice simList).Pairwise (fun x y =>
      x.Points > y.Points ∨ (x.Points = y.Points ∧ (x.Wins > y.Wins ∨
        (x.Wins = y.Wins ∧ x.SetsWon - x.SetsLost ≥ y.SetsWon - y.SetsLost)))) := by
    refine List.Pairwise.imp_of_mem ?_ hp
    intro x y hx hy h
    have hx2 := hrange x (hperm.subset hx)
    have hy2 := hrange y (hperm.subset hy)
    rw [wrapInt64_of_inRange _ hx2.1 hx2.2, wrapInt64_of_inRange _ hy2.1 hy2.2] at h
    exact h
  exact ⟨hq, List.Pairwise.chain' hq⟩

/-- C3, witness: insertion sort honours the contract, and the ranking of three
teams A (10 points), B (12 points) and C (12 points, fewer wins). -/
theorem rankSort_perm_sorted_witness :
    SortSliceSpec (@stableSortSlice TeamStats) ∧
    ((rankSort stableSortSlice
        [⟨"A", 10, 4, 5, 12, 6⟩, ⟨"B", 12, 4, 5, 13, 5⟩, ⟨"C", 12, 3, 5, 13, 5⟩]).Perm
        [⟨"A", 10, 4, 5, 12, 6⟩, ⟨"B", 12, 4, 5, 13, 5⟩, ⟨"C", 12, 3, 5, 13, 5⟩] ∧
    (rankSort stableSortSlice
        [⟨"A", 10, 4, 5, 12, 6⟩, ⟨"B", 12, 4, 5, 13, 5⟩, ⟨"C", 12, 3, 5, 13, 5⟩]).Pairwise
      (fun x y =>
        x.Points > y.Points ∨ (x.Points = y.Points ∧ (x.Wins > y.Wins ∨
          (x.Wins = y.Wins ∧
            wrapInt64 (x.SetsWon - x.SetsLost) ≥ wrapInt64 (y.SetsWon - y.SetsLost))))) ∧
    (rankSort stableSortSlice
        [⟨"A", 10, 4, 5, 12, 6⟩, ⟨"B", 12, 4, 5, 13, 5⟩, ⟨"C", 12, 3, 5, 13, 5⟩]).Chain'
      (fun x y =>
        x.Points > y.Points ∨ (x.Points = y.Points ∧ (x.Wins > y.Wins ∨
          (x.Wins = y.Wins ∧
            wrapInt64 (x.SetsWon - x.SetsLost) ≥ wrapInt64 (y.SetsWon - y.SetsLost))))) ∧
    ((∀ t ∈ ([⟨"A", 10, 4, 5, 12, 6⟩, ⟨"B", 12, 4, 5, 13, 5⟩, ⟨"C", 12, 3, 5, 13, 5⟩] :
          List TeamStats),
        -9223372036854775808 ≤ t.SetsWon - t.SetsLost ∧
          t.SetsWon - t.SetsLost < 9223372036854775808) →
      (rankSort stableSortSlice
          [⟨"A", 10, 4, 5, 12, 6⟩, ⟨"B", 12, 4, 5, 13, 5⟩, ⟨"C", 12, 3, 5, 13, 5⟩]).Pairwise
        (fun x y =>
          x.Points > y.Points ∨ (x.Points = y.Points ∧ (x.Wins > y.Wins ∨
            (x.Wins = y.Wins ∧ x.SetsWon - x.SetsLost ≥ y.SetsWon - y.SetsLost)))) ∧
      (rankSort stableSortSlice
          [⟨"A", 10, 4, 5, 12, 6⟩, ⟨"B", 12, 4, 5, 13, 5⟩, ⟨"C", 12, 3, 5, 13, 5⟩]).Chain'
        (fun x y =>
          x.Points > y.Points ∨ (x.Points = y.Points ∧ (x.Wins > y.Wins ∨
            (x.Wins = y.Wins ∧ x.SetsWon - x.SetsLost ≥ y.SetsWon - y.SetsLost)))))) :=
  ⟨stableSortSlice_spec, rankSort_perm_sorted stableSortSlice stableSortSlice_spec _⟩

/-! ### The rating update -/

theorem mapSet_same {V : Type} (m : String → Option V) (k : String) (v : V) :
    mapSet m k v k = some v := by
  simp [mapSet]

theorem mapSet_other {V : Type} (m : String → Option V) (k k' : String) (v : V)
    (h : k' ≠ k) : mapSet m k v k' = m k' := by
  simp [mapSet, h]

/-- The effect of `eloStep` on a match whose score has exactly two fields. -/
theorem eloStep_of_two_fields {F : Type} [LinearOrderedField F] (pow10 : F → F)
    (ratings : String → Option F) (m : Match) (p0 p1 : List Char)
    (hparse : splitDash m.ResultScore.data = [p0, p1]) :
    eloStep pow10 ratings m =
      mapSet (mapSet ratings m.HomeTeam
        (ratingOr1200 ratings m.HomeTeam +
          32 * (if |atoi p0 - atoi p1| = 3 then 1.3
                else if |atoi p0 - atoi p1| = 2 then 1.1 else 1) *
            ((if atoi p0 > atoi p1 then 1 else 0) -
              expectedHome pow10 (ratingOr1200 ratings m.HomeTeam)
                (ratingOr1200 ratings m.AwayTeam))))
        m.AwayTeam
        (ratingOr1200 ratings m.AwayTeam +
          32 * (if |atoi p0 - atoi p1| = 3 then 1.3
                else if |atoi p0 - atoi p1| = 2 then 1.1 else 1) *
            ((1 - (if atoi p0 > atoi p1 then 1 else 0)) -
              expectedHome pow10 (ratingOr1200 ratings m.AwayTeam)
                (ratingOr1200 ratings m.HomeTeam))) := by
  simp only [eloStep, hparse, expectedHome, List.length_cons, List.length_nil]
  simp

/-- The effect of `eloStep` on a match whose score does not have exactly two
fields: nothing. -/
theorem eloStep_of_not_two_fields {F : Type} [LinearOrderedField F] (pow10 : F → F)
    (ratings : String → Option F) (m : Match)
    (hparse : (splitDash m.ResultScore.data).length ≠ 2) :
    eloStep pow10 ratings m = ratings := by
  simp only [eloStep]
  rw [if_pos hparse]

/-- C4: for a match whose score parses as `homeSets-awaySets`, with pre-match
ratings `h` and `a` (after the 1200 default), `CalculateElo` stores
`h + 32*m*(actualHome - expectedHome)` for the home team and then
`a + 32*m*(actualAway - expectedAway)` for the away team, where `actualHome` is 1
iff `homeSets > awaySets`, `actualAway = 1 - actualHome`, the expected scores
are the two logistic expressions, and `m` is 1.3, 1.1 or 1.0 for a set
difference of 3, 2 or anything else. -/
theorem eloStep_new_ratings {F : Type} [LinearOrderedField F] (pow10 : F → F)
    (ratings : String → Option F) (m : Match) (p0 p1 : List Char)
    (hparse : splitDash m.ResultScore.data = [p0, p1]) :
    let homeSets := atoi p0
    let awaySets := atoi p1
    let h := ratingOr1200 ratings m.HomeTeam
    let a := ratingOr1200 ratings m.AwayTeam
    let actualHome : F := if homeSets > awaySets then 1 else 0
    let actualAway : F := 1 - actualHome
    let expHome : F := 1 / (1 + pow10 ((a - h) / 400))
    let expAway : F := 1 / (1 + pow10 ((h - a) / 400))
    let mult : F :=
      if |homeSets - awaySets| = 3 then 1.3 else if |homeSets - awaySets| = 2 then 1.1 else 1.0
    let newHome := h + 32 * mult * (actualHome - expHome)
    let newAway := a + 32 * mult * (actualAway - expAway)
    eloStep pow10 ratings m = mapSet (mapSet ratings m.HomeTeam newHome) m.AwayTeam newAway ∧
    eloStep pow10 ratings m m.AwayTeam = some newAway ∧
    (m.HomeTeam ≠ m.AwayTeam → eloStep pow10 ratings m m.HomeTeam = some newHome) ∧
    (∀ other, other ≠ m.HomeTeam → other ≠ m.AwayTeam →
      eloStep pow10 ratings m other = ratings other) := by
  intro homeSets awaySets h a actualHome actualAway expHome expAway mult newHome newAway
  have hstep : eloStep pow10 ratings m =
      mapSet (mapSet ratings m.HomeTeam newHome) m.AwayTeam newAway := by
    rw [eloStep_of_two_fields pow10 ratings m p0 p1 hparse]
    simp only [expectedHome, newHome, newAway, mult, actualAway, actualHome, expHome, expAway,
      h, a, homeSets, awaySets]
    norm_num
  refine ⟨hstep, ?_, ?_, ?_⟩
  · rw [hstep, mapSet_same]
  · intro hne
    rw [hstep, mapSet_other _ _ _ _ hne, mapSet_same]
  · intro other h1 h2
    rw [hstep, mapSet_other _ _ _ _ h2, mapSet_other _ _ _ _ h1]

/-- C4, witness: the match A - B played 3-1 on a map in which only A is
listed. -/
theorem eloStep_new_ratings_witness :
    splitDash (Match.mk "A" "B" "3-1" true "2024-01-01").ResultScore.data = [['3'], ['1']] ∧
    (let homeSets := atoi ['3']
     let awaySets := atoi ['1']
     let h := ratingOr1200 (mapSet (fun _ => none) "A" (1200 : ℝ))
       (Match.mk "A" "B" "3-1" true "2024-01-01").HomeTeam
     let a := ratingOr1200 (mapSet (fun _ => none) "A" (1200 : ℝ))
       (Match.mk "A" "B" "3-1" true "2024-01-01").AwayTeam
     let actualHome : ℝ := if homeSets > awaySets then 1 else 0
     let actualAway : ℝ := 1 - actualHome
     let expHome : ℝ := 1 / (1 + (fun x : ℝ => (10 : ℝ) ^ x) ((a - h) / 400))
     let expAway : ℝ := 1 / (1 + (fun x : ℝ => (10 : ℝ) ^ x) ((h - a) / 400))
     let mult : ℝ :=
       if |homeSets - awaySets| = 3 then 1.3 else if |homeSets - awaySets| = 2 then 1.1 else 1.0
     let newHome := h + 32 * mult * (actualHome - expHome)
     let newAway := a + 32 * mult * (actualAway - expAway)
     eloStep (fun x : ℝ => (10 : ℝ) ^ x) (mapSet (fun _ => none) "A" (1200 : ℝ))
         (Match.mk "A" "B" "3-1" true "2024-01-01") =
       mapSet (mapSet (mapSet (fun _ => none) "A" (1200 : ℝ))
         (Match.mk "A" "B" "3-1" true "2024-01-01").HomeTeam newHome)
         (Match.mk "A" "B" "3-1" true "2024-01-01").AwayTeam newAway ∧
     eloStep (fun x : ℝ => (10 : ℝ) ^ x) (mapSet (fun _ => none) "A" (1200 : ℝ))
         (Match.mk "A" "B" "3-1" true "2024-01-01")
         (Match.mk "A" "B" "3-1" true "2024-01-01").AwayTeam = some newAway ∧
     ((Match.mk "A" "B" "3-1" true "2024-01-01").HomeTeam ≠
         (Match.mk "A" "B" "3-1" true "2024-01-01").AwayTeam →
       eloStep (fun x : ℝ => (10 : ℝ) ^ x) (mapSet (fun _ => none) "A" (1200 : ℝ))
         (Match.mk "A" "B" "3-1" true "2024-01-01")
         (Match.mk "A" "B" "3-1" true "2024-01-01").HomeTeam = some newHome) ∧
     (∀ other, other ≠ (Match.mk "A" "B" "3-1" true "2024-01-01").HomeTeam →
       other ≠ (Match.mk "A" "B" "3-1" true "2024-01-01").AwayTeam →
       eloStep (fun x : ℝ => (10 : ℝ) ^ x) (mapSet (fun _ => none) "A" (1200 : ℝ))
         (Match.mk "A" "B" "3-1" true "2024-01-01") other =
       mapSet (fun _ => none) "A" (1200 : ℝ) other)) :=
  ⟨by decide,
    eloStep_new_ratings (fun x : ℝ => (10 : ℝ) ^ x) (mapSet (fun _ => none) "A" (1200 : ℝ))
      (Match.mk "A" "B" "3-1" true "2024-01-01") ['3'] ['1'] (by decide)⟩

/-! ### The expected score over the reals -/

theorem expectedHome_pos (a b : ℝ) :
    0 < expectedHome (fun x : ℝ => (10 : ℝ) ^ x) a b := by
  have hp : (0 : ℝ) < (10 : ℝ) ^ ((b - a) / 400) := Real.rpow_pos_of_pos (by norm_num) _
  simp only [expectedHome]
  positivity

theorem expectedHome_lt_one (a b : ℝ) :
    expectedHome (fun x : ℝ => (10 : ℝ) ^ x) a b < 1 := by
  have hp : (0 : ℝ) < (10 : ℝ) ^ ((b - a) / 400) := Real.rpow_pos_of_pos (by norm_num) _
  simp only [expectedHome]
  rw [div_lt_one (by positivity)]
  linarith

theorem expectedHome_add_swap (a b : ℝ) :
    expectedHome (fun x : ℝ => (10 : ℝ) ^ x) a b +
      expectedHome (fun x : ℝ => (10 : ℝ) ^ x) b a = 1 := by
  have hp : (0 : ℝ) < (10 : ℝ) ^ ((b - a) / 400) := Real.rpow_pos_of_pos (by norm_num) _
  have hswap : (10 : ℝ) ^ ((a - b) / 400) = ((10 : ℝ) ^ ((b - a) / 400))⁻¹ := by
    rw [← Real.rpow_neg (by norm_num)]
    congr 1
    ring
  simp only [expectedHome, hswap]
  field_simp
  ring

/-- The multiplier chosen by `eloStep` is positive. -/
theorem multiplier_pos (d : Int) :
    (0 : ℝ) < (if d = 3 then 1.3 else if d = 2 then 1.1 else 1) := by
  split_ifs <;> norm_num

/-- C5: after `CalculateElo` has processed one match between two distinct
teams, the winner (home iff `homeSets > awaySets`) is rated at least its
pre-match rating and the loser at most its pre-match rating, for every score
and hence for each multiplier. -/
theorem eloStep_winner_up_loser_down (ratings : String → Option ℝ) (m : Match)
    (p0 p1 : List Char) (hparse : splitDash m.ResultScore.data = [p0, p1])
    (hne : m.HomeTeam ≠ m.AwayTeam) :
    (atoi p0 > atoi p1 →
      mapGet (eloStep (fun x : ℝ => (10 : ℝ) ^ x) ratings m) m.HomeTeam ≥
          ratingOr1200 ratings m.HomeTeam ∧
      mapGet (eloStep (fun x : ℝ => (10 : ℝ) ^ x) ratings m) m.AwayTeam ≤
          ratingOr1200 ratings m.AwayTeam) ∧
    (¬ atoi p0 > atoi p1 →
      mapGet (eloStep (fun x : ℝ => (10 : ℝ) ^ x) ratings m) m.AwayTeam ≥
          ratingOr1200 ratings m.AwayTeam ∧
      mapGet (eloStep (fun x : ℝ => (10 : ℝ) ^ x) ratings m) m.HomeTeam ≤
          ratingOr1200 ratings m.HomeTeam) := by
  rw [eloStep_of_two_fields _ ratings m p0 p1 hparse]
  simp only [mapGet, mapSet_same, mapSet_other _ _ _ _ hne, Option.getD_some]
  have hmul := multiplier_pos |atoi p0 - atoi p1|
  have h1 := expectedHome_pos (ratingOr1200 ratings m.HomeTeam) (ratingOr1200 ratings m.AwayTeam)
  have h2 := expectedHome_lt_one (ratingOr1200 ratings m.HomeTeam)
    (ratingOr1200 ratings m.AwayTeam)
  have h3 := expectedHome_pos (ratingOr1200 ratings m.AwayTeam) (ratingOr1200 ratings m.HomeTeam)
  have h4 := expectedHome_lt_one (ratingOr1200 ratings m.AwayTeam)
    (ratingOr1200 ratings m.HomeTeam)
  constructor
  · intro hwin
    simp only [hwin, if_true]
    constructor
    · nlinarith [mul_pos hmul (sub_pos.mpr h2)]
    · nlinarith [mul_pos hmul h3]
  · intro hwin
    simp only [hwin, if_false]
    constructor
    · nlinarith [mul_pos hmul (sub_pos.mpr h4)]
    · nlinarith [mul_pos hmul h1]

/-- C5, witness: A beats B 3-0, both listed at 1200. -/
theorem eloStep_winner_up_loser_down_witness :
    splitDash (Match.mk "A" "B" "3-0" true "2024-01-01").ResultScore.data = [['3'], ['0']] ∧
    (Match.mk "A" "B" "3-0" true "2024-01-01").HomeTeam ≠
      (Match.mk "A" "B" "3-0" true "2024-01-01").AwayTeam ∧
    ((atoi ['3'] > atoi ['0'] →
      mapGet (eloStep (fun x : ℝ => (10 : ℝ) ^ x)
          (mapSet (mapSet (fun _ => none) "A" 1200) "B" 1200)
          (Match.mk "A" "B" "3-0" true "2024-01-01"))
          (Match.mk "A" "B" "3-0" true "2024-01-01").HomeTeam ≥
        ratingOr1200 (mapSet (mapSet (fun _ => none) "A" 1200) "B" 1200)
          (Match.mk "A" "B" "3-0" true "2024-01-01").HomeTeam ∧
      mapGet (eloStep (fun x : ℝ => (10 : ℝ) ^ x)
          (mapSet (mapSet (fun _ => none) "A" 1200) "B" 1200)
          (Match.mk "A" "B" "3-0" true "2024-01-01"))
          (Match.mk "A" "B" "3-0" true "2024-01-01").AwayTeam ≤
        ratingOr1200 (mapSet (mapSet (fun _ => none) "A" 1200) "B" 1200)
          (Match.mk "A" "B" "3-0" true "2024-01-01").AwayTeam) ∧
    (¬ atoi ['3'] > atoi ['0'] →
      mapGet (eloStep (fun x : ℝ => (10 : ℝ) ^ x)
          (mapSet (mapSet (fun _ => none) "A" 1200) "B" 1200)
          (Match.mk "A" "B" "3-0" true "2024-01-01"))
          (Match.mk "A" "B" "3-0" true "2024-01-01").AwayTeam ≥
        ratingOr1200 (mapSet (mapSet (fun _ => none) "A" 1200) "B" 1200)
          (Match.mk "A" "B" "3-0" true "2024-01-01").AwayTeam ∧
      mapGet (eloStep (fun x : ℝ => (10 : ℝ) ^ x)
          (mapSet (mapSet (fun _ => none) "A" 1200) "B" 1200)
          (Match.mk "A" "B" "3-0" true "2024-01-01"))
          (Match.mk "A" "B" "3-0" true "2024-01-01").HomeTeam ≤
        ratingOr1200 (mapSet (mapSet (fun _ => none) "A" 1200) "B" 1200)
          (Match.mk "A" "B" "3-0" true "2024-01-01").HomeTeam)) :=
  ⟨by decide, by decide,
    eloStep_winner_up_loser_down (mapSet (mapSet (fun _ => none) "A" 1200) "B" 1200)
      (Match.mk "A" "B" "3-0" true "2024-01-01") ['3'] ['0'] (by decide) (by decide)⟩

/-- C6: over the reals the expected score is complementary under swapping the
two ratings, `expectedHome(a,b) + expectedHome(b,a) = 1`, and equal ratings give
exactly 0.5. -/
theorem expectedHome_complementary (a b x : ℝ) :
    expectedHome (fun y : ℝ => (10 : ℝ) ^ y) a b +
        expectedHome (fun y : ℝ => (10 : ℝ) ^ y) b a = 1 ∧
    expectedHome (fun y : ℝ => (10 : ℝ) ^ y) x x = 0.5 := by
  refine ⟨expectedHome_add_swap a b, ?_⟩
  simp only [expectedHome, sub_self, zero_div, Real.rpow_zero]
  norm_num

/-! ### The deterministic forecaster -/

/-- The scoreline of a fixture depends on the two team names only. -/
theorem predictScore_congr {F : Type} [LinearOrderedField F] (pow10 : F → F)
    (eloMap : String → Option F) (m m' : Match) (hh : m'.HomeTeam = m.HomeTeam)
    (ha : m'.AwayTeam = m.AwayTeam) :
    predictScore pow10 eloMap m' = predictScore pow10 eloMap m := by
  simp only [predictScore, hh, ha]

/-- Later fixtures leave the prediction of `m` in place unless one of them has
the same key and other teams. -/
theorem foldl_predictStep_keeps {F : Type} [LinearOrderedField F] (pow10 : F → F)
    (eloMap : String → Option F) (m : Match) (rest : List Match)
    (hkey : ∀ m' ∈ rest, matchID m' = matchID m →
      m'.HomeTeam = m.HomeTeam ∧ m'.AwayTeam = m.AwayTeam)
    (predictions : String → Option String)
    (hp : predictions (matchID m) = some (predictScore pow10 eloMap m)) :
    (rest.foldl (predictStep pow10 eloMap) predictions) (matchID m) =
      some (predictScore pow10 eloMap m) := by
  induction rest generalizing predictions with
  | nil => simpa using hp
  | cons m' rest ih =>
    rw [List.foldl_cons]
    apply ih
    · intro m'' hm''
      exact hkey m'' (List.mem_cons_of_mem _ hm'')
    · by_cases hk : matchID m = matchID m'
      · obtain ⟨hh, ha⟩ := hkey m' (List.mem_cons_self _ _) hk.symm
        simp only [predictStep, mapSet, hk, if_true]
        rw [predictScore_congr pow10 eloMap m m' hh ha]
      · simp only [predictStep, mapSet, hk, if_false]
        exact hp

/-- The bands of `predictScore`, in the order in which the code tests them. -/
theorem predictScore_bands {F : Type} [LinearOrderedField F] (pow10 : F → F)
    (eloMap : String → Option F) (m : Match) (e : F)
    (he : e = expectedHome pow10 (ratingOr1200 eloMap m.HomeTeam)
      (ratingOr1200 eloMap m.AwayTeam)) :
    (e > 0.85 → predictScore pow10 eloMap m = "3-0") ∧
    (¬ e > 0.85 → e > 0.70 → predictScore pow10 eloMap m = "3-1") ∧
    (¬ e > 0.70 → e > 0.55 → predictScore pow10 eloMap m = "3-2") ∧
    (¬ e > 0.55 → e < 0.15 → predictScore pow10 eloMap m = "0-3") ∧
    (¬ e > 0.55 → ¬ e < 0.15 → e < 0.30 → predictScore pow10 eloMap m = "1-3") ∧
    (¬ e > 0.55 → ¬ e < 0.30 → e < 0.45 → predictScore pow10 eloMap m = "2-3") ∧
    (0.45 ≤ e → e ≤ 0.55 → e ≥ 0.5 → predictScore pow10 eloMap m = "3-2") ∧
    (0.45 ≤ e → e ≤ 0.55 → ¬ e ≥ 0.5 → predictScore pow10 eloMap m = "2-3") ∧
    (e = 0.90 → predictScore pow10 eloMap m = "3-0") ∧
    (e = 0.50 → predictScore pow10 eloMap m = "3-2") ∧
    (e = 0.20 → predictScore pow10 eloMap m = "1-3") := by
  have c1 : (0.70 : F) < 0.85 := by norm_num
  have c2 : (0.55 : F) < 0.70 := by norm_num
  have c3 : (0.15 : F) < 0.30 := by norm_num
  have c4 : (0.30 : F) < 0.45 := by norm_num
  have c5 : (0.45 : F) < 0.5 := by norm_num
  have c6 : (0.5 : F) < 0.55 := by norm_num
  have c7 : (0.85 : F) < 0.90 := by norm_num
  have c8 : (0.50 : F) = 0.5 := by norm_num
  have c9 : (0.15 : F) < 0.20 := by norm_num
  have c10 : (0.20 : F) < 0.30 := by norm_num
  have high : ∀ x : F, x ≤ 0.55 → ¬ x > 0.55 ∧ ¬ x > 0.70 ∧ ¬ x > 0.85 := fun x hx =>
    ⟨not_lt.mpr hx, not_lt.mpr (hx.trans c2.le), not_lt.mpr (hx.trans (c2.trans c1).le)⟩
  have low : ∀ x : F, 0.45 ≤ x → ¬ x < 0.45 ∧ ¬ x < 0.30 ∧ ¬ x < 0.15 := fun x hx =>
    ⟨not_lt.mpr hx, not_lt.mpr (c4.le.trans hx), not_lt.mpr ((c3.trans c4).le.trans hx)⟩
  simp only [expectedHome] at he
  simp only [predictScore, ← he]
  clear he
  refine ⟨?_, ?_, ?_, ?_, ?_, ?_, ?_, ?_, ?_, ?_, ?_⟩
  · intro h1
    rw [if_pos h1]
  · intro h1 h2
    rw [if_neg h1, if_pos h2]
  · intro h1 h2
    have n85 : ¬ e > 0.85 := not_lt.mpr ((not_lt.mp h1).trans c1.le)
    rw [if_neg n85, if_neg h1, if_pos h2]
  · intro h1 h2
    obtain ⟨n55, n70, n85⟩ := high e (not_lt.mp h1)
    rw [if_neg n85, if_neg n70, if_neg n55, if_pos h2]
  · intro h1 h2 h3
    obtain ⟨n55, n70, n85⟩ := high e (not_lt.mp h1)
    rw [if_neg n85, if_neg n70, if_neg n55, if_neg h2, if_pos h3]
  · intro h1 h2 h3
    obtain ⟨n55, n70, n85⟩ := high e (not_lt.mp h1)
    have n15 : ¬ e < 0.15 := not_lt.mpr (c3.le.trans (not_lt.mp h2))
    rw [if_neg n85, if_neg n70, if_neg n55, if_neg n15, if_neg h2, if_pos h3]
  · intro h1 h2 h3
    obtain ⟨n55, n70, n85⟩ := high e h2
    obtain ⟨n45, n30, n15⟩ := low e h1
    rw [if_neg n85, if_neg n70, if_neg n55, if_neg n15, if_neg n30, if_neg n45, if_pos h3]
  · intro h1 h2 h3
    obtain ⟨n55, n70, n85⟩ := high e h2
    obtain ⟨n45, n30, n15⟩ := low e h1
    rw [if_neg n85, if_neg n70, if_neg n55, if_neg n15, if_neg n30, if_neg n45, if_neg h3]
  · intro h1
    have p85 : e > 0.85 := by rw [h1]; exact c7
    rw [if_pos p85]
  · intro h1
    have h1' : e = 0.5 := h1.trans c8
    obtain ⟨n55, n70, n85⟩ := high e (by rw [h1']; exact c6.le)
    obtain ⟨n45, n30, n15⟩ := low e (by rw [h1']; exact c5.le)
    have p50 : e ≥ 0.5 := by rw [h1']
    rw [if_neg n85, if_neg n70, if_neg n55, if_neg n15, if_neg n30, if_neg n45, if_pos p50]
  · intro h1
    obtain ⟨n55, n70, n85⟩ := high e (by rw [h1]; exact (c10.trans (c4.trans (c5.trans c6))).le)
    have n15 : ¬ e < 0.15 := by rw [h1]; exact not_lt.mpr c9.le
    have p30 : e < 0.30 := by rw [h1]; exact c10
    rw [if_neg n85, if_neg n70, if_neg n55, if_neg n15, if_pos p30]

/-- C7: for every upcoming fixture `m` (not followed by a fixture with the
same key and other teams), the scoreline that `PredictAll` returns under the
fixture's key follows the bands of the fixture's expected score `e`, tested in
this order: `e > 0.85` "3-0", `e > 0.70` "3-1", `e > 0.55` "3-2", `e < 0.15`
"0-3", `e < 0.30` "1-3", `e < 0.45` "2-3", otherwise "3-2" if `e ≥ 0.5` else
"2-3"; so 0.90 gives "3-0", 0.50 gives "3-2" and 0.20 gives "1-3". -/
theorem PredictAll_scoreline_bands {F : Type} [LinearOrderedField F] (pow10 : F → F)
    (sortSlice : (Match → Match → Bool) → List Match → List Match)
    (teams : List TeamStats) (ups rest : List Match) (m : Match) (allMatches : List Match)
    (hteams : teams ≠ [])
    (hkey : ∀ m' ∈ rest, matchID m' = matchID m →
      m'.HomeTeam = m.HomeTeam ∧ m'.AwayTeam = m.AwayTeam) :
    ∃ predictions score,
      PredictAll pow10 sortSlice teams (ups ++ m :: rest) allMatches = Except.ok predictions ∧
      predictions (matchID m) = some score ∧
      ∀ e : F,
        e = expectedHome pow10
          (ratingOr1200 (CalculateElo pow10 sortSlice teams allMatches) m.HomeTeam)
          (ratingOr1200 (CalculateElo pow10 sortSlice teams allMatches) m.AwayTeam) →
        (e > 0.85 → score = "3-0") ∧
        (¬ e > 0.85 → e > 0.70 → score = "3-1") ∧
        (¬ e > 0.70 → e > 0.55 → score = "3-2") ∧
        (¬ e > 0.55 → e < 0.15 → score = "0-3") ∧
        (¬ e > 0.55 → ¬ e < 0.15 → e < 0.30 → score = "1-3") ∧
        (¬ e > 0.55 → ¬ e < 0.30 → e < 0.45 → score = "2-3") ∧
        (0.45 ≤ e → e ≤ 0.55 → e ≥ 0.5 → score = "3-2") ∧
        (0.45 ≤ e → e ≤ 0.55 → ¬ e ≥ 0.5 → score = "2-3") ∧
        (e = 0.90 → score = "3-0") ∧
        (e = 0.50 → score = "3-2") ∧
        (e = 0.20 → score = "1-3") := by
  have hlen : ¬ teams.length = 0 := by
    intro h
    exact hteams (List.length_eq_zero.mp h)
  refine ⟨(ups ++ m :: rest).foldl
      (predictStep pow10 (CalculateElo pow10 sortSlice teams allMatches)) (fun _ => none),
    predictScore pow10 (CalculateElo pow10 sortSlice teams allMatches) m, ?_, ?_, ?_⟩
  · simp only [PredictAll]
    rw [if_neg hlen]
  · rw [List.foldl_append, List.foldl_cons]
    apply foldl_predictStep_keeps pow10 _ m rest hkey
    simp only [predictStep, mapSet_same]
  · intro e he
    exact predictScore_bands pow10 _ m e he

/-- C7, witness: two listed teams without history and the fixture A - B. -/
theorem PredictAll_scoreline_bands_witness :
    ([⟨"A", 0, 0, 0, 0, 0⟩, ⟨"B", 0, 0, 0, 0, 0⟩] : List TeamStats) ≠ [] ∧
    (∀ m' ∈ ([] : List Match), matchID m' = matchID (Match.mk "A" "B" "" false "2024-02-01") →
      m'.HomeTeam = (Match.mk "A" "B" "" false "2024-02-01").HomeTeam ∧
      m'.AwayTeam = (Match.mk "A" "B" "" false "2024-02-01").AwayTeam) ∧
    ∃ predictions score,
      PredictAll (fun x : ℝ => (10 : ℝ) ^ x) stableSortSlice
          [⟨"A", 0, 0, 0, 0, 0⟩, ⟨"B", 0, 0, 0, 0, 0⟩]
          ([] ++ Match.mk "A" "B" "" false "2024-02-01" :: []) [] = Except.ok predictions ∧
      predictions (matchID (Match.mk "A" "B" "" false "2024-02-01")) = some score ∧
      ∀ e : ℝ,
        e = expectedHome (fun x : ℝ => (10 : ℝ) ^ x)
          (ratingOr1200 (CalculateElo (fun x : ℝ => (10 : ℝ) ^ x) stableSortSlice
            [⟨"A", 0, 0, 0, 0, 0⟩, ⟨"B", 0, 0, 0, 0, 0⟩] [])
            (Match.mk "A" "B" "" false "2024-02-01").HomeTeam)
          (ratingOr1200 (CalculateElo (fun x : ℝ => (10 : ℝ) ^ x) stableSortSlice
            [⟨"A", 0, 0, 0, 0, 0⟩, ⟨"B", 0, 0, 0, 0, 0⟩] [])
            (Match.mk "A" "B" "" false "2024-02-01").AwayTeam) →
        (e > 0.85 → score = "3-0") ∧
        (¬ e > 0.85 → e > 0.70 → score = "3-1") ∧
        (¬ e > 0.70 → e > 0.55 → score = "3-2") ∧
        (¬ e > 0.55 → e < 0.15 → score = "0-3") ∧
        (¬ e > 0.55 → ¬ e < 0.15 → e < 0.30 → score = "1-3") ∧
        (¬ e > 0.55 → ¬ e < 0.30 → e < 0.45 → score = "2-3") ∧
        (0.45 ≤ e → e ≤ 0.55 → e ≥ 0.5 → score = "3-2") ∧
        (0.45 ≤ e → e ≤ 0.55 → ¬ e ≥ 0.5 → score = "2-3") ∧
        (e = 0.90 → score = "3-0") ∧
        (e = 0.50 → score = "3-2") ∧
        (e = 0.20 → score = "1-3") :=
  ⟨by decide, (fun m' hm' => by cases hm'),
    PredictAll_scoreline_bands (fun x : ℝ => (10 : ℝ) ^ x) stableSortSlice
      [⟨"A", 0, 0, 0, 0, 0⟩, ⟨"B", 0, 0, 0, 0, 0⟩] [] []
      (Match.mk "A" "B" "" false "2024-02-01") [] (by decide)
      (fun m' hm' => by cases hm')⟩

/-! ### Aggregation of the recorded ranks -/

/-- The accumulator `minRank` only depends on its own previous value: it is the
minimum of its start value and the ranks seen. -/
theorem foldl_rankStatsStep_minRank (totalTeams : Int) (ranks : List Int) (s : RankStats) :
    (ranks.foldl (rankStatsStep totalTeams) s).minRank = ranks.foldl min s.minRank := by
  induction ranks generalizing s with
  | nil => rfl
  | cons r ranks ih =>
    rw [List.foldl_cons, List.foldl_cons, ih]
    congr 1
    simp only [rankStatsStep]
    split_ifs with h
    · exact (min_eq_right h.le).symm
    · exact (min_eq_left (not_lt.mp h)).symm

/-- The accumulator `maxRank` is the maximum of its start value and the ranks
seen. -/
theorem foldl_rankStatsStep_maxRank (totalTeams : Int) (ranks : List Int) (s : RankStats) :
    (ranks.foldl (rankStatsStep totalTeams) s).maxRank = ranks.foldl max s.maxRank := by
  induction ranks generalizing s with
  | nil => rfl
  | cons r ranks ih =>
    rw [List.foldl_cons, List.foldl_cons, ih]
    congr 1
    simp only [rankStatsStep]
    split_ifs with h
    · exact (max_eq_right (le_of_lt h)).symm
    · exact (max_eq_left (not_lt.mp h)).symm

theorem foldl_min_le_init (ranks : List Int) (a : Int) : ranks.foldl min a ≤ a := by
  induction ranks generalizing a with
  | nil => exact le_refl a
  | cons r ranks ih =>
    rw [List.foldl_cons]
    exact (ih (min a r)).trans (min_le_left a r)

theorem foldl_min_of_le (ranks : List Int) (a : Int) (h : ∀ r ∈ ranks, a ≤ r) :
    ranks.foldl min a = a := by
  induction ranks with
  | nil => rfl
  | cons r ranks ih =>
    rw [List.foldl_cons, min_eq_left (h r (List.mem_cons_self _ _))]
    exact ih (fun x hx => h x (List.mem_cons_of_mem _ hx))

theorem foldl_max_const (n : Nat) (a r : Int) (har : a ≤ r) (hn : 0 < n) :
    (List.replicate n r).foldl max a = r := by
  induction n generalizing a with
  | zero => exact absurd hn (lt_irrefl 0)
  | succ n ih =>
    rw [List.replicate_succ, List.foldl_cons, max_eq_right har]
    rcases Nat.eq_zero_or_pos n with h0 | hpos
    · subst h0; rfl
    · exact ih r (le_refl r) hpos

/-- Whatever the recorded ranks, `Calculate` never reports a best rank above
100, the start value of `minRank`. -/
theorem projectionResult_bestRank_le {F : Type} [LinearOrderedField F]
    (teams : List TeamStats) (ranks : List Int) :
    (projectionResult teams ranks : ProjectionResult F).bestRank ≤ 100 := by
  simp only [projectionResult, rankStats, foldl_rankStatsStep_minRank]
  exact foldl_min_le_init ranks 100

/-- C8, at the failing input: in a league of 102 teams whose target team
finishes last (rank 102) in each of the 1000 trials, every recorded rank is 102
but `Calculate` reports `bestRank = 100` next to `worstRank = 102`. -/
theorem projectionResult_bestRank_sentinel :
    (∀ r ∈ List.replicate 1000 (102 : Int), r = 102) ∧
    (projectionResult
      ((List.range 102).map (fun i => TeamStats.mk (toString i) (if i = 0 then 0 else 10) 0 0 0 0))
      (List.replicate 1000 (102 : Int)) : ProjectionResult ℚ).bestRank = 100 ∧
    (projectionResult
      ((List.range 102).map (fun i => TeamStats.mk (toString i) (if i = 0 then 0 else 10) 0 0 0 0))
      (List.replicate 1000 (102 : Int)) : ProjectionResult ℚ).worstRank = 102 := by
  refine ⟨fun r hr => List.eq_of_mem_replicate hr, ?_, ?_⟩
  · simp only [projectionResult, rankStats, foldl_rankStatsStep_minRank]
    apply foldl_min_of_le
    intro r hr
    rw [List.eq_of_mem_replicate hr]
    decide
  · simp only [projectionResult, rankStats, foldl_rankStatsStep_maxRank]
    exact foldl_max_const 1000 0 102 (by decide) (by decide)

theorem foldl_rankStatsStep_champCount (totalTeams : Int) (ranks : List Int) (s : RankStats) :
    (ranks.foldl (rankStatsStep totalTeams) s).champCount =
      s.champCount + (ranks.countP (fun r => decide (r = 1)) : Nat) := by
  induction ranks generalizing s with
  | nil => simp
  | cons r ranks ih =>
    rw [List.foldl_cons, ih, List.countP_cons]
    simp only [rankStatsStep, decide_eq_true_eq]
    split_ifs <;> push_cast <;> ring

theorem foldl_rankStatsStep_playoffCount (totalTeams : Int) (ranks : List Int)
    (s : RankStats) :
    (ranks.foldl (rankStatsStep totalTeams) s).playoffCount =
      s.playoffCount + (ranks.countP (fun r => decide (r ≤ 4)) : Nat) := by
  induction ranks generalizing s with
  | nil => simp
  | cons r ranks ih =>
    rw [List.foldl_cons, ih, List.countP_cons]
    simp only [rankStatsStep, decide_eq_true_eq]
    split_ifs <;> push_cast <;> ring

theorem foldl_rankStatsStep_relCount (totalTeams : Int) (ranks : List Int) (s : RankStats) :
    (ranks.foldl (rankStatsStep totalTeams) s).relCount =
      s.relCount + (ranks.countP (fun r => decide (r ≥ totalTeams - 1)) : Nat) := by
  induction ranks generalizing s with
  | nil => simp
  | cons r ranks ih =>
    rw [List.foldl_cons, ih, List.countP_cons]
    simp only [rankStatsStep, decide_eq_true_eq]
    split_ifs <;> push_cast <;> ring

/-- C9: with `T = len(teams)`, `Calculate` reports the three probabilities as
percentages of the fixed trial count 1000: `100 * count / 1000`, the counts
being the numbers of recorded ranks equal to 1, at most 4, and at least
`T - 1`; the number of recorded ranks is not the denominator. -/
theorem projectionResult_probabilities {F : Type} [LinearOrderedField F]
    (teams : List TeamStats) (ranks : List Int) :
    (projectionResult teams ranks : ProjectionResult F).championshipProbability =
      100 * ((ranks.countP (fun r => decide (r = 1)) : Nat) : F) / 1000 ∧
    (projectionResult teams ranks : ProjectionResult F).playoffProbability =
      100 * ((ranks.countP (fun r => decide (r ≤ 4)) : Nat) : F) / 1000 ∧
    (projectionResult teams ranks : ProjectionResult F).relegationProbability =
      100 * ((ranks.countP (fun r => decide (r ≥ (teams.length : Int) - 1)) : Nat) : F) / 1000 := by
  simp only [projectionResult, rankStats, foldl_rankStatsStep_champCount,
    foldl_rankStatsStep_playoffCount, foldl_rankStatsStep_relCount]
  refine ⟨?_, ?_, ?_⟩ <;> push_cast <;> norm_num <;> ring

/-! ### Scores that are skipped, and scores that are not -/

/-- An insertion into a list all of whose elements follow the new one puts it
in front. -/
theorem orderedInsert_of_forall {α : Type} (r : α → α → Prop) [DecidableRel r] (a : α)
    (t : List α) (h : ∀ x ∈ t, r a x) : List.orderedInsert r a t = a :: t := by
  cases t with
  | nil => rfl
  | cons b t => simp [List.orderedInsert, h b (List.mem_cons_self _ _)]

/-- Filtering commutes with an insertion into a sorted list. -/
theorem filter_orderedInsert {α : Type} (r : α → α → Prop) [DecidableRel r] [IsTrans α r]
    (p : α → Bool) (a : α) (s : List α) (hs : s.Sorted r) :
    (List.orderedInsert r a s).filter p =
      if p a then List.orderedInsert r a (s.filter p) else s.filter p := by
  induction s with
  | nil => by_cases hpa : p a <;> simp [hpa]
  | cons b s ih =>
    have hs' : s.Sorted r := List.Sorted.of_cons hs
    have hb : ∀ x ∈ s, r b x := fun x hx => List.rel_of_sorted_cons hs x hx
    by_cases hab : r a b
    · have hall : ∀ x ∈ (b :: s).filter p, r a x := by
        intro x hx
        have hx' : x ∈ b :: s := List.mem_of_mem_filter hx
        rcases List.mem_cons.mp hx' with rfl | hxs
        · exact hab
        · exact IsTrans.trans _ _ _ hab (hb x hxs)
      rw [List.orderedInsert, if_pos hab, orderedInsert_of_forall r a _ hall]
      by_cases hpa : p a <;> simp [hpa]
    · rw [List.orderedInsert, if_neg hab, List.filter_cons, ih hs']
      by_cases hpa : p a <;> by_cases hpb : p b <;>
        simp [hpa, hpb, List.orderedInsert, hab]

/-- Filtering commutes with the stable insertion sort. -/
theorem filter_insertionSort {α : Type} (r : α → α → Prop) [DecidableRel r] [IsTotal α r]
    [IsTrans α r] (p : α → Bool) (l : List α) :
    (List.insertionSort r l).filter p = List.insertionSort r (l.filter p) := by
  induction l with
  | nil => rfl
  | cons a l ih =>
    rw [List.insertionSort, filter_orderedInsert r p a _ (List.sorted_insertionSort r l), ih,
      List.filter_cons]
    by_cases hpa : p a <;> simp [hpa]

/-- The date order used by `CalculateElo`, read as "not later than", is total. -/
theorem dateLE_total (a b : Match) :
    strLess b.MatchDate a.MatchDate = false ∨ strLess a.MatchDate b.MatchDate = false := by
  simp only [strLess, decide_eq_false_iff_not, not_lt]
  exact le_total _ _

/-- The date order used by `CalculateElo`, read as "not later than", is
transitive. -/
theorem dateLE_trans (a b c : Match) (hab : strLess b.MatchDate a.MatchDate = false)
    (hbc : strLess c.MatchDate b.MatchDate = false) :
    strLess c.MatchDate a.MatchDate = false := by
  simp only [strLess, decide_eq_false_iff_not, not_lt] at *
  exact le_trans hab hbc

/-- With a stable date sort, dropping matches before the sort or after it gives
the same replay order. -/
theorem filter_stableSortSlice_date (p : Match → Bool) (l : List Match) :
    (stableSortSlice (fun a b => strLess a.MatchDate b.MatchDate) l).filter p =
      stableSortSlice (fun a b => strLess a.MatchDate b.MatchDate) (l.filter p) := by
  haveI : IsTotal Match (fun a b => strLess b.MatchDate a.MatchDate = false) :=
    ⟨dateLE_total⟩
  haveI : IsTrans Match (fun a b => strLess b.MatchDate a.MatchDate = false) :=
    ⟨dateLE_trans⟩
  exact filter_insertionSort _ p l

/-- Replaying a list gives the same ratings as replaying it without the matches
that `eloStep` skips. -/
theorem foldl_eloStep_filter {F : Type} [LinearOrderedField F] (pow10 : F → F)
    (p : Match → Bool) (l : List Match)
    (hp : ∀ m ∈ l, p m = false → ∀ ratings : String → Option F, eloStep pow10 ratings m = ratings)
    (ratings : String → Option F) :
    l.foldl (eloStep pow10) ratings = (l.filter p).foldl (eloStep pow10) ratings := by
  induction l generalizing ratings with
  | nil => rfl
  | cons m l ih =>
    have ih' := ih (fun x hx => hp x (List.mem_cons_of_mem _ hx))
    by_cases hpm : p m = true
    · rw [List.filter_cons_of_pos hpm, List.foldl_cons, List.foldl_cons, ih']
    · have hpm' : p m = false := by simpa using hpm
      rw [List.filter_cons_of_neg hpm, List.foldl_cons,
        hp m (List.mem_cons_self _ _) hpm' ratings, ih']


/-- C10, counterexample: the played match A - B with score "3-x" is not
skipped.  The field "x" is not an integer, `strconv.Atoi` yields 0 for it, and
the match is rated as a 3-0 home win: A moves from 1200 to 1220.8, whereas
without the match A stays at 1200. -/
theorem CalculateElo_non_integer_field_not_skipped :
    digitsValue ['x'] 0 = none ∧
    CalculateElo (fun x : ℝ => (10 : ℝ) ^ x) stableSortSlice
        [⟨"A", 0, 0, 0, 0, 0⟩, ⟨"B", 0, 0, 0, 0, 0⟩]
        [Match.mk "A" "B" "3-x" true "2024-01-01"] "A" = some (1220.8 : ℝ) ∧
    CalculateElo (fun x : ℝ => (10 : ℝ) ^ x) stableSortSlice
        [⟨"A", 0, 0, 0, 0, 0⟩, ⟨"B", 0, 0, 0, 0, 0⟩] [] "A" = some (1200 : ℝ) ∧
    CalculateElo (fun x : ℝ => (10 : ℝ) ^ x) stableSortSlice
        [⟨"A", 0, 0, 0, 0, 0⟩, ⟨"B", 0, 0, 0, 0, 0⟩]
        [Match.mk "A" "B" "3-x" true "2024-01-01"] ≠
      CalculateElo (fun x : ℝ => (10 : ℝ) ^ x) stableSortSlice
        [⟨"A", 0, 0, 0, 0, 0⟩, ⟨"B", 0, 0, 0, 0, 0⟩] [] := by
  have hvalid : ([Match.mk "A" "B" "3-x" true "2024-01-01"].filter
      (fun m => m.IsPlayed && m.ResultScore != "")) =
      [Match.mk "A" "B" "3-x" true "2024-01-01"] := by decide
  have hparse : splitDash (Match.mk "A" "B" "3-x" true "2024-01-01").ResultScore.data =
      [['3'], ['x']] := by decide
  have h3 : atoi ['3'] = 3 := by decide
  have hx : atoi ['x'] = 0 := by decide
  have hAB : ("A" : String) ≠ "B" := by decide
  have hwith : CalculateElo (fun x : ℝ => (10 : ℝ) ^ x) stableSortSlice
        [⟨"A", 0, 0, 0, 0, 0⟩, ⟨"B", 0, 0, 0, 0, 0⟩]
        [Match.mk "A" "B" "3-x" true "2024-01-01"] "A" = some (1220.8 : ℝ) := by
    simp only [CalculateElo, hvalid, stableSortSlice, List.insertionSort, List.orderedInsert,
      List.foldl_cons, List.foldl_nil]
    rw [eloStep_of_two_fields _ _ _ _ _ hparse, h3, hx]
    simp only [mapSet_other _ _ _ _ hAB, mapSet_same, ratingOr1200, mapGet, expectedHome,
      Option.getD_some]
    norm_num
  have hwithout : CalculateElo (fun x : ℝ => (10 : ℝ) ^ x) stableSortSlice
        [⟨"A", 0, 0, 0, 0, 0⟩, ⟨"B", 0, 0, 0, 0, 0⟩] [] "A" = some (1200 : ℝ) := by
    simp only [CalculateElo, List.filter_nil, stableSortSlice, List.insertionSort,
      List.foldl_cons, List.foldl_nil]
    rw [mapSet_other _ _ _ _ hAB, mapSet_same]
  refine ⟨by decide, hwith, hwithout, ?_⟩
  intro heq
  rw [heq, hwithout] at hwith
  norm_num at hwith

/-- C10, as amended: a played match whose score does not split on `-` into
exactly two fields is skipped as a no-op: the rating map is unchanged by it, and
the returned ratings are those of replaying the date-sorted played matches with
that match left out. -/
theorem CalculateElo_skips_wrong_field_count {F : Type} [LinearOrderedField F]
    (pow10 : F → F) (sortSlice : (Match → Match → Bool) → List Match → List Match)
    (teams : List TeamStats) (pre post : List Match) (m : Match)
    (hfields : (splitDash m.ResultScore.data).length ≠ 2) :
    (∀ ratings : String → Option F, eloStep pow10 ratings m = ratings) ∧
    CalculateElo pow10 sortSlice teams (pre ++ m :: post) =
      ((sortSlice (fun a b => strLess a.MatchDate b.MatchDate)
          ((pre ++ m :: post).filter (fun x => x.IsPlayed && x.ResultScore != ""))).filter
          (fun x => decide (x ≠ m))).foldl (eloStep pow10)
        (teams.foldl (fun r t => mapSet r t.Name 1200) (fun _ => none)) := by
  have hskip : ∀ ratings : String → Option F, eloStep pow10 ratings m = ratings :=
    fun ratings => eloStep_of_not_two_fields pow10 ratings m hfields
  have hdrop : ∀ l : List Match, ∀ x ∈ l, decide (x ≠ m) = false →
      ∀ ratings : String → Option F, eloStep pow10 ratings x = ratings := by
    intro l x _ hx ratings
    have hxm : x = m := by simpa using hx
    rw [hxm]
    exact hskip ratings
  refine ⟨hskip, ?_⟩
  simp only [CalculateElo]
  exact foldl_eloStep_filter pow10 _ _ (hdrop _) _

/-- C10, witness: the played match A - B with the three-field score "3-1-2". -/
theorem CalculateElo_skips_wrong_field_count_witness :
    (splitDash (Match.mk "A" "B" "3-1-2" true "2024-01-01").ResultScore.data).length ≠ 2 ∧
    ((∀ ratings : String → Option ℝ,
      eloStep (fun x : ℝ => (10 : ℝ) ^ x) ratings
        (Match.mk "A" "B" "3-1-2" true "2024-01-01") = ratings) ∧
    CalculateElo (fun x : ℝ => (10 : ℝ) ^ x) stableSortSlice
        [⟨"A", 0, 0, 0, 0, 0⟩, ⟨"B", 0, 0, 0, 0, 0⟩]
        ([Match.mk "B" "A" "3-0" true "2024-01-01"] ++
          Match.mk "A" "B" "3-1-2" true "2024-01-01" ::
          [Match.mk "A" "B" "3-2" true "2024-01-01"]) =
      ((stableSortSlice (fun a b => strLess a.MatchDate b.MatchDate)
          (([Match.mk "B" "A" "3-0" true "2024-01-01"] ++
            Match.mk "A" "B" "3-1-2" true "2024-01-01" ::
            [Match.mk "A" "B" "3-2" true "2024-01-01"]).filter
            (fun x => x.IsPlayed && x.ResultScore != ""))).filter
          (fun x => decide (x ≠ Match.mk "A" "B" "3-1-2" true "2024-01-01"))).foldl
        (eloStep (fun x : ℝ => (10 : ℝ) ^ x))
        (([⟨"A", 0, 0, 0, 0, 0⟩, ⟨"B", 0, 0, 0, 0, 0⟩] : List TeamStats).foldl
          (fun r t => mapSet r t.Name 1200) (fun _ => none))) :=
  ⟨by decide,
    CalculateElo_skips_wrong_field_count (fun x : ℝ => (10 : ℝ) ^ x) stableSortSlice
      [⟨"A", 0, 0, 0, 0, 0⟩, ⟨"B", 0, 0, 0, 0, 0⟩]
      [Match.mk "B" "A" "3-0" true "2024-01-01"]
      [Match.mk "A" "B" "3-2" true "2024-01-01"]
      (Match.mk "A" "B" "3-1-2" true "2024-01-01") (by decide)⟩

/-! ### The rating update is zero-sum -/

/-- C19: for a match between two distinct teams whose score has two fields, the
two ratings stored by `CalculateElo` add up to the sum of the two pre-match
ratings used (after the 1200 default), over the reals, whatever the score and
the multiplier. -/
theorem eloStep_zero_sum (ratings : String → Option ℝ) (m : Match) (p0 p1 : List Char)
    (hparse : splitDash m.ResultScore.data = [p0, p1]) (hne : m.HomeTeam ≠ m.AwayTeam) :
    mapGet (eloStep (fun x : ℝ => (10 : ℝ) ^ x) ratings m) m.HomeTeam +
        mapGet (eloStep (fun x : ℝ => (10 : ℝ) ^ x) ratings m) m.AwayTeam =
      ratingOr1200 ratings m.HomeTeam + ratingOr1200 ratings m.AwayTeam := by
  rw [eloStep_of_two_fields _ ratings m p0 p1 hparse]
  simp only [mapGet, mapSet_same, mapSet_other _ _ _ _ hne, Option.getD_some]
  have hsum := expectedHome_add_swap (ratingOr1200 ratings m.HomeTeam)
    (ratingOr1200 ratings m.AwayTeam)
  generalize expectedHome (fun x : ℝ => (10 : ℝ) ^ x) (ratingOr1200 ratings m.HomeTeam)
    (ratingOr1200 ratings m.AwayTeam) = eH at hsum ⊢
  generalize expectedHome (fun x : ℝ => (10 : ℝ) ^ x) (ratingOr1200 ratings m.AwayTeam)
    (ratingOr1200 ratings m.HomeTeam) = eA at hsum ⊢
  have hA : eA = 1 - eH := by linarith
  rw [hA]
  ring

/-- C19, witness: A - B played 3-2, A listed at 1200 and B not listed. -/
theorem eloStep_zero_sum_witness :
    splitDash (Match.mk "A" "B" "3-2" true "2024-01-01").ResultScore.data = [['3'], ['2']] ∧
    (Match.mk "A" "B" "3-2" true "2024-01-01").HomeTeam ≠
      (Match.mk "A" "B" "3-2" true "2024-01-01").AwayTeam ∧
    mapGet (eloStep (fun x : ℝ => (10 : ℝ) ^ x) (mapSet (fun _ => none) "A" 1200)
          (Match.mk "A" "B" "3-2" true "2024-01-01"))
          (Match.mk "A" "B" "3-2" true "2024-01-01").HomeTeam +
        mapGet (eloStep (fun x : ℝ => (10 : ℝ) ^ x) (mapSet (fun _ => none) "A" 1200)
          (Match.mk "A" "B" "3-2" true "2024-01-01"))
          (Match.mk "A" "B" "3-2" true "2024-01-01").AwayTeam =
      ratingOr1200 (mapSet (fun _ => none) "A" 1200)
          (Match.mk "A" "B" "3-2" true "2024-01-01").HomeTeam +
        ratingOr1200 (mapSet (fun _ => none) "A" 1200)
          (Match.mk "A" "B" "3-2" true "2024-01-01").AwayTeam :=
  ⟨by decide, by decide,
    eloStep_zero_sum (mapSet (fun _ => none) "A" 1200)
      (Match.mk "A" "B" "3-2" true "2024-01-01") ['3'] ['2'] (by decide) (by decide)⟩

/-! ### Mirrored fixtures -/

/-- The higher rated home side is expected to win. -/
theorem expectedHome_gt_half (h a : ℝ) (hlt : a < h) :
    1 / 2 < expectedHome (fun x : ℝ => (10 : ℝ) ^ x) h a := by
  have hp : (0 : ℝ) < (10 : ℝ) ^ ((a - h) / 400) := Real.rpow_pos_of_pos (by norm_num) _
  have h1 : (10 : ℝ) ^ ((a - h) / 400) < 1 :=
    Real.rpow_lt_one_of_one_lt_of_neg (by norm_num) (by linarith)
  simp only [expectedHome]
  rw [lt_div_iff₀ (by linarith)]
  linarith

/-- The lower rated home side is expected to lose. -/
theorem expectedHome_lt_half (h a : ℝ) (hlt : h < a) :
    expectedHome (fun x : ℝ => (10 : ℝ) ^ x) h a < 1 / 2 := by
  have h1 : 1 < (10 : ℝ) ^ ((a - h) / 400) :=
    Real.one_lt_rpow (by norm_num) (by linarith)
  simp only [expectedHome]
  rw [div_lt_iff₀ (by linarith)]
  linarith

/-- Equal ratings give an expected score of one half. -/
theorem expectedHome_self (x : ℝ) :
    expectedHome (fun y : ℝ => (10 : ℝ) ^ y) x x = 1 / 2 := by
  simp only [expectedHome, sub_self, zero_div, Real.rpow_zero]
  norm_num

/-- The chain of bands of `PredictAll` at an expected score `e` above one half
and at `1 - e`: the scorelines are mirrored, the home win first. -/
theorem bands_mirror_of_gt (e : ℝ) (hgt : 1 / 2 < e) :
    ((if e > 0.85 then "3-0" else if e > 0.70 then "3-1" else if e > 0.55 then "3-2"
      else if e < 0.15 then "0-3" else if e < 0.30 then "1-3" else if e < 0.45 then "2-3"
      else if e ≥ 0.5 then "3-2" else "2-3"),
     (if 1 - e > 0.85 then "3-0" else if 1 - e > 0.70 then "3-1"
      else if 1 - e > 0.55 then "3-2" else if 1 - e < 0.15 then "0-3"
      else if 1 - e < 0.30 then "1-3" else if 1 - e < 0.45 then "2-3"
      else if 1 - e ≥ 0.5 then "3-2" else "2-3")) ∈
      [("3-0", "0-3"), ("3-1", "1-3"), ("3-2", "2-3")] := by
  have m85 : ¬ 1 - e > 0.85 := by intro h; norm_num at h; linarith
  have m70 : ¬ 1 - e > 0.70 := by intro h; norm_num at h; linarith
  have m55 : ¬ 1 - e > 0.55 := by intro h; norm_num at h; linarith
  rw [if_neg m85, if_neg m70, if_neg m55]
  by_cases h85 : e > 0.85
  · have l15 : 1 - e < 0.15 := by norm_num at h85 ⊢; linarith
    rw [if_pos h85, if_pos l15]
    decide
  · rw [if_neg h85]
    have l15 : ¬ 1 - e < 0.15 := by intro h; norm_num at h h85; linarith
    rw [if_neg l15]
    by_cases h70 : e > 0.70
    · have l30 : 1 - e < 0.30 := by norm_num at h70 ⊢; linarith
      rw [if_pos h70, if_pos l30]
      decide
    · rw [if_neg h70]
      have l30 : ¬ 1 - e < 0.30 := by intro h; norm_num at h h70; linarith
      rw [if_neg l30]
      by_cases h55 : e > 0.55
      · have l45 : 1 - e < 0.45 := by norm_num at h55 ⊢; linarith
        rw [if_pos h55, if_pos l45]
        decide
      · have l45 : ¬ 1 - e < 0.45 := by intro h; norm_num at h h55; linarith
        have e15 : ¬ e < 0.15 := by intro h; norm_num at h; linarith
        have e30 : ¬ e < 0.30 := by intro h; norm_num at h; linarith
        have e45 : ¬ e < 0.45 := by intro h; norm_num at h; linarith
        have e50 : e ≥ 0.5 := by norm_num; linarith
        have l50 : ¬ 1 - e ≥ 0.5 := by intro h; norm_num at h; linarith
        rw [if_neg h55, if_neg e15, if_neg e30, if_neg e45, if_pos e50, if_neg l45, if_neg l50]
        decide

/-- C18: the scoreline that `PredictAll` computes for a fixture and the one it
computes for the reversed fixture are mirror images ("3-0" with "0-3", "3-1"
with "1-3", "3-2" with "2-3") whenever the two ratings, after the 1200 default,
differ; when they are equal both orientations get "3-2". -/
theorem predictScore_mirror (eloMap : String → Option ℝ) (m m' : Match)
    (hh : m'.HomeTeam = m.AwayTeam) (ha : m'.AwayTeam = m.HomeTeam) :
    (ratingOr1200 eloMap m.HomeTeam ≠ ratingOr1200 eloMap m.AwayTeam →
      (predictScore (fun x : ℝ => (10 : ℝ) ^ x) eloMap m,
        predictScore (fun x : ℝ => (10 : ℝ) ^ x) eloMap m') ∈
        [("3-0", "0-3"), ("3-1", "1-3"), ("3-2", "2-3"),
         ("0-3", "3-0"), ("1-3", "3-1"), ("2-3", "3-2")]) ∧
    (ratingOr1200 eloMap m.HomeTeam = ratingOr1200 eloMap m.AwayTeam →
      predictScore (fun x : ℝ => (10 : ℝ) ^ x) eloMap m = "3-2" ∧
      predictScore (fun x : ℝ => (10 : ℝ) ^ x) eloMap m' = "3-2") := by
  have hswap := expectedHome_add_swap (ratingOr1200 eloMap m.HomeTeam)
    (ratingOr1200 eloMap m.AwayTeam)
  have hgt := expectedHome_gt_half (ratingOr1200 eloMap m.HomeTeam)
    (ratingOr1200 eloMap m.AwayTeam)
  have hlt := expectedHome_lt_half (ratingOr1200 eloMap m.HomeTeam)
    (ratingOr1200 eloMap m.AwayTeam)
  have hself := expectedHome_self (ratingOr1200 eloMap m.HomeTeam)
  simp only [expectedHome] at hswap hgt hlt hself
  have hrev : 1 / (1 + (10 : ℝ) ^
        ((ratingOr1200 eloMap m.HomeTeam - ratingOr1200 eloMap m.AwayTeam) / 400)) =
      1 - 1 / (1 + (10 : ℝ) ^
        ((ratingOr1200 eloMap m.AwayTeam - ratingOr1200 eloMap m.HomeTeam) / 400)) := by
    linarith
  simp only [predictScore, hh, ha, hrev]
  constructor
  · intro hne
    rcases lt_or_gt_of_ne hne with hlow | hhigh
    · have he := hlt hlow
      generalize 1 / (1 + (10 : ℝ) ^
        ((ratingOr1200 eloMap m.AwayTeam - ratingOr1200 eloMap m.HomeTeam) / 400)) = e at he ⊢
      have hmir := bands_mirror_of_gt (1 - e) (by linarith)
      rw [sub_sub_cancel] at hmir
      simp only [List.mem_cons, Prod.mk.injEq, List.mem_singleton, List.not_mem_nil,
        or_false] at hmir ⊢
      rcases hmir with ⟨h1, h2⟩ | ⟨h1, h2⟩ | ⟨h1, h2⟩
      · exact Or.inr (Or.inr (Or.inr (Or.inl ⟨h2, h1⟩)))
      · exact Or.inr (Or.inr (Or.inr (Or.inr (Or.inl ⟨h2, h1⟩))))
      · exact Or.inr (Or.inr (Or.inr (Or.inr (Or.inr ⟨h2, h1⟩))))
    · have he := hgt hhigh
      generalize 1 / (1 + (10 : ℝ) ^
        ((ratingOr1200 eloMap m.AwayTeam - ratingOr1200 eloMap m.HomeTeam) / 400)) = e at he ⊢
      have hmir := bands_mirror_of_gt e he
      simp only [List.mem_cons, Prod.mk.injEq, List.mem_singleton, List.not_mem_nil,
        or_false] at hmir ⊢
      rcases hmir with h | h | h
      · exact Or.inl h
      · exact Or.inr (Or.inl h)
      · exact Or.inr (Or.inr (Or.inl h))
  · intro heq
    have he : 1 / (1 + (10 : ℝ) ^
        ((ratingOr1200 eloMap m.AwayTeam - ratingOr1200 eloMap m.HomeTeam) / 400)) = 1 / 2 := by
      rw [← heq]
      exact hself
    rw [he]
    norm_num

/-- C18, witness: A rated 1300 and B rated 1200, the fixtures A - B and
B - A. -/
theorem predictScore_mirror_witness :
    (Match.mk "B" "A" "" false "2024-03-02").HomeTeam =
      (Match.mk "A" "B" "" false "2024-03-01").AwayTeam ∧
    (Match.mk "B" "A" "" false "2024-03-02").AwayTeam =
      (Match.mk "A" "B" "" false "2024-03-01").HomeTeam ∧
    ((ratingOr1200 (mapSet (mapSet (fun _ => none) "A" (1300 : ℝ)) "B" 1200)
          (Match.mk "A" "B" "" false "2024-03-01").HomeTeam ≠
        ratingOr1200 (mapSet (mapSet (fun _ => none) "A" (1300 : ℝ)) "B" 1200)
          (Match.mk "A" "B" "" false "2024-03-01").AwayTeam →
      (predictScore (fun x : ℝ => (10 : ℝ) ^ x)
          (mapSet (mapSet (fun _ => none) "A" (1300 : ℝ)) "B" 1200)
          (Match.mk "A" "B" "" false "2024-03-01"),
        predictScore (fun x : ℝ => (10 : ℝ) ^ x)
          (mapSet (mapSet (fun _ => none) "A" (1300 : ℝ)) "B" 1200)
          (Match.mk "B" "A" "" false "2024-03-02")) ∈
        [("3-0", "0-3"), ("3-1", "1-3"), ("3-2", "2-3"),
         ("0-3", "3-0"), ("1-3", "3-1"), ("2-3", "3-2")]) ∧
    (ratingOr1200 (mapSet (mapSet (fun _ => none) "A" (1300 : ℝ)) "B" 1200)
          (Match.mk "A" "B" "" false "2024-03-01").HomeTeam =
        ratingOr1200 (mapSet (mapSet (fun _ => none) "A" (1300 : ℝ)) "B" 1200)
          (Match.mk "A" "B" "" false "2024-03-01").AwayTeam →
      predictScore (fun x : ℝ => (10 : ℝ) ^ x)
          (mapSet (mapSet (fun _ => none) "A" (1300 : ℝ)) "B" 1200)
          (Match.mk "A" "B" "" false "2024-03-01") = "3-2" ∧
      predictScore (fun x : ℝ => (10 : ℝ) ^ x)
          (mapSet (mapSet (fun _ => none) "A" (1300 : ℝ)) "B" 1200)
          (Match.mk "B" "A" "" false "2024-03-02") = "3-2")) :=
  ⟨rfl, rfl,
    predictScore_mirror (mapSet (mapSet (fun _ => none) "A" (1300 : ℝ)) "B" 1200)
      (Match.mk "A" "B" "" false "2024-03-01") (Match.mk "B" "A" "" false "2024-03-02")
      rfl rfl⟩

/-! ### Which matches influence the ratings -/

/-- After the initialisation loop of `CalculateElo` every listed team is rated
1200 and every other name is as before. -/
theorem foldl_init_ratings {F : Type} [LinearOrderedField F] (teams : List TeamStats)
    (r0 : String → Option F) (k : String) :
    (teams.foldl (fun r t => mapSet r t.Name (1200 : F)) r0) k =
      if k ∈ teams.map (fun t => t.Name) then some 1200 else r0 k := by
  induction teams generalizing r0 with
  | nil => simp
  | cons t ts ih =>
    rw [List.foldl_cons, ih]
    by_cases hk : k ∈ ts.map (fun t => t.Name)
    · have hk' : k ∈ (t :: ts).map (fun t => t.Name) := by
        rw [List.map_cons]
        exact List.mem_cons_of_mem _ hk
      rw [if_pos hk, if_pos hk']
    · rw [if_neg hk]
      by_cases hkt : k = t.Name
      · have hk' : k ∈ (t :: ts).map (fun t => t.Name) := by
          rw [List.map_cons, hkt]
          exact List.mem_cons_self _ _
        rw [if_pos hk', hkt, mapSet_same]
      · have hk' : ¬ k ∈ (t :: ts).map (fun t => t.Name) := by
          rw [List.map_cons, List.mem_cons]
          rintro (h | h)
          · exact hkt h
          · exact hk h
        rw [if_neg hk', mapSet_other _ _ _ _ hkt]

/-- A match leaves the rating of every team other than its two sides alone. -/
theorem eloStep_other {F : Type} [LinearOrderedField F] (pow10 : F → F)
    (ratings : String → Option F) (m : Match) (k : String)
    (hh : k ≠ m.HomeTeam) (ha : k ≠ m.AwayTeam) :
    eloStep pow10 ratings m k = ratings k := by
  simp only [eloStep]
  by_cases hlen : (splitDash m.ResultScore.data).length ≠ 2
  · rw [if_pos hlen]
  · rw [if_neg hlen, mapSet_other _ _ _ _ ha, mapSet_other _ _ _ _ hh]

/-- A replay leaves the rating of a team that plays in none of the matches
alone. -/
theorem foldl_eloStep_other {F : Type} [LinearOrderedField F] (pow10 : F → F)
    (l : List Match) (k : String)
    (hk : ∀ m ∈ l, m.HomeTeam ≠ k ∧ m.AwayTeam ≠ k) (ratings : String → Option F) :
    (l.foldl (eloStep pow10) ratings) k = ratings k := by
  induction l generalizing ratings with
  | nil => rfl
  | cons m l ih =>
    rw [List.foldl_cons, ih (fun x hx => hk x (List.mem_cons_of_mem _ hx))]
    obtain ⟨h1, h2⟩ := hk m (List.mem_cons_self _ _)
    exact eloStep_other pow10 ratings m k (Ne.symm h1) (Ne.symm h2)

/-- The date comparator of `CalculateElo` is irreflexive. -/
theorem dateLess_irrefl (a : Match) : strLess a.MatchDate a.MatchDate = false := by
  simp [strLess]

/-- The date comparator of `CalculateElo` is transitive. -/
theorem dateLess_trans (a b c : Match) (hab : strLess a.MatchDate b.MatchDate = true)
    (hbc : strLess b.MatchDate c.MatchDate = true) :
    strLess a.MatchDate c.MatchDate = true := by
  simp only [strLess, decide_eq_true_eq] at *
  exact lt_trans hab hbc

/-- Being not earlier is transitive for the date comparator of `CalculateElo`. -/
theorem dateLess_negTrans (a b c : Match) (hab : strLess a.MatchDate b.MatchDate = false)
    (hbc : strLess b.MatchDate c.MatchDate = false) :
    strLess a.MatchDate c.MatchDate = false :=
  dateLE_trans c b a hbc hab

/-- C17: `CalculateElo` returns the same ratings for a match list and for the
list without the matches that are unplayed or have an empty score; a listed
team that plays in none of the remaining matches is rated exactly 1200, and
with no remaining match every listed team is rated 1200 (`sort.Slice` being
any sorter that returns a rearrangement of its input). -/
theorem CalculateElo_only_played_scored {F : Type} [LinearOrderedField F] (pow10 : F → F)
    (sortSlice : (Match → Match → Bool) → List Match → List Match)
    (hsort : SortSliceSpec sortSlice) (teams : List TeamStats) (matchList : List Match) :
    CalculateElo pow10 sortSlice teams matchList =
      CalculateElo pow10 sortSlice teams
        (matchList.filter (fun m => m.IsPlayed && m.ResultScore != "")) ∧
    (∀ t ∈ teams,
      (∀ m ∈ matchList.filter (fun m => m.IsPlayed && m.ResultScore != ""),
        m.HomeTeam ≠ t.Name ∧ m.AwayTeam ≠ t.Name) →
      CalculateElo pow10 sortSlice teams matchList t.Name = some 1200) ∧
    (matchList.filter (fun m => m.IsPlayed && m.ResultScore != "") = [] →
      ∀ t ∈ teams, CalculateElo pow10 sortSlice teams matchList t.Name = some 1200) := by
  have hperm := fun l => (hsort (fun a b : Match => strLess a.MatchDate b.MatchDate)
    dateLess_irrefl dateLess_trans dateLess_negTrans l).1
  have hlisted : ∀ t ∈ teams,
      (∀ m ∈ matchList.filter (fun m => m.IsPlayed && m.ResultScore != ""),
        m.HomeTeam ≠ t.Name ∧ m.AwayTeam ≠ t.Name) →
      CalculateElo pow10 sortSlice teams matchList t.Name = some 1200 := by
    intro t ht hfree
    simp only [CalculateElo]
    rw [foldl_eloStep_other pow10 _ t.Name
      (fun m hm => hfree m ((hperm _).mem_iff.mp hm)), foldl_init_ratings]
    rw [if_pos (List.mem_map_of_mem _ ht)]
  refine ⟨?_, hlisted, ?_⟩
  · simp only [CalculateElo, List.filter_filter, Bool.and_self]
  · intro hnone t ht
    apply hlisted t ht
    intro m hm
    rw [hnone] at hm
    cases hm

/-- C17, witness: A, B and C listed; one played match A - B, one unplayed match
and one played match without a score, both involving C. -/
theorem CalculateElo_only_played_scored_witness :
    SortSliceSpec (@stableSortSlice Match) ∧
    (CalculateElo (fun x : ℝ => (10 : ℝ) ^ x) stableSortSlice
        [⟨"A", 0, 0, 0, 0, 0⟩, ⟨"B", 0, 0, 0, 0, 0⟩, ⟨"C", 0, 0, 0, 0, 0⟩]
        [Match.mk "A" "B" "3-1" true "2024-01-01", Match.mk "A" "C" "" false "2024-01-08",
          Match.mk "C" "B" "" true "2024-01-02"] =
      CalculateElo (fun x : ℝ => (10 : ℝ) ^ x) stableSortSlice
        [⟨"A", 0, 0, 0, 0, 0⟩, ⟨"B", 0, 0, 0, 0, 0⟩, ⟨"C", 0, 0, 0, 0, 0⟩]
        ([Match.mk "A" "B" "3-1" true "2024-01-01", Match.mk "A" "C" "" false "2024-01-08",
          Match.mk "C" "B" "" true "2024-01-02"].filter
          (fun m => m.IsPlayed && m.ResultScore != "")) ∧
    (∀ t ∈ ([⟨"A", 0, 0, 0, 0, 0⟩, ⟨"B", 0, 0, 0, 0, 0⟩, ⟨"C", 0, 0, 0, 0, 0⟩] :
          List TeamStats),
      (∀ m ∈ [Match.mk "A" "B" "3-1" true "2024-01-01", Match.mk "A" "C" "" false "2024-01-08",
          Match.mk "C" "B" "" true "2024-01-02"].filter
          (fun m => m.IsPlayed && m.ResultScore != ""),
        m.HomeTeam ≠ t.Name ∧ m.AwayTeam ≠ t.Name) →
      CalculateElo (fun x : ℝ => (10 : ℝ) ^ x) stableSortSlice
        [⟨"A", 0, 0, 0, 0, 0⟩, ⟨"B", 0, 0, 0, 0, 0⟩, ⟨"C", 0, 0, 0, 0, 0⟩]
        [Match.mk "A" "B" "3-1" true "2024-01-01", Match.mk "A" "C" "" false "2024-01-08",
          Match.mk "C" "B" "" true "2024-01-02"] t.Name = some 1200) ∧
    ([Match.mk "A" "B" "3-1" true "2024-01-01", Match.mk "A" "C" "" false "2024-01-08",
          Match.mk "C" "B" "" true "2024-01-02"].filter
          (fun m => m.IsPlayed && m.ResultScore != "") = [] →
      ∀ t ∈ ([⟨"A", 0, 0, 0, 0, 0⟩, ⟨"B", 0, 0, 0, 0, 0⟩, ⟨"C", 0, 0, 0, 0, 0⟩] :
          List TeamStats),
        CalculateElo (fun x : ℝ => (10 : ℝ) ^ x) stableSortSlice
          [⟨"A", 0, 0, 0, 0, 0⟩, ⟨"B", 0, 0, 0, 0, 0⟩, ⟨"C", 0, 0, 0, 0, 0⟩]
          [Match.mk "A" "B" "3-1" true "2024-01-01", Match.mk "A" "C" "" false "2024-01-08",
            Match.mk "C" "B" "" true "2024-01-02"] t.Name = some 1200)) :=
  ⟨stableSortSlice_spec,
    CalculateElo_only_played_scored (fun x : ℝ => (10 : ℝ) ^ x) stableSortSlice
      stableSortSlice_spec
      [⟨"A", 0, 0, 0, 0, 0⟩, ⟨"B", 0, 0, 0, 0, 0⟩, ⟨"C", 0, 0, 0, 0, 0⟩]
      [Match.mk "A" "B" "3-1" true "2024-01-01", Match.mk "A" "C" "" false "2024-01-08",
        Match.mk "C" "B" "" true "2024-01-02"]⟩

/-! ### The order of the replay -/

theorem charToNat_injective : Function.Injective Char.toNat := by
  intro a b h
  apply Char.ext
  rcases a with ⟨⟨⟨⟨va, ha⟩⟩⟩, hva⟩
  rcases b with ⟨⟨⟨⟨vb, hb⟩⟩⟩, hvb⟩
  have hv : va = vb := by simpa [Char.toNat, UInt32.toNat, BitVec.toNat] using h
  subst hv
  rfl

/-- Two dates that the comparator cannot tell apart are the same string. -/
theorem eq_of_not_strLess (a b : String) (hab : strLess a b = false)
    (hba : strLess b a = false) : a = b := by
  simp only [strLess, decide_eq_false_iff_not, not_lt] at hab hba
  exact String.ext (List.map_injective_iff.mpr charToNat_injective (le_antisymm hba hab))

/-- The insertion sort keeps matches of one date in their input order. -/
theorem stableSortSlice_date_stable (l : List Match) (d : String) :
    (stableSortSlice (fun a b => strLess a.MatchDate b.MatchDate) l).filter
        (fun m => decide (m.MatchDate = d)) =
      l.filter (fun m => decide (m.MatchDate = d)) := by
  rw [filter_stableSortSlice_date]
  apply List.Sorted.insertionSort_eq
  apply List.Pairwise.imp_of_mem _ (List.pairwise_of_forall (R := fun _ _ => True)
    (fun _ _ => trivial))
  intro a b ha hb _
  have hda : a.MatchDate = d := by simpa using (List.mem_filter.mp ha).2
  have hdb : b.MatchDate = d := by simpa using (List.mem_filter.mp hb).2
  show strLess b.MatchDate a.MatchDate = false
  rw [hda, hdb]
  simp [strLess]

/-- Any two rearrangements of matches with pairwise different dates that are
both in ascending date order are the same list. -/
theorem date_sorted_unique (l l1 l2 : List Match)
    (hnodup : (l.map (fun m => m.MatchDate)).Nodup)
    (hp1 : l1.Perm l) (hp2 : l2.Perm l)
    (hs1 : l1.Pairwise (fun a b => strLess b.MatchDate a.MatchDate = false))
    (hs2 : l2.Pairwise (fun a b => strLess b.MatchDate a.MatchDate = false)) :
    l1 = l2 := by
  have hdiff : l.Pairwise (fun a b => a.MatchDate ≠ b.MatchDate) := by
    have h := List.pairwise_map.mp hnodup
    exact h
  have hsymm : ∀ {x y : Match}, x.MatchDate ≠ y.MatchDate → y.MatchDate ≠ x.MatchDate :=
    fun h => Ne.symm h
  have hstrict : ∀ l' : List Match, l'.Perm l →
      l'.Pairwise (fun a b => strLess b.MatchDate a.MatchDate = false) →
      l'.Sorted (fun a b => strLess a.MatchDate b.MatchDate = true) := by
    intro l' hp hs
    have hd : l'.Pairwise (fun a b => a.MatchDate ≠ b.MatchDate) :=
      (List.Perm.pairwise_iff hsymm hp).mpr hdiff
    refine List.Pairwise.imp ?_ (List.Pairwise.and hs hd)
    intro a b hab
    by_contra hlt
    exact hab.2 (eq_of_not_strLess _ _ (by simpa using hlt) hab.1)
  haveI : IsAntisymm Match (fun a b => strLess a.MatchDate b.MatchDate = true) :=
    ⟨fun a b hab hba => by
      have := dateLess_trans a b a hab hba
      rw [dateLess_irrefl] at this
      exact absurd this Bool.false_ne_true⟩
  exact List.eq_of_perm_of_sorted (hp1.trans hp2.symm) (hstrict l1 hp1 hs1) (hstrict l2 hp2 hs2)

/-- The rating stored for the home team by a match between two distinct teams
whose score has two fields. -/
theorem eloStep_mapGet_home {F : Type} [LinearOrderedField F] (pow10 : F → F)
    (ratings : String → Option F) (m : Match) (p0 p1 : List Char)
    (hparse : splitDash m.ResultScore.data = [p0, p1]) (hne : m.HomeTeam ≠ m.AwayTeam) :
    mapGet (eloStep pow10 ratings m) m.HomeTeam =
      ratingOr1200 ratings m.HomeTeam +
        32 * (if |atoi p0 - atoi p1| = 3 then 1.3
              else if |atoi p0 - atoi p1| = 2 then 1.1 else 1) *
          ((if atoi p0 > atoi p1 then 1 else 0) -
            expectedHome pow10 (ratingOr1200 ratings m.HomeTeam)
              (ratingOr1200 ratings m.AwayTeam)) := by
  rw [eloStep_of_two_fields pow10 ratings m p0 p1 hparse]
  simp only [mapGet, mapSet_same, mapSet_other _ _ _ _ hne, Option.getD_some]

/-- The rating stored for the away team by a match whose score has two
fields. -/
theorem eloStep_mapGet_away {F : Type} [LinearOrderedField F] (pow10 : F → F)
    (ratings : String → Option F) (m : Match) (p0 p1 : List Char)
    (hparse : splitDash m.ResultScore.data = [p0, p1]) :
    mapGet (eloStep pow10 ratings m) m.AwayTeam =
      ratingOr1200 ratings m.AwayTeam +
        32 * (if |atoi p0 - atoi p1| = 3 then 1.3
              else if |atoi p0 - atoi p1| = 2 then 1.1 else 1) *
          ((1 - (if atoi p0 > atoi p1 then 1 else 0)) -
            expectedHome pow10 (ratingOr1200 ratings m.AwayTeam)
              (ratingOr1200 ratings m.HomeTeam)) := by
  rw [eloStep_of_two_fields pow10 ratings m p0 p1 hparse]
  simp only [mapGet, mapSet_same, Option.getD_some]

/-- A match reads and writes the ratings of its two sides only. -/
theorem eloStep_congr {F : Type} [LinearOrderedField F] (pow10 : F → F)
    (r r' : String → Option F) (m : Match)
    (hh : r m.HomeTeam = r' m.HomeTeam) (ha : r m.AwayTeam = r' m.AwayTeam) :
    eloStep pow10 r m m.HomeTeam = eloStep pow10 r' m m.HomeTeam ∧
    eloStep pow10 r m m.AwayTeam = eloStep pow10 r' m m.AwayTeam := by
  have h1 : ratingOr1200 r m.HomeTeam = ratingOr1200 r' m.HomeTeam := by
    simp only [ratingOr1200, mapGet, hh]
  have h2 : ratingOr1200 r m.AwayTeam = ratingOr1200 r' m.AwayTeam := by
    simp only [ratingOr1200, mapGet, ha]
  simp only [eloStep, h1, h2]
  by_cases hlen : (splitDash m.ResultScore.data).length ≠ 2
  · rw [if_pos hlen, if_pos hlen]
    exact ⟨hh, ha⟩
  · rw [if_neg hlen, if_neg hlen]
    refine ⟨?_, ?_⟩
    · by_cases hne : m.HomeTeam = m.AwayTeam
      · simp [mapSet, hne]
      · simp [mapSet, hne]
    · simp [mapSet]

/-- In a replay whose matches are either `a` against `b` or involve neither of
the two, the ratings of `a` and `b` are those of replaying the matches of `a`
against `b` alone. -/
theorem foldl_eloStep_pair {F : Type} [LinearOrderedField F] (pow10 : F → F)
    (a b : String) (l : List Match)
    (hl : ∀ m ∈ l, (m.HomeTeam = a ∧ m.AwayTeam = b) ∨
      (m.HomeTeam ≠ a ∧ m.HomeTeam ≠ b ∧ m.AwayTeam ≠ a ∧ m.AwayTeam ≠ b))
    (r r' : String → Option F) (ha : r a = r' a) (hb : r b = r' b) :
    (l.foldl (eloStep pow10) r) a =
        ((l.filter (fun m => decide (m.HomeTeam = a))).foldl (eloStep pow10) r') a ∧
    (l.foldl (eloStep pow10) r) b =
        ((l.filter (fun m => decide (m.HomeTeam = a))).foldl (eloStep pow10) r') b := by
  induction l generalizing r r' with
  | nil => exact ⟨ha, hb⟩
  | cons m l ih =>
    have hl' : ∀ x ∈ l, (x.HomeTeam = a ∧ x.AwayTeam = b) ∨
        (x.HomeTeam ≠ a ∧ x.HomeTeam ≠ b ∧ x.AwayTeam ≠ a ∧ x.AwayTeam ≠ b) :=
      fun x hx => hl x (List.mem_cons_of_mem _ hx)
    rcases hl m (List.mem_cons_self _ _) with ⟨h1, h2⟩ | ⟨h1, h2, h3, h4⟩
    · rw [List.filter_cons_of_pos (by simpa using h1), List.foldl_cons, List.foldl_cons]
      have hc := eloStep_congr pow10 r r' m (by rw [h1]; exact ha) (by rw [h2]; exact hb)
      rw [h1, h2] at hc
      exact ih hl' _ _ hc.1 hc.2
    · rw [List.filter_cons_of_neg (by simpa using h1), List.foldl_cons]
      refine ih hl' _ _ ?_ ?_
      · rw [eloStep_other pow10 r m a (Ne.symm h1) (Ne.symm h3)]
        exact ha
      · rw [eloStep_other pow10 r m b (Ne.symm h2) (Ne.symm h4)]
        exact hb

/-- Two matches of A against B from the initial ratings 1200 and 1200: a 3-0
followed by a 0-3 leaves A below 1200, a 0-3 followed by a 3-0 leaves A above
1200. -/
theorem sameDay_pair_ratings :
    mapGet (eloStep (fun x : ℝ => (10 : ℝ) ^ x)
        (eloStep (fun x : ℝ => (10 : ℝ) ^ x)
          (mapSet (mapSet (fun _ => none) "A" (1200 : ℝ)) "B" 1200)
          (Match.mk "A" "B" "3-0" true "2024-01-02"))
        (Match.mk "A" "B" "0-3" true "2024-01-02")) "A" < 1200 ∧
    mapGet (eloStep (fun x : ℝ => (10 : ℝ) ^ x)
        (eloStep (fun x : ℝ => (10 : ℝ) ^ x)
          (mapSet (mapSet (fun _ => none) "A" (1200 : ℝ)) "B" 1200)
          (Match.mk "A" "B" "0-3" true "2024-01-02"))
        (Match.mk "A" "B" "3-0" true "2024-01-02")) "A" > 1200 := by
  have hp30 : splitDash (Match.mk "A" "B" "3-0" true "2024-01-02").ResultScore.data =
      [['3'], ['0']] := by decide
  have hp03 : splitDash (Match.mk "A" "B" "0-3" true "2024-01-02").ResultScore.data =
      [['0'], ['3']] := by decide
  have h3 : atoi ['3'] = 3 := by decide
  have h0 : atoi ['0'] = 0 := by decide
  have hAB : ("A" : String) ≠ "B" := by decide
  have hinitA : ratingOr1200 (mapSet (mapSet (fun _ => none) "A" (1200 : ℝ)) "B" 1200) "A" =
      1200 := by
    simp [ratingOr1200, mapGet, mapSet_other _ _ _ _ hAB, mapSet_same]
  have hinitB : ratingOr1200 (mapSet (mapSet (fun _ => none) "A" (1200 : ℝ)) "B" 1200) "B" =
      1200 := by
    simp [ratingOr1200, mapGet, mapSet_same]
  -- the first match of each order, from 1200 - 1200
  have hwinA := eloStep_mapGet_home (fun x : ℝ => (10 : ℝ) ^ x)
    (mapSet (mapSet (fun _ => none) "A" (1200 : ℝ)) "B" 1200)
    (Match.mk "A" "B" "3-0" true "2024-01-02") _ _ hp30 hAB
  have hwinB := eloStep_mapGet_away (fun x : ℝ => (10 : ℝ) ^ x)
    (mapSet (mapSet (fun _ => none) "A" (1200 : ℝ)) "B" 1200)
    (Match.mk "A" "B" "3-0" true "2024-01-02") _ _ hp30
  have hlossA := eloStep_mapGet_home (fun x : ℝ => (10 : ℝ) ^ x)
    (mapSet (mapSet (fun _ => none) "A" (1200 : ℝ)) "B" 1200)
    (Match.mk "A" "B" "0-3" true "2024-01-02") _ _ hp03 hAB
  have hlossB := eloStep_mapGet_away (fun x : ℝ => (10 : ℝ) ^ x)
    (mapSet (mapSet (fun _ => none) "A" (1200 : ℝ)) "B" 1200)
    (Match.mk "A" "B" "0-3" true "2024-01-02") _ _ hp03
  simp only [hinitA, hinitB, h3, h0, expectedHome_self] at hwinA hwinB hlossA hlossB
  norm_num at hwinA hwinB hlossA hlossB
  have hrA1 : ratingOr1200 (eloStep (fun x : ℝ => (10 : ℝ) ^ x)
      (mapSet (mapSet (fun _ => none) "A" (1200 : ℝ)) "B" 1200)
      (Match.mk "A" "B" "3-0" true "2024-01-02")) "A" = 6104 / 5 := by
    simp only [ratingOr1200, hwinA]; norm_num
  have hrB1 : ratingOr1200 (eloStep (fun x : ℝ => (10 : ℝ) ^ x)
      (mapSet (mapSet (fun _ => none) "A" (1200 : ℝ)) "B" 1200)
      (Match.mk "A" "B" "3-0" true "2024-01-02")) "B" = 5896 / 5 := by
    simp only [ratingOr1200, hwinB]; norm_num
  have hqA1 : ratingOr1200 (eloStep (fun x : ℝ => (10 : ℝ) ^ x)
      (mapSet (mapSet (fun _ => none) "A" (1200 : ℝ)) "B" 1200)
      (Match.mk "A" "B" "0-3" true "2024-01-02")) "A" = 5896 / 5 := by
    simp only [ratingOr1200, hlossA]; norm_num
  have hqB1 : ratingOr1200 (eloStep (fun x : ℝ => (10 : ℝ) ^ x)
      (mapSet (mapSet (fun _ => none) "A" (1200 : ℝ)) "B" 1200)
      (Match.mk "A" "B" "0-3" true "2024-01-02")) "B" = 6104 / 5 := by
    simp only [ratingOr1200, hlossB]; norm_num
  -- the second match of each order
  have hstable := eloStep_mapGet_home (fun x : ℝ => (10 : ℝ) ^ x)
    (eloStep (fun x : ℝ => (10 : ℝ) ^ x)
      (mapSet (mapSet (fun _ => none) "A" (1200 : ℝ)) "B" 1200)
      (Match.mk "A" "B" "3-0" true "2024-01-02"))
    (Match.mk "A" "B" "0-3" true "2024-01-02") _ _ hp03 hAB
  have hreversed := eloStep_mapGet_home (fun x : ℝ => (10 : ℝ) ^ x)
    (eloStep (fun x : ℝ => (10 : ℝ) ^ x)
      (mapSet (mapSet (fun _ => none) "A" (1200 : ℝ)) "B" 1200)
      (Match.mk "A" "B" "0-3" true "2024-01-02"))
    (Match.mk "A" "B" "3-0" true "2024-01-02") _ _ hp30 hAB
  simp only [hrA1, hrB1, hqA1, hqB1, h3, h0] at hstable hreversed
  have hfav := expectedHome_gt_half (6104 / 5) (5896 / 5) (by norm_num)
  have hunder := expectedHome_lt_half (5896 / 5) (6104 / 5) (by norm_num)
  norm_num at hstable hreversed
  refine ⟨?_, ?_⟩
  · rw [hstable]
    linarith
  · rw [hreversed]
    linarith

/-- C11, counterexample: thirteen played matches.  In input order: C - D, then
A - B 3-0, then A - B 0-3, then nine more C - D, all on 2024-01-02, and last a
C - D of 2024-01-01.  The stably date-sorted list has A - B 3-0 before A - B 0-3,
and its left fold rates A below 1200.  The algorithm of `sort.Slice` partitions
the thirteen matches around a pivot and thereby moves A - B 3-0 behind A - B 0-3,
so `CalculateElo` replays 0-3 before 3-0 and rates A above 1200. -/
theorem CalculateElo_equal_dates_reordered :
    goSortSlice (fun a b : Match => strLess a.MatchDate b.MatchDate)
        ((Match.mk "C" "D" "3-0" true "2024-01-02" ::
          Match.mk "A" "B" "3-0" true "2024-01-02" ::
          Match.mk "A" "B" "0-3" true "2024-01-02" ::
          (List.replicate 9 (Match.mk "C" "D" "3-0" true "2024-01-02") ++
            [Match.mk "C" "D" "3-0" true "2024-01-01"])).filter
          (fun m => m.IsPlayed && m.ResultScore != "")) =
      some (Match.mk "C" "D" "3-0" true "2024-01-01" ::
          Match.mk "C" "D" "3-0" true "2024-01-02" ::
          Match.mk "A" "B" "0-3" true "2024-01-02" ::
          (List.replicate 9 (Match.mk "C" "D" "3-0" true "2024-01-02") ++
            [Match.mk "A" "B" "3-0" true "2024-01-02"])) ∧
    stableSortSlice (fun a b : Match => strLess a.MatchDate b.MatchDate)
        ((Match.mk "C" "D" "3-0" true "2024-01-02" ::
          Match.mk "A" "B" "3-0" true "2024-01-02" ::
          Match.mk "A" "B" "0-3" true "2024-01-02" ::
          (List.replicate 9 (Match.mk "C" "D" "3-0" true "2024-01-02") ++
            [Match.mk "C" "D" "3-0" true "2024-01-01"])).filter
          (fun m => m.IsPlayed && m.ResultScore != "")) =
      (Match.mk "C" "D" "3-0" true "2024-01-01" ::
          Match.mk "C" "D" "3-0" true "2024-01-02" ::
          Match.mk "A" "B" "3-0" true "2024-01-02" ::
          Match.mk "A" "B" "0-3" true "2024-01-02" ::
          List.replicate 9 (Match.mk "C" "D" "3-0" true "2024-01-02")) ∧
    mapGet (CalculateElo (fun x : ℝ => (10 : ℝ) ^ x)
        (fun less l => (goSortSlice less l).getD l)
        [⟨"A", 0, 0, 0, 0, 0⟩, ⟨"B", 0, 0, 0, 0, 0⟩, ⟨"C", 0, 0, 0, 0, 0⟩,
          ⟨"D", 0, 0, 0, 0, 0⟩]
        (Match.mk "C" "D" "3-0" true "2024-01-02" ::
          Match.mk "A" "B" "3-0" true "2024-01-02" ::
          Match.mk "A" "B" "0-3" true "2024-01-02" ::
          (List.replicate 9 (Match.mk "C" "D" "3-0" true "2024-01-02") ++
            [Match.mk "C" "D" "3-0" true "2024-01-01"])))
      "A" > 1200 ∧
    mapGet ((stableSortSlice (fun a b => strLess a.MatchDate b.MatchDate)
        ((Match.mk "C" "D" "3-0" true "2024-01-02" ::
          Match.mk "A" "B" "3-0" true "2024-01-02" ::
          Match.mk "A" "B" "0-3" true "2024-01-02" ::
          (List.replicate 9 (Match.mk "C" "D" "3-0" true "2024-01-02") ++
            [Match.mk "C" "D" "3-0" true "2024-01-01"])).filter
          (fun m => m.IsPlayed && m.ResultScore != ""))).foldl
        (eloStep (fun x : ℝ => (10 : ℝ) ^ x))
        (([⟨"A", 0, 0, 0, 0, 0⟩, ⟨"B", 0, 0, 0, 0, 0⟩, ⟨"C", 0, 0, 0, 0, 0⟩,
          ⟨"D", 0, 0, 0, 0, 0⟩] : List TeamStats).foldl
          (fun r t => mapSet r t.Name 1200) (fun _ => none))) "A" < 1200 ∧
    CalculateElo (fun x : ℝ => (10 : ℝ) ^ x)
        (fun less l => (goSortSlice less l).getD l)
        [⟨"A", 0, 0, 0, 0, 0⟩, ⟨"B", 0, 0, 0, 0, 0⟩, ⟨"C", 0, 0, 0, 0, 0⟩,
          ⟨"D", 0, 0, 0, 0, 0⟩]
        (Match.mk "C" "D" "3-0" true "2024-01-02" ::
          Match.mk "A" "B" "3-0" true "2024-01-02" ::
          Match.mk "A" "B" "0-3" true "2024-01-02" ::
          (List.replicate 9 (Match.mk "C" "D" "3-0" true "2024-01-02") ++
            [Match.mk "C" "D" "3-0" true "2024-01-01"])) ≠
      (stableSortSlice (fun a b => strLess a.MatchDate b.MatchDate)
        ((Match.mk "C" "D" "3-0" true "2024-01-02" ::
          Match.mk "A" "B" "3-0" true "2024-01-02" ::
          Match.mk "A" "B" "0-3" true "2024-01-02" ::
          (List.replicate 9 (Match.mk "C" "D" "3-0" true "2024-01-02") ++
            [Match.mk "C" "D" "3-0" true "2024-01-01"])).filter
          (fun m => m.IsPlayed && m.ResultScore != ""))).foldl
        (eloStep (fun x : ℝ => (10 : ℝ) ^ x))
        (([⟨"A", 0, 0, 0, 0, 0⟩, ⟨"B", 0, 0, 0, 0, 0⟩, ⟨"C", 0, 0, 0, 0, 0⟩,
          ⟨"D", 0, 0, 0, 0, 0⟩] : List TeamStats).foldl
          (fun r t => mapSet r t.Name 1200) (fun _ => none)) := by
  have hgo : goSortSlice (fun a b : Match => strLess a.MatchDate b.MatchDate)
        ((Match.mk "C" "D" "3-0" true "2024-01-02" ::
          Match.mk "A" "B" "3-0" true "2024-01-02" ::
          Match.mk "A" "B" "0-3" true "2024-01-02" ::
          (List.replicate 9 (Match.mk "C" "D" "3-0" true "2024-01-02") ++
            [Match.mk "C" "D" "3-0" true "2024-01-01"])).filter
          (fun m => m.IsPlayed && m.ResultScore != "")) =
      some (Match.mk "C" "D" "3-0" true "2024-01-01" ::
          Match.mk "C" "D" "3-0" true "2024-01-02" ::
          Match.mk "A" "B" "0-3" true "2024-01-02" ::
          (List.replicate 9 (Match.mk "C" "D" "3-0" true "2024-01-02") ++
            [Match.mk "A" "B" "3-0" true "2024-01-02"])) := by
    decide
  have hst : stableSortSlice (fun a b : Match => strLess a.MatchDate b.MatchDate)
        ((Match.mk "C" "D" "3-0" true "2024-01-02" ::
          Match.mk "A" "B" "3-0" true "2024-01-02" ::
          Match.mk "A" "B" "0-3" true "2024-01-02" ::
          (List.replicate 9 (Match.mk "C" "D" "3-0" true "2024-01-02") ++
            [Match.mk "C" "D" "3-0" true "2024-01-01"])).filter
          (fun m => m.IsPlayed && m.ResultScore != "")) =
      (Match.mk "C" "D" "3-0" true "2024-01-01" ::
          Match.mk "C" "D" "3-0" true "2024-01-02" ::
          Match.mk "A" "B" "3-0" true "2024-01-02" ::
          Match.mk "A" "B" "0-3" true "2024-01-02" ::
          List.replicate 9 (Match.mk "C" "D" "3-0" true "2024-01-02")) := by
    decide
  have hgoPair : ∀ m ∈ (Match.mk "C" "D" "3-0" true "2024-01-01" ::
          Match.mk "C" "D" "3-0" true "2024-01-02" ::
          Match.mk "A" "B" "0-3" true "2024-01-02" ::
          (List.replicate 9 (Match.mk "C" "D" "3-0" true "2024-01-02") ++
            [Match.mk "A" "B" "3-0" true "2024-01-02"])),
      (m.HomeTeam = "A" ∧ m.AwayTeam = "B") ∨
        (m.HomeTeam ≠ "A" ∧ m.HomeTeam ≠ "B" ∧ m.AwayTeam ≠ "A" ∧ m.AwayTeam ≠ "B") := by
    decide
  have hstPair : ∀ m ∈ (Match.mk "C" "D" "3-0" true "2024-01-01" ::
          Match.mk "C" "D" "3-0" true "2024-01-02" ::
          Match.mk "A" "B" "3-0" true "2024-01-02" ::
          Match.mk "A" "B" "0-3" true "2024-01-02" ::
          List.replicate 9 (Match.mk "C" "D" "3-0" true "2024-01-02")),
      (m.HomeTeam = "A" ∧ m.AwayTeam = "B") ∨
        (m.HomeTeam ≠ "A" ∧ m.HomeTeam ≠ "B" ∧ m.AwayTeam ≠ "A" ∧ m.AwayTeam ≠ "B") := by
    decide
  have hgoAB : (Match.mk "C" "D" "3-0" true "2024-01-01" ::
          Match.mk "C" "D" "3-0" true "2024-01-02" ::
          Match.mk "A" "B" "0-3" true "2024-01-02" ::
          (List.replicate 9 (Match.mk "C" "D" "3-0" true "2024-01-02") ++
            [Match.mk "A" "B" "3-0" true "2024-01-02"])).filter
      (fun m => decide (m.HomeTeam = "A")) =
      [Match.mk "A" "B" "0-3" true "2024-01-02", Match.mk "A" "B" "3-0" true "2024-01-02"] := by
    decide
  have hstAB : (Match.mk "C" "D" "3-0" true "2024-01-01" ::
          Match.mk "C" "D" "3-0" true "2024-01-02" ::
          Match.mk "A" "B" "3-0" true "2024-01-02" ::
          Match.mk "A" "B" "0-3" true "2024-01-02" ::
          List.replicate 9 (Match.mk "C" "D" "3-0" true "2024-01-02")).filter
      (fun m => decide (m.HomeTeam = "A")) =
      [Match.mk "A" "B" "3-0" true "2024-01-02", Match.mk "A" "B" "0-3" true "2024-01-02"] := by
    decide
  have hinit : ∀ k : String, k = "A" ∨ k = "B" →
      (([⟨"A", 0, 0, 0, 0, 0⟩, ⟨"B", 0, 0, 0, 0, 0⟩, ⟨"C", 0, 0, 0, 0, 0⟩,
          ⟨"D", 0, 0, 0, 0, 0⟩] : List TeamStats).foldl
        (fun r t => mapSet r t.Name (1200 : ℝ)) (fun _ => none)) k =
      (mapSet (mapSet (fun _ => none) "A" (1200 : ℝ)) "B" 1200) k := by
    intro k hk
    rcases hk with rfl | rfl <;> simp [mapSet]
  have hreversed := sameDay_pair_ratings.2
  have hstable := sameDay_pair_ratings.1
  have hgoA := (foldl_eloStep_pair (fun x : ℝ => (10 : ℝ) ^ x) "A" "B" _ hgoPair _ _
    (hinit "A" (Or.inl rfl)) (hinit "B" (Or.inr rfl))).1
  have hstA := (foldl_eloStep_pair (fun x : ℝ => (10 : ℝ) ^ x) "A" "B" _ hstPair _ _
    (hinit "A" (Or.inl rfl)) (hinit "B" (Or.inr rfl))).1
  have hgt : mapGet (CalculateElo (fun x : ℝ => (10 : ℝ) ^ x)
        (fun less l => (goSortSlice less l).getD l)
        [⟨"A", 0, 0, 0, 0, 0⟩, ⟨"B", 0, 0, 0, 0, 0⟩, ⟨"C", 0, 0, 0, 0, 0⟩,
          ⟨"D", 0, 0, 0, 0, 0⟩]
        (Match.mk "C" "D" "3-0" true "2024-01-02" ::
          Match.mk "A" "B" "3-0" true "2024-01-02" ::
          Match.mk "A" "B" "0-3" true "2024-01-02" ::
          (List.replicate 9 (Match.mk "C" "D" "3-0" true "2024-01-02") ++
            [Match.mk "C" "D" "3-0" true "2024-01-01"])))
      "A" > 1200 := by
    simp only [CalculateElo, hgo, Option.getD_some]
    unfold mapGet
    rw [hgoA, hgoAB, List.foldl_cons, List.foldl_cons, List.foldl_nil]
    exact hreversed
  have hlt : mapGet ((stableSortSlice (fun a b => strLess a.MatchDate b.MatchDate)
        ((Match.mk "C" "D" "3-0" true "2024-01-02" ::
          Match.mk "A" "B" "3-0" true "2024-01-02" ::
          Match.mk "A" "B" "0-3" true "2024-01-02" ::
          (List.replicate 9 (Match.mk "C" "D" "3-0" true "2024-01-02") ++
            [Match.mk "C" "D" "3-0" true "2024-01-01"])).filter
          (fun m => m.IsPlayed && m.ResultScore != ""))).foldl
        (eloStep (fun x : ℝ => (10 : ℝ) ^ x))
        (([⟨"A", 0, 0, 0, 0, 0⟩, ⟨"B", 0, 0, 0, 0, 0⟩, ⟨"C", 0, 0, 0, 0, 0⟩,
          ⟨"D", 0, 0, 0, 0, 0⟩] : List TeamStats).foldl
          (fun r t => mapSet r t.Name 1200) (fun _ => none))) "A" < 1200 := by
    rw [hst]
    unfold mapGet
    rw [hstA, hstAB, List.foldl_cons, List.foldl_cons, List.foldl_nil]
    exact hstable
  refine ⟨hgo, hst, hgt, hlt, ?_⟩
  intro heq
  rw [heq] at hgt
  exact absurd hgt (not_lt.mpr hlt.le)

/-- Removing a skipped match from the history can change the ratings.  The
history is the C - D match with the three-field score "3-1-2", then A - B 3-0,
A - B 0-3 and nine C - D matches, all on 2024-01-02, and last a C - D match of
2024-01-01.  With its thirteen played matches `sort.Slice` partitions and moves
A - B 3-0 behind A - B 0-3, so A is rated above 1200; without the skipped match
twelve played matches remain, `sort.Slice` sorts them by insertion, A - B 3-0
stays before A - B 0-3, and A is rated below 1200. -/
theorem CalculateElo_removal_reorders :
    (splitDash (Match.mk "C" "D" "3-1-2" true "2024-01-02").ResultScore.data).length ≠ 2 ∧
    goSortSlice (fun a b : Match => strLess a.MatchDate b.MatchDate)
        ((Match.mk "C" "D" "3-1-2" true "2024-01-02" ::
          Match.mk "A" "B" "3-0" true "2024-01-02" ::
          Match.mk "A" "B" "0-3" true "2024-01-02" ::
          (List.replicate 9 (Match.mk "C" "D" "3-0" true "2024-01-02") ++
            [Match.mk "C" "D" "3-0" true "2024-01-01"])).filter
          (fun m => m.IsPlayed && m.ResultScore != "")) =
      some (Match.mk "C" "D" "3-0" true "2024-01-01" ::
          Match.mk "C" "D" "3-0" true "2024-01-02" ::
          Match.mk "A" "B" "0-3" true "2024-01-02" ::
          (List.replicate 3 (Match.mk "C" "D" "3-0" true "2024-01-02") ++
            Match.mk "C" "D" "3-1-2" true "2024-01-02" ::
            (List.replicate 5 (Match.mk "C" "D" "3-0" true "2024-01-02") ++
              [Match.mk "A" "B" "3-0" true "2024-01-02"]))) ∧
    goSortSlice (fun a b : Match => strLess a.MatchDate b.MatchDate)
        ((Match.mk "A" "B" "3-0" true "2024-01-02" ::
          Match.mk "A" "B" "0-3" true "2024-01-02" ::
          (List.replicate 9 (Match.mk "C" "D" "3-0" true "2024-01-02") ++
            [Match.mk "C" "D" "3-0" true "2024-01-01"])).filter
          (fun m => m.IsPlayed && m.ResultScore != "")) =
      some (Match.mk "C" "D" "3-0" true "2024-01-01" ::
          Match.mk "A" "B" "3-0" true "2024-01-02" ::
          Match.mk "A" "B" "0-3" true "2024-01-02" ::
          List.replicate 9 (Match.mk "C" "D" "3-0" true "2024-01-02")) ∧
    mapGet (CalculateElo (fun x : ℝ => (10 : ℝ) ^ x)
        (fun less l => (goSortSlice less l).getD l)
        [⟨"A", 0, 0, 0, 0, 0⟩, ⟨"B", 0, 0, 0, 0, 0⟩, ⟨"C", 0, 0, 0, 0, 0⟩,
          ⟨"D", 0, 0, 0, 0, 0⟩]
        (Match.mk "C" "D" "3-1-2" true "2024-01-02" ::
          Match.mk "A" "B" "3-0" true "2024-01-02" ::
          Match.mk "A" "B" "0-3" true "2024-01-02" ::
          (List.replicate 9 (Match.mk "C" "D" "3-0" true "2024-01-02") ++
            [Match.mk "C" "D" "3-0" true "2024-01-01"])))
      "A" > 1200 ∧
    mapGet (CalculateElo (fun x : ℝ => (10 : ℝ) ^ x)
        (fun less l => (goSortSlice less l).getD l)
        [⟨"A", 0, 0, 0, 0, 0⟩, ⟨"B", 0, 0, 0, 0, 0⟩, ⟨"C", 0, 0, 0, 0, 0⟩,
          ⟨"D", 0, 0, 0, 0, 0⟩]
        (Match.mk "A" "B" "3-0" true "2024-01-02" ::
          Match.mk "A" "B" "0-3" true "2024-01-02" ::
          (List.replicate 9 (Match.mk "C" "D" "3-0" true "2024-01-02") ++
            [Match.mk "C" "D" "3-0" true "2024-01-01"])))
      "A" < 1200 := by
  have hgo : goSortSlice (fun a b : Match => strLess a.MatchDate b.MatchDate)
        ((Match.mk "C" "D" "3-1-2" true "2024-01-02" ::
          Match.mk "A" "B" "3-0" true "2024-01-02" ::
          Match.mk "A" "B" "0-3" true "2024-01-02" ::
          (List.replicate 9 (Match.mk "C" "D" "3-0" true "2024-01-02") ++
            [Match.mk "C" "D" "3-0" true "2024-01-01"])).filter
          (fun m => m.IsPlayed && m.ResultScore != "")) =
      some (Match.mk "C" "D" "3-0" true "2024-01-01" ::
          Match.mk "C" "D" "3-0" true "2024-01-02" ::
          Match.mk "A" "B" "0-3" true "2024-01-02" ::
          (List.replicate 3 (Match.mk "C" "D" "3-0" true "2024-01-02") ++
            Match.mk "C" "D" "3-1-2" true "2024-01-02" ::
            (List.replicate 5 (Match.mk "C" "D" "3-0" true "2024-01-02") ++
              [Match.mk "A" "B" "3-0" true "2024-01-02"]))) := by
    decide
  have hgo12 : goSortSlice (fun a b : Match => strLess a.MatchDate b.MatchDate)
        ((Match.mk "A" "B" "3-0" true "2024-01-02" ::
          Match.mk "A" "B" "0-3" true "2024-01-02" ::
          (List.replicate 9 (Match.mk "C" "D" "3-0" true "2024-01-02") ++
            [Match.mk "C" "D" "3-0" true "2024-01-01"])).filter
          (fun m => m.IsPlayed && m.ResultScore != "")) =
      some (Match.mk "C" "D" "3-0" true "2024-01-01" ::
          Match.mk "A" "B" "3-0" true "2024-01-02" ::
          Match.mk "A" "B" "0-3" true "2024-01-02" ::
          List.replicate 9 (Match.mk "C" "D" "3-0" true "2024-01-02")) := by
    decide
  have hgoPair : ∀ m ∈ (Match.mk "C" "D" "3-0" true "2024-01-01" ::
          Match.mk "C" "D" "3-0" true "2024-01-02" ::
          Match.mk "A" "B" "0-3" true "2024-01-02" ::
          (List.replicate 3 (Match.mk "C" "D" "3-0" true "2024-01-02") ++
            Match.mk "C" "D" "3-1-2" true "2024-01-02" ::
            (List.replicate 5 (Match.mk "C" "D" "3-0" true "2024-01-02") ++
              [Match.mk "A" "B" "3-0" true "2024-01-02"]))),
      (m.HomeTeam = "A" ∧ m.AwayTeam = "B") ∨
        (m.HomeTeam ≠ "A" ∧ m.HomeTeam ≠ "B" ∧ m.AwayTeam ≠ "A" ∧ m.AwayTeam ≠ "B") := by
    decide
  have hgo12Pair : ∀ m ∈ (Match.mk "C" "D" "3-0" true "2024-01-01" ::
          Match.mk "A" "B" "3-0" true "2024-01-02" ::
          Match.mk "A" "B" "0-3" true "2024-01-02" ::
          List.replicate 9 (Match.mk "C" "D" "3-0" true "2024-01-02")),
      (m.HomeTeam = "A" ∧ m.AwayTeam = "B") ∨
        (m.HomeTeam ≠ "A" ∧ m.HomeTeam ≠ "B" ∧ m.AwayTeam ≠ "A" ∧ m.AwayTeam ≠ "B") := by
    decide
  have hgoAB : (Match.mk "C" "D" "3-0" true "2024-01-01" ::
          Match.mk "C" "D" "3-0" true "2024-01-02" ::
          Match.mk "A" "B" "0-3" true "2024-01-02" ::
          (List.replicate 3 (Match.mk "C" "D" "3-0" true "2024-01-02") ++
            Match.mk "C" "D" "3-1-2" true "2024-01-02" ::
            (List.replicate 5 (Match.mk "C" "D" "3-0" true "2024-01-02") ++
              [Match.mk "A" "B" "3-0" true "2024-01-02"]))).filter
      (fun m => decide (m.HomeTeam = "A")) =
      [Match.mk "A" "B" "0-3" true "2024-01-02", Match.mk "A" "B" "3-0" true "2024-01-02"] := by
    decide
  have hgo12AB : (Match.mk "C" "D" "3-0" true "2024-01-01" ::
          Match.mk "A" "B" "3-0" true "2024-01-02" ::
          Match.mk "A" "B" "0-3" true "2024-01-02" ::
          List.replicate 9 (Match.mk "C" "D" "3-0" true "2024-01-02")).filter
      (fun m => decide (m.HomeTeam = "A")) =
      [Match.mk "A" "B" "3-0" true "2024-01-02", Match.mk "A" "B" "0-3" true "2024-01-02"] := by
    decide
  have hinit : ∀ k : String, k = "A" ∨ k = "B" →
      (([⟨"A", 0, 0, 0, 0, 0⟩, ⟨"B", 0, 0, 0, 0, 0⟩, ⟨"C", 0, 0, 0, 0, 0⟩,
          ⟨"D", 0, 0, 0, 0, 0⟩] : List TeamStats).foldl
        (fun r t => mapSet r t.Name (1200 : ℝ)) (fun _ => none)) k =
      (mapSet (mapSet (fun _ => none) "A" (1200 : ℝ)) "B" 1200) k := by
    intro k hk
    rcases hk with rfl | rfl <;> simp [mapSet]
  have hgoA := (foldl_eloStep_pair (fun x : ℝ => (10 : ℝ) ^ x) "A" "B" _ hgoPair _ _
    (hinit "A" (Or.inl rfl)) (hinit "B" (Or.inr rfl))).1
  have hgo12A := (foldl_eloStep_pair (fun x : ℝ => (10 : ℝ) ^ x) "A" "B" _ hgo12Pair _ _
    (hinit "A" (Or.inl rfl)) (hinit "B" (Or.inr rfl))).1
  refine ⟨by decide, hgo, hgo12, ?_, ?_⟩
  · simp only [CalculateElo, hgo, Option.getD_some]
    unfold mapGet
    rw [hgoA, hgoAB, List.foldl_cons, List.foldl_cons, List.foldl_nil]
    exact sameDay_pair_ratings.2
  · simp only [CalculateElo, hgo12, Option.getD_some]
    unfold mapGet
    rw [hgo12A, hgo12AB, List.foldl_cons, List.foldl_cons, List.foldl_nil]
    exact sameDay_pair_ratings.1

/-- C11, as amended: `CalculateElo` replays the played matches sequentially,
each match seeing the ratings left by the previous one, over the list that
`sort.Slice` returns for them: a rearrangement of the played matches in
ascending date order.  When no two played matches share a date this is the
stably date-sorted list; the insertion sort is the sorter that keeps matches of
equal date in input order. -/
theorem CalculateElo_replays_sorted {F : Type} [LinearOrderedField F] (pow10 : F → F)
    (sortSlice : (Match → Match → Bool) → List Match → List Match)
    (hsort : SortSliceSpec sortSlice) (teams : List TeamStats) (matchList : List Match) :
    CalculateElo pow10 sortSlice teams matchList =
      (sortSlice (fun a b => strLess a.MatchDate b.MatchDate)
          (matchList.filter (fun m => m.IsPlayed && m.ResultScore != ""))).foldl
        (eloStep pow10)
        (teams.foldl (fun r t => mapSet r t.Name 1200) (fun _ => none)) ∧
    (sortSlice (fun a b => strLess a.MatchDate b.MatchDate)
        (matchList.filter (fun m => m.IsPlayed && m.ResultScore != ""))).Perm
      (matchList.filter (fun m => m.IsPlayed && m.ResultScore != "")) ∧
    (sortSlice (fun a b => strLess a.MatchDate b.MatchDate)
        (matchList.filter (fun m => m.IsPlayed && m.ResultScore != ""))).Pairwise
      (fun a b => strLess b.MatchDate a.MatchDate = false) ∧
    (((matchList.filter (fun m => m.IsPlayed && m.ResultScore != "")).map
        (fun m => m.MatchDate)).Nodup →
      sortSlice (fun a b => strLess a.MatchDate b.MatchDate)
          (matchList.filter (fun m => m.IsPlayed && m.ResultScore != "")) =
        stableSortSlice (fun a b => strLess a.MatchDate b.MatchDate)
          (matchList.filter (fun m => m.IsPlayed && m.ResultScore != ""))) ∧
    (∀ d : String,
      (stableSortSlice (fun a b => strLess a.MatchDate b.MatchDate)
          (matchList.filter (fun m => m.IsPlayed && m.ResultScore != ""))).filter
          (fun m => decide (m.MatchDate = d)) =
        (matchList.filter (fun m => m.IsPlayed && m.ResultScore != "")).filter
          (fun m => decide (m.MatchDate = d))) := by
  obtain ⟨hperm, hpair⟩ := hsort (fun a b : Match => strLess a.MatchDate b.MatchDate)
    dateLess_irrefl dateLess_trans dateLess_negTrans
    (matchList.filter (fun m => m.IsPlayed && m.ResultScore != ""))
  obtain ⟨hperm', hpair'⟩ := stableSortSlice_spec
    (fun a b : Match => strLess a.MatchDate b.MatchDate)
    dateLess_irrefl dateLess_trans dateLess_negTrans
    (matchList.filter (fun m => m.IsPlayed && m.ResultScore != ""))
  refine ⟨rfl, hperm, hpair, ?_, ?_⟩
  · intro hnodup
    exact date_sorted_unique _ _ _ hnodup hperm hperm' hpair hpair'
  · intro d
    exact stableSortSlice_date_stable _ d

/-- C11, witness: three played matches, two of them on the same day, with the
insertion sort as `sort.Slice`. -/
theorem CalculateElo_replays_sorted_witness :
    SortSliceSpec (@stableSortSlice Match) ∧
    (CalculateElo (fun x : ℝ => (10 : ℝ) ^ x) stableSortSlice
        [⟨"A", 0, 0, 0, 0, 0⟩, ⟨"B", 0, 0, 0, 0, 0⟩]
        [Match.mk "A" "B" "3-1" true "2024-01-08", Match.mk "B" "A" "3-0" true "2024-01-01",
          Match.mk "A" "B" "2-3" true "2024-01-01"] =
      (stableSortSlice (fun a b => strLess a.MatchDate b.MatchDate)
          ([Match.mk "A" "B" "3-1" true "2024-01-08", Match.mk "B" "A" "3-0" true "2024-01-01",
            Match.mk "A" "B" "2-3" true "2024-01-01"].filter
            (fun m => m.IsPlayed && m.ResultScore != ""))).foldl
        (eloStep (fun x : ℝ => (10 : ℝ) ^ x))
        (([⟨"A", 0, 0, 0, 0, 0⟩, ⟨"B", 0, 0, 0, 0, 0⟩] : List TeamStats).foldl
          (fun r t => mapSet r t.Name 1200) (fun _ => none)) ∧
    (stableSortSlice (fun a b => strLess a.MatchDate b.MatchDate)
        ([Match.mk "A" "B" "3-1" true "2024-01-08", Match.mk "B" "A" "3-0" true "2024-01-01",
          Match.mk "A" "B" "2-3" true "2024-01-01"].filter
          (fun m => m.IsPlayed && m.ResultScore != ""))).Perm
      ([Match.mk "A" "B" "3-1" true "2024-01-08", Match.mk "B" "A" "3-0" true "2024-01-01",
          Match.mk "A" "B" "2-3" true "2024-01-01"].filter
          (fun m => m.IsPlayed && m.ResultScore != "")) ∧
    (stableSortSlice (fun a b => strLess a.MatchDate b.MatchDate)
        ([Match.mk "A" "B" "3-1" true "2024-01-08", Match.mk "B" "A" "3-0" true "2024-01-01",
          Match.mk "A" "B" "2-3" true "2024-01-01"].filter
          (fun m => m.IsPlayed && m.ResultScore != ""))).Pairwise
      (fun a b => strLess b.MatchDate a.MatchDate = false) ∧
    ((([Match.mk "A" "B" "3-1" true "2024-01-08", Match.mk "B" "A" "3-0" true "2024-01-01",
          Match.mk "A" "B" "2-3" true "2024-01-01"].filter
          (fun m => m.IsPlayed && m.ResultScore != "")).map
        (fun m => m.MatchDate)).Nodup →
      stableSortSlice (fun a b => strLess a.MatchDate b.MatchDate)
          ([Match.mk "A" "B" "3-1" true "2024-01-08", Match.mk "B" "A" "3-0" true "2024-01-01",
            Match.mk "A" "B" "2-3" true "2024-01-01"].filter
            (fun m => m.IsPlayed && m.ResultScore != "")) =
        stableSortSlice (fun a b => strLess a.MatchDate b.MatchDate)
          ([Match.mk "A" "B" "3-1" true "2024-01-08", Match.mk "B" "A" "3-0" true "2024-01-01",
            Match.mk "A" "B" "2-3" true "2024-01-01"].filter
            (fun m => m.IsPlayed && m.ResultScore != ""))) ∧
    (∀ d : String,
      (stableSortSlice (fun a b => strLess a.MatchDate b.MatchDate)
          ([Match.mk "A" "B" "3-1" true "2024-01-08", Match.mk "B" "A" "3-0" true "2024-01-01",
            Match.mk "A" "B" "2-3" true "2024-01-01"].filter
            (fun m => m.IsPlayed && m.ResultScore != ""))).filter
          (fun m => decide (m.MatchDate = d)) =
        ([Match.mk "A" "B" "3-1" true "2024-01-08", Match.mk "B" "A" "3-0" true "2024-01-01",
          Match.mk "A" "B" "2-3" true "2024-01-01"].filter
          (fun m => m.IsPlayed && m.ResultScore != "")).filter
          (fun m => decide (m.MatchDate = d)))) :=
  ⟨stableSortSlice_spec,
    CalculateElo_replays_sorted (fun x : ℝ => (10 : ℝ) ^ x) stableSortSlice
      stableSortSlice_spec [⟨"A", 0, 0, 0, 0, 0⟩, ⟨"B", 0, 0, 0, 0, 0⟩]
      [Match.mk "A" "B" "3-1" true "2024-01-08", Match.mk "B" "A" "3-0" true "2024-01-01",
        Match.mk "A" "B" "2-3" true "2024-01-01"]⟩

/-! ### One replayed fixture -/

theorem updateHome_of_some (res : MatchOutcome) (simStats : String → Option TeamStats)
    (hName : String) (h : TeamStats) (hh : simStats hName = some h) :
    updateHome res simStats hName =
      mapSet simStats hName
        { h with
          Played := wrapInt64 (h.Played + 1)
          Wins := if res.HomeWin then wrapInt64 (h.Wins + 1) else h.Wins
          Points := wrapInt64 (h.Points + res.HomePoints)
          SetsWon := wrapInt64 (h.SetsWon + res.HomeSets)
          SetsLost := wrapInt64 (h.SetsLost + res.AwaySets) } := by
  simp only [updateHome, hh]

theorem updateHome_of_none (res : MatchOutcome) (simStats : String → Option TeamStats)
    (hName : String) (hh : simStats hName = none) :
    updateHome res simStats hName = simStats := by
  simp only [updateHome, hh]

theorem updateAway_of_some (res : MatchOutcome) (simStats : String → Option TeamStats)
    (aName : String) (a : TeamStats) (ha : simStats aName = some a) :
    updateAway res simStats aName =
      mapSet simStats aName
        { a with
          Played := wrapInt64 (a.Played + 1)
          Wins := if !res.HomeWin then wrapInt64 (a.Wins + 1) else a.Wins
          Points := wrapInt64 (a.Points + res.AwayPoints)
          SetsWon := wrapInt64 (a.SetsWon + res.AwaySets)
          SetsLost := wrapInt64 (a.SetsLost + res.HomeSets) } := by
  simp only [updateAway, ha]

theorem updateAway_of_none (res : MatchOutcome) (simStats : String → Option TeamStats)
    (aName : String) (ha : simStats aName = none) :
    updateAway res simStats aName = simStats := by
  simp only [updateAway, ha]

theorem updateHome_other (res : MatchOutcome) (simStats : String → Option TeamStats)
    (hName k : String) (hk : k ≠ hName) :
    updateHome res simStats hName k = simStats k := by
  cases hh : simStats hName with
  | none => rw [updateHome_of_none res simStats hName hh]
  | some h => rw [updateHome_of_some res simStats hName h hh, mapSet_other _ _ _ _ hk]

theorem updateAway_other (res : MatchOutcome) (simStats : String → Option TeamStats)
    (aName k : String) (hk : k ≠ aName) :
    updateAway res simStats aName k = simStats k := by
  cases ha : simStats aName with
  | none => rw [updateAway_of_none res simStats aName ha]
  | some a => rw [updateAway_of_some res simStats aName a ha, mapSet_other _ _ _ _ hk]

/-- Two teams of the same rating and the draws 1/4 and 1/4: the expected score
is 1/2, the home side wins 3-2 and gets 2 points, the away side 1. -/
theorem simulateMatch_even_quarter (x : ℝ) :
    simulateMatch (fun y : ℝ => (10 : ℝ) ^ y) x x (1 / 4) (1 / 4) = ⟨3, 2, 2, 1, true⟩ := by
  simp only [simulateMatch]
  norm_num

/-- A team that is missing from the rating map is rated 1200. -/
theorem ratingOr1200_none (k : String) :
    ratingOr1200 (fun _ => (none : Option ℝ)) k = 1200 := by
  simp [ratingOr1200, mapGet]

/-- The ratings that `CalculateElo` returns for a history without a played
match: 1200 for every listed team. -/
theorem ratingOr1200_unplayed (teams : List TeamStats) (m : Match) (k : String)
    (hm : m.IsPlayed = false) :
    ratingOr1200 (CalculateElo (fun x : ℝ => (10 : ℝ) ^ x) stableSortSlice teams [m]) k =
      1200 := by
  have h : CalculateElo (fun x : ℝ => (10 : ℝ) ^ x) stableSortSlice teams [m] =
      teams.foldl (fun r t => mapSet r t.Name (1200 : ℝ)) (fun _ => none) := by
    simp [CalculateElo, hm, stableSortSlice]
  rw [h]
  simp only [ratingOr1200, mapGet, foldl_init_ratings]
  split_ifs <;> simp_all

/-- The home entry after a fixture between two different teams of the same
rating, with the draws 1/4 and 1/4. -/
theorem fixtureStep_even_quarter_home (eloMap : String → Option ℝ) (n : Nat)
    (simStats : String → Option TeamStats) (m : Match) (h : TeamStats)
    (helo : ratingOr1200 eloMap m.AwayTeam = ratingOr1200 eloMap m.HomeTeam)
    (hne : m.HomeTeam ≠ m.AwayTeam) (hh : simStats m.HomeTeam = some h) :
    (fixtureStep (fun x : ℝ => (10 : ℝ) ^ x) eloMap (fun _ => (1 / 4 : ℝ))
        (n, simStats) m).2 m.HomeTeam =
      some { h with
        Played := wrapInt64 (h.Played + 1)
        Wins := wrapInt64 (h.Wins + 1)
        Points := wrapInt64 (h.Points + 2)
        SetsWon := wrapInt64 (h.SetsWon + 3)
        SetsLost := wrapInt64 (h.SetsLost + 2) } := by
  simp only [fixtureStep]
  rw [helo, simulateMatch_even_quarter, updateAway_other _ _ _ _ hne,
    updateHome_of_some _ _ _ h hh, mapSet_same]
  rfl

/-- C12, counterexample: team A with played 9223372036854775807 and points
9223372036854775807 hosts team B in the one fixture of the request; both are
rated 1200 by `CalculateElo`, and the draws 1/4 and 1/4 give a 3-2 home win with
2 points for A.  By the claim A gets played 9223372036854775808 and points
9223372036854775809; the additions of the code wrap around, and A is stored with
played -9223372036854775808 and points -9223372036854775807. -/
theorem fixtureStep_wraps_at_limit :
    simulateMatch (fun x : ℝ => (10 : ℝ) ^ x)
      (ratingOr1200 (CalculateElo (fun x : ℝ => (10 : ℝ) ^ x) stableSortSlice
        [⟨"A", 9223372036854775807, 3, 9223372036854775807, 9, 1⟩, ⟨"B", 10, 3, 5, 0, 0⟩]
        [Match.mk "A" "B" "" false "2024-03-01"]) "A")
      (ratingOr1200 (CalculateElo (fun x : ℝ => (10 : ℝ) ^ x) stableSortSlice
        [⟨"A", 9223372036854775807, 3, 9223372036854775807, 9, 1⟩, ⟨"B", 10, 3, 5, 0, 0⟩]
        [Match.mk "A" "B" "" false "2024-03-01"]) "B")
      (1 / 4) (1 / 4) = ⟨3, 2, 2, 1, true⟩ ∧
    (fixtureStep (fun x : ℝ => (10 : ℝ) ^ x)
        (CalculateElo (fun x : ℝ => (10 : ℝ) ^ x) stableSortSlice
          [⟨"A", 9223372036854775807, 3, 9223372036854775807, 9, 1⟩, ⟨"B", 10, 3, 5, 0, 0⟩]
          [Match.mk "A" "B" "" false "2024-03-01"])
        (fun _ => (1 / 4 : ℝ))
        (0, baseTeamMap [⟨"A", 9223372036854775807, 3, 9223372036854775807, 9, 1⟩, ⟨"B", 10, 3, 5, 0, 0⟩])
        (Match.mk "A" "B" "" false "2024-03-01")).2 "A" =
      some ⟨"A", -9223372036854775807, 4, -9223372036854775808, 12, 3⟩ ∧
    (-9223372036854775808 : Int) ≠ 9223372036854775807 + 1 ∧
    (-9223372036854775807 : Int) ≠ 9223372036854775807 + 2 := by
  refine ⟨?_, ?_, by decide, by decide⟩
  · rw [ratingOr1200_unplayed _ _ "A" rfl, ratingOr1200_unplayed _ _ "B" rfl]
    exact simulateMatch_even_quarter 1200
  · rw [fixtureStep_even_quarter_home _ 0 _ (Match.mk "A" "B" "" false "2024-03-01")
      ⟨"A", 9223372036854775807, 3, 9223372036854775807, 9, 1⟩
      (by rw [ratingOr1200_unplayed _ _ _ rfl, ratingOr1200_unplayed _ _ _ rfl])
      (by decide) (by decide)]
    decide

/-- C12, amended: one replayed fixture with sampled outcome `res`, each addition
being the addition of 64-bit integers.  The home team's entry, if present, gets
played+1, wins+1 iff `res.HomeWin`, points+HomePoints, setsWon+HomeSets and
setsLost+AwaySets; then the away team's entry, if present, gets played+1, wins+1
iff not `res.HomeWin`, points+AwayPoints, setsWon+AwaySets and setsLost+HomeSets
(for a fixture of a team against itself the one entry gets both updates).  An
absent side stays absent while the other side is updated, every other entry is
unchanged, and no name changes.  The value stored for a sum is the 64-bit
integer that differs from the sum by a multiple of 2^64: the sum itself whenever
the sum is a 64-bit integer. -/
theorem fixtureStep_frame {F : Type} [LinearOrderedField F] (pow10 : F → F)
    (eloMap : String → Option F) (rnd : Nat → F) (n : Nat)
    (simStats : String → Option TeamStats) (m : Match) :
    let res := simulateMatch pow10 (ratingOr1200 eloMap m.HomeTeam)
      (ratingOr1200 eloMap m.AwayTeam) (rnd n) (rnd (n + 1))
    let homeSide : TeamStats → TeamStats := fun h =>
      { h with
        Played := wrapInt64 (h.Played + 1)
        Wins := if res.HomeWin = true then wrapInt64 (h.Wins + 1) else h.Wins
        Points := wrapInt64 (h.Points + res.HomePoints)
        SetsWon := wrapInt64 (h.SetsWon + res.HomeSets)
        SetsLost := wrapInt64 (h.SetsLost + res.AwaySets) }
    let awaySide : TeamStats → TeamStats := fun a =>
      { a with
        Played := wrapInt64 (a.Played + 1)
        Wins := if res.HomeWin = false then wrapInt64 (a.Wins + 1) else a.Wins
        Points := wrapInt64 (a.Points + res.AwayPoints)
        SetsWon := wrapInt64 (a.SetsWon + res.AwaySets)
        SetsLost := wrapInt64 (a.SetsLost + res.HomeSets) }
    let after := (fixtureStep pow10 eloMap rnd (n, simStats) m).2
    (m.HomeTeam ≠ m.AwayTeam → ∀ h, simStats m.HomeTeam = some h →
      after m.HomeTeam = some (homeSide h)) ∧
    (m.HomeTeam ≠ m.AwayTeam → ∀ a, simStats m.AwayTeam = some a →
      after m.AwayTeam = some (awaySide a)) ∧
    (m.HomeTeam = m.AwayTeam → ∀ t, simStats m.HomeTeam = some t →
      after m.HomeTeam = some (awaySide (homeSide t))) ∧
    (simStats m.HomeTeam = none → after m.HomeTeam = none) ∧
    (simStats m.AwayTeam = none → after m.AwayTeam = none) ∧
    (∀ k, k ≠ m.HomeTeam → k ≠ m.AwayTeam → after k = simStats k) ∧
    (∀ k t', after k = some t' → ∃ t, simStats k = some t ∧ t'.Name = t.Name) ∧
    (∀ x : Int, fitsInt64 (wrapInt64 x) ∧
      (wrapInt64 x - x) % 18446744073709551616 = 0 ∧ (fitsInt64 x → wrapInt64 x = x)) := by
  intro res homeSide awaySide after
  have hafter : after = updateAway res (updateHome res simStats m.HomeTeam) m.AwayTeam := rfl
  have hhome : ∀ h, simStats m.HomeTeam = some h →
      updateHome res simStats m.HomeTeam m.HomeTeam = some (homeSide h) := by
    intro h hh
    rw [updateHome_of_some res simStats _ h hh, mapSet_same]
  have hhomeNone : simStats m.HomeTeam = none →
      updateHome res simStats m.HomeTeam = simStats := fun hh =>
    updateHome_of_none res simStats _ hh
  have haway : ∀ s : String → Option TeamStats, ∀ a, s m.AwayTeam = some a →
      updateAway res s m.AwayTeam m.AwayTeam = some (awaySide a) := by
    intro s a ha
    rw [updateAway_of_some res s _ a ha, mapSet_same]
    simp [awaySide]
  have hnameHome : ∀ k t', updateHome res simStats m.HomeTeam k = some t' →
      ∃ t, simStats k = some t ∧ t'.Name = t.Name := by
    intro k t' hk
    by_cases hkh : k = m.HomeTeam
    · subst hkh
      cases hh : simStats m.HomeTeam with
      | none => rw [hhomeNone hh, hh] at hk; cases hk
      | some h =>
        rw [hhome h hh] at hk
        cases hk
        exact ⟨h, rfl, rfl⟩
    · rw [updateHome_other res simStats _ k hkh] at hk
      exact ⟨t', hk, rfl⟩
  have hnameAway : ∀ s : String → Option TeamStats, ∀ k t',
      updateAway res s m.AwayTeam k = some t' → ∃ t, s k = some t ∧ t'.Name = t.Name := by
    intro s k t' hk
    by_cases hka : k = m.AwayTeam
    · subst hka
      cases ha : s m.AwayTeam with
      | none => rw [updateAway_of_none res s _ ha, ha] at hk; cases hk
      | some a =>
        rw [haway s a ha] at hk
        cases hk
        exact ⟨a, rfl, rfl⟩
    · rw [updateAway_other res s _ k hka] at hk
      exact ⟨t', hk, rfl⟩
  refine ⟨?_, ?_, ?_, ?_, ?_, ?_, ?_, ?_⟩
  · intro hne h hh
    rw [hafter, updateAway_other res _ _ _ hne]
    exact hhome h hh
  · intro hne a ha
    rw [hafter]
    apply haway
    rw [updateHome_other res simStats _ _ (Ne.symm hne)]
    exact ha
  · intro heq t ht
    rw [hafter, ← heq]
    have := haway (updateHome res simStats m.HomeTeam) (homeSide t)
      (by rw [← heq]; exact hhome t ht)
    rw [← heq] at this
    exact this
  · intro hh
    rw [hafter, hhomeNone hh]
    by_cases hka : m.HomeTeam = m.AwayTeam
    · rw [updateAway_of_none res simStats _ (hka ▸ hh)]
      exact hh
    · rw [updateAway_other res simStats _ _ hka]
      exact hh
  · intro ha
    rw [hafter]
    have hnone : updateHome res simStats m.HomeTeam m.AwayTeam = none := by
      by_cases hka : m.AwayTeam = m.HomeTeam
      · rw [hka] at ha ⊢
        rw [hhomeNone ha]
        exact ha
      · rw [updateHome_other res simStats _ _ hka]
        exact ha
    rw [updateAway_of_none res _ _ hnone]
    exact hnone
  · intro k hkh hka
    rw [hafter, updateAway_other res _ _ _ hka, updateHome_other res _ _ _ hkh]
  · intro k t' hk
    rw [hafter] at hk
    obtain ⟨t1, ht1, hn1⟩ := hnameAway _ k t' hk
    obtain ⟨t0, ht0, hn0⟩ := hnameHome k t1 ht1
    exact ⟨t0, ht0, hn1.trans hn0⟩
  · intro x
    refine ⟨wrapInt64_inRange x, ?_, fun hx => wrapInt64_of_inRange x hx.1 hx.2⟩
    unfold wrapInt64
    omega

/-! ### Standings only grow during a trial -/

/-- The sets and points of a sampled outcome are never negative. -/
theorem simulateMatch_nonneg {F : Type} [LinearOrderedField F] (pow10 : F → F)
    (homeElo awayElo r1 r2 : F) :
    0 ≤ (simulateMatch pow10 homeElo awayElo r1 r2).HomeSets ∧
    0 ≤ (simulateMatch pow10 homeElo awayElo r1 r2).AwaySets ∧
    0 ≤ (simulateMatch pow10 homeElo awayElo r1 r2).HomePoints ∧
    0 ≤ (simulateMatch pow10 homeElo awayElo r1 r2).AwayPoints := by
  simp only [simulateMatch]
  generalize 1 / (1 + pow10 ((awayElo - homeElo) / 400)) = e
  refine ⟨?_, ?_, ?_, ?_⟩ <;> split_ifs <;> simp_all

theorem statsGrown_refl (t : TeamStats) : statsGrown t t :=
  ⟨rfl, le_refl _, le_refl _, le_refl _, le_refl _, le_refl _⟩

theorem statsGrown_trans (a b c : TeamStats) (hab : statsGrown a b) (hbc : statsGrown b c) :
    statsGrown a c := by
  obtain ⟨n1, p1, w1, q1, s1, l1⟩ := hab
  obtain ⟨n2, p2, w2, q2, s2, l2⟩ := hbc
  exact ⟨n2.trans n1, p1.trans p2, w1.trans w2, q1.trans q2, s1.trans s2, l1.trans l2⟩

theorem standingsGrown_refl (s : String → Option TeamStats) : standingsGrown s s :=
  fun _ => ⟨fun h => h, fun t ht => ⟨t, ht, statsGrown_refl t⟩⟩

theorem standingsGrown_trans (a b c : String → Option TeamStats)
    (hab : standingsGrown a b) (hbc : standingsGrown b c) : standingsGrown a c := by
  intro k
  refine ⟨fun h => (hbc k).1 ((hab k).1 h), ?_⟩
  intro t ht
  obtain ⟨t1, ht1, hg1⟩ := (hab k).2 t ht
  obtain ⟨t2, ht2, hg2⟩ := (hbc k).2 t1 ht1
  exact ⟨t2, ht2, statsGrown_trans t t1 t2 hg1 hg2⟩

theorem standingsKept_refl (s : String → Option TeamStats) : standingsKept s s :=
  fun _ => ⟨fun h => h, fun t ht => ⟨t, ht, rfl⟩⟩

theorem standingsKept_trans (a b c : String → Option TeamStats)
    (hab : standingsKept a b) (hbc : standingsKept b c) : standingsKept a c := by
  intro k
  refine ⟨fun h => (hbc k).1 ((hab k).1 h), ?_⟩
  intro t ht
  obtain ⟨t1, ht1, hg1⟩ := (hab k).2 t ht
  obtain ⟨t2, ht2, hg2⟩ := (hbc k).2 t1 ht1
  exact ⟨t2, ht2, hg2.trans hg1⟩

/-- The home update keeps the keys and the names of the standings. -/
theorem updateHome_kept (res : MatchOutcome) (simStats : String → Option TeamStats)
    (hName : String) : standingsKept simStats (updateHome res simStats hName) := by
  cases hh : simStats hName with
  | none =>
    rw [updateHome_of_none res simStats hName hh]
    exact standingsKept_refl simStats
  | some h =>
    rw [updateHome_of_some res simStats hName h hh]
    intro k
    by_cases hk : k = hName
    · subst hk
      rw [mapSet_same]
      refine ⟨fun hnone => (by rw [hh] at hnone; cases hnone), ?_⟩
      intro t ht
      rw [hh] at ht
      cases ht
      exact ⟨_, rfl, rfl⟩
    · rw [mapSet_other _ _ _ _ hk]
      exact ⟨fun hnone => hnone, fun t ht => ⟨t, ht, rfl⟩⟩

/-- The away update keeps the keys and the names of the standings. -/
theorem updateAway_kept (res : MatchOutcome) (simStats : String → Option TeamStats)
    (aName : String) : standingsKept simStats (updateAway res simStats aName) := by
  cases ha : simStats aName with
  | none =>
    rw [updateAway_of_none res simStats aName ha]
    exact standingsKept_refl simStats
  | some a =>
    rw [updateAway_of_some res simStats aName a ha]
    intro k
    by_cases hk : k = aName
    · subst hk
      rw [mapSet_same]
      refine ⟨fun hnone => (by rw [ha] at hnone; cases hnone), ?_⟩
      intro t ht
      rw [ha] at ht
      cases ht
      exact ⟨_, rfl, rfl⟩
    · rw [mapSet_other _ _ _ _ hk]
      exact ⟨fun hnone => hnone, fun t ht => ⟨t, ht, rfl⟩⟩

/-- Any number of replayed fixtures keeps the keys and the names of the
standings. -/
theorem foldl_fixtureStep_kept {F : Type} [LinearOrderedField F] (pow10 : F → F)
    (eloMap : String → Option F) (rnd : Nat → F) (fixtures : List Match)
    (st : Nat × (String → Option TeamStats)) :
    standingsKept st.2 (fixtures.foldl (fixtureStep pow10 eloMap rnd) st).2 := by
  induction fixtures generalizing st with
  | nil => exact standingsKept_refl st.2
  | cons m fixtures ih =>
    rw [List.foldl_cons]
    refine standingsKept_trans _ _ _ ?_ (ih (fixtureStep pow10 eloMap rnd st m))
    simp only [fixtureStep]
    exact standingsKept_trans _ _ _ (updateHome_kept _ st.2 m.HomeTeam)
      (updateAway_kept _ _ m.AwayTeam)

/-- The home update grows the standings when the outcome has no negative
number and none of its additions overflows. -/
theorem updateHome_grown (res : MatchOutcome) (simStats : String → Option TeamStats)
    (hName : String) (h1 : 0 ≤ res.HomeSets) (h2 : 0 ≤ res.AwaySets)
    (h3 : 0 ≤ res.HomePoints) (hfits : homeFits res simStats hName) :
    standingsGrown simStats (updateHome res simStats hName) := by
  cases hh : simStats hName with
  | none =>
    rw [updateHome_of_none res simStats hName hh]
    exact standingsGrown_refl simStats
  | some h =>
    rw [updateHome_of_some res simStats hName h hh]
    obtain ⟨f1, f2, f3, f4, f5⟩ := hfits h hh
    intro k
    by_cases hk : k = hName
    · subst hk
      rw [mapSet_same]
      refine ⟨fun hnone => (by rw [hh] at hnone; cases hnone), ?_⟩
      intro t ht
      rw [hh] at ht
      cases ht
      refine ⟨_, rfl, ?_⟩
      unfold statsGrown
      refine ⟨rfl, ?_, ?_, ?_, ?_, ?_⟩
      · show h.Played ≤ wrapInt64 (h.Played + 1)
        rw [wrapInt64_of_inRange _ f1.1 f1.2]
        omega
      · show h.Wins ≤ if res.HomeWin = true then wrapInt64 (h.Wins + 1) else h.Wins
        split_ifs with hw
        · rw [wrapInt64_of_inRange _ (f2 hw).1 (f2 hw).2]
          omega
        · exact le_refl _
      · show h.Points ≤ wrapInt64 (h.Points + res.HomePoints)
        rw [wrapInt64_of_inRange _ f3.1 f3.2]
        omega
      · show h.SetsWon ≤ wrapInt64 (h.SetsWon + res.HomeSets)
        rw [wrapInt64_of_inRange _ f4.1 f4.2]
        omega
      · show h.SetsLost ≤ wrapInt64 (h.SetsLost + res.AwaySets)
        rw [wrapInt64_of_inRange _ f5.1 f5.2]
        omega
    · rw [mapSet_other _ _ _ _ hk]
      exact ⟨fun hnone => hnone, fun t ht => ⟨t, ht, statsGrown_refl t⟩⟩

/-- The away update grows the standings when the outcome has no negative
number and none of its additions overflows. -/
theorem updateAway_grown (res : MatchOutcome) (simStats : String → Option TeamStats)
    (aName : String) (h1 : 0 ≤ res.HomeSets) (h2 : 0 ≤ res.AwaySets)
    (h3 : 0 ≤ res.AwayPoints) (hfits : awayFits res simStats aName) :
    standingsGrown simStats (updateAway res simStats aName) := by
  cases ha : simStats aName with
  | none =>
    rw [updateAway_of_none res simStats aName ha]
    exact standingsGrown_refl simStats
  | some a =>
    rw [updateAway_of_some res simStats aName a ha]
    obtain ⟨f1, f2, f3, f4, f5⟩ := hfits a ha
    intro k
    by_cases hk : k = aName
    · subst hk
      rw [mapSet_same]
      refine ⟨fun hnone => (by rw [ha] at hnone; cases hnone), ?_⟩
      intro t ht
      rw [ha] at ht
      cases ht
      refine ⟨_, rfl, ?_⟩
      unfold statsGrown
      refine ⟨rfl, ?_, ?_, ?_, ?_, ?_⟩
      · show a.Played ≤ wrapInt64 (a.Played + 1)
        rw [wrapInt64_of_inRange _ f1.1 f1.2]
        omega
      · show a.Wins ≤ if (!res.HomeWin) = true then wrapInt64 (a.Wins + 1) else a.Wins
        split_ifs with hw
        · have hw' : res.HomeWin = false := by simpa using hw
          rw [wrapInt64_of_inRange _ (f2 hw').1 (f2 hw').2]
          omega
        · exact le_refl _
      · show a.Points ≤ wrapInt64 (a.Points + res.AwayPoints)
        rw [wrapInt64_of_inRange _ f3.1 f3.2]
        omega
      · show a.SetsWon ≤ wrapInt64 (a.SetsWon + res.AwaySets)
        rw [wrapInt64_of_inRange _ f4.1 f4.2]
        omega
      · show a.SetsLost ≤ wrapInt64 (a.SetsLost + res.HomeSets)
        rw [wrapInt64_of_inRange _ f5.1 f5.2]
        omega
    · rw [mapSet_other _ _ _ _ hk]
      exact ⟨fun hnone => hnone, fun t ht => ⟨t, ht, statsGrown_refl t⟩⟩

/-- One replayed fixture grows the standings when none of its additions
overflows. -/
theorem fixtureStep_grown {F : Type} [LinearOrderedField F] (pow10 : F → F)
    (eloMap : String → Option F) (rnd : Nat → F)
    (st : Nat × (String → Option TeamStats)) (m : Match)
    (hfits : fixtureFits pow10 eloMap rnd st m) :
    standingsGrown st.2 (fixtureStep pow10 eloMap rnd st m).2 := by
  obtain ⟨h1, h2, h3, h4⟩ := simulateMatch_nonneg pow10 (ratingOr1200 eloMap m.HomeTeam)
    (ratingOr1200 eloMap m.AwayTeam) (rnd st.1) (rnd (st.1 + 1))
  simp only [fixtureStep]
  exact standingsGrown_trans _ _ _ (updateHome_grown _ st.2 m.HomeTeam h1 h2 h3 hfits.1)
    (updateAway_grown _ _ m.AwayTeam h1 h2 h4 hfits.2)

/-- Any number of replayed fixtures grows the standings when no addition
overflows. -/
theorem foldl_fixtureStep_grown {F : Type} [LinearOrderedField F] (pow10 : F → F)
    (eloMap : String → Option F) (rnd : Nat → F) (fixtures : List Match)
    (st : Nat × (String → Option TeamStats))
    (hfits : replayFits pow10 eloMap rnd fixtures st) :
    standingsGrown st.2 (fixtures.foldl (fixtureStep pow10 eloMap rnd) st).2 := by
  induction fixtures generalizing st with
  | nil => exact standingsGrown_refl st.2
  | cons m fixtures ih =>
    rw [List.foldl_cons]
    exact standingsGrown_trans _ _ _ (fixtureStep_grown pow10 eloMap rnd st m hfits.1)
      (ih (fixtureStep pow10 eloMap rnd st m) hfits.2)

/-- C13, counterexample: team A with 9223372036854775807 points hosts team B in
the one fixture of the request; both are rated 1200 by `CalculateElo`, and the
draws 1/4 and 1/4 give a 3-2 home win with 2 points for A.  The addition wraps
around: after the fixture A has -9223372036854775807 points, less than its
baseline value. -/
theorem trial_points_decrease_at_limit :
    baseTeamMap [⟨"A", 9223372036854775807, 3, 5, 9, 1⟩, ⟨"B", 10, 3, 5, 0, 0⟩] "A" =
      some ⟨"A", 9223372036854775807, 3, 5, 9, 1⟩ ∧
    ([Match.mk "A" "B" "" false "2024-03-01"].foldl
        (fixtureStep (fun x : ℝ => (10 : ℝ) ^ x)
          (CalculateElo (fun x : ℝ => (10 : ℝ) ^ x) stableSortSlice
            [⟨"A", 9223372036854775807, 3, 5, 9, 1⟩, ⟨"B", 10, 3, 5, 0, 0⟩]
            [Match.mk "A" "B" "" false "2024-03-01"])
          (fun _ => (1 / 4 : ℝ)))
        (0, baseTeamMap [⟨"A", 9223372036854775807, 3, 5, 9, 1⟩, ⟨"B", 10, 3, 5, 0, 0⟩])).2 "A" =
      some ⟨"A", -9223372036854775807, 4, 6, 12, 3⟩ ∧
    (TeamStats.mk "A" (-9223372036854775807) 4 6 12 3).Points <
      (TeamStats.mk "A" 9223372036854775807 3 5 9 1).Points := by
  refine ⟨by decide, ?_, by decide⟩
  rw [List.foldl_cons, List.foldl_nil,
    fixtureStep_even_quarter_home _ 0 _ (Match.mk "A" "B" "" false "2024-03-01")
      ⟨"A", 9223372036854775807, 3, 5, 9, 1⟩
      (by rw [ratingOr1200_unplayed _ _ _ rfl, ratingOr1200_unplayed _ _ _ rfl])
      (by decide) (by decide)]
  decide

/-- C13, amended: in every trial, after any number of replayed fixtures none of
whose additions overflows the 64-bit integer, every team of the baseline
standings is still present under its name and each of played, wins, points,
setsWon and setsLost is at least its baseline value. -/
theorem trial_standings_only_increase {F : Type} [LinearOrderedField F] (pow10 : F → F)
    (eloMap : String → Option F) (rnd : Nat → F) (n : Nat) (teams : List TeamStats)
    (fixtures : List Match) (k : String) (t : TeamStats)
    (hfits : replayFits pow10 eloMap rnd fixtures (n, baseTeamMap teams))
    (hbase : baseTeamMap teams k = some t) :
    ∃ t', (fixtures.foldl (fixtureStep pow10 eloMap rnd) (n, baseTeamMap teams)).2 k = some t' ∧
      t'.Name = t.Name ∧ t.Played ≤ t'.Played ∧ t.Wins ≤ t'.Wins ∧ t.Points ≤ t'.Points ∧
      t.SetsWon ≤ t'.SetsWon ∧ t.SetsLost ≤ t'.SetsLost :=
  ((foldl_fixtureStep_grown pow10 eloMap rnd fixtures (n, baseTeamMap teams) hfits) k).2 t hbase

/-- C13, witness: the baseline of A and B and the fixture A - B, replayed with
the draws 1/4 and 1/4; no addition overflows. -/
theorem trial_standings_only_increase_witness :
    replayFits (fun x : ℝ => (10 : ℝ) ^ x) (fun _ => none) (fun _ => (1 / 4 : ℝ))
      [Match.mk "A" "B" "" false "2024-03-01"]
      (0, baseTeamMap [⟨"A", 10, 4, 5, 12, 6⟩, ⟨"B", 12, 4, 5, 13, 5⟩]) ∧
    baseTeamMap [⟨"A", 10, 4, 5, 12, 6⟩, ⟨"B", 12, 4, 5, 13, 5⟩] "A" =
      some ⟨"A", 10, 4, 5, 12, 6⟩ ∧
    ∃ t', ([Match.mk "A" "B" "" false "2024-03-01"].foldl
        (fixtureStep (fun x : ℝ => (10 : ℝ) ^ x) (fun _ => none) (fun _ => (1 / 4 : ℝ)))
        (0, baseTeamMap [⟨"A", 10, 4, 5, 12, 6⟩, ⟨"B", 12, 4, 5, 13, 5⟩])).2 "A" = some t' ∧
      t'.Name = (TeamStats.mk "A" 10 4 5 12 6).Name ∧
      (TeamStats.mk "A" 10 4 5 12 6).Played ≤ t'.Played ∧
      (TeamStats.mk "A" 10 4 5 12 6).Wins ≤ t'.Wins ∧
      (TeamStats.mk "A" 10 4 5 12 6).Points ≤ t'.Points ∧
      (TeamStats.mk "A" 10 4 5 12 6).SetsWon ≤ t'.SetsWon ∧
      (TeamStats.mk "A" 10 4 5 12 6).SetsLost ≤ t'.SetsLost :=
  have hfits : replayFits (fun x : ℝ => (10 : ℝ) ^ x) (fun _ => none) (fun _ => (1 / 4 : ℝ))
      [Match.mk "A" "B" "" false "2024-03-01"]
      (0, baseTeamMap [⟨"A", 10, 4, 5, 12, 6⟩, ⟨"B", 12, 4, 5, 13, 5⟩]) := by
    refine ⟨⟨?_, ?_⟩, trivial⟩
    · show homeFits (simulateMatch (fun x : ℝ => (10 : ℝ) ^ x)
          (ratingOr1200 (fun _ => none) "A") (ratingOr1200 (fun _ => none) "B") (1 / 4) (1 / 4))
        (baseTeamMap [⟨"A", 10, 4, 5, 12, 6⟩, ⟨"B", 12, 4, 5, 13, 5⟩]) "A"
      rw [ratingOr1200_none, ratingOr1200_none, simulateMatch_even_quarter]
      intro h hh
      have hA : baseTeamMap [⟨"A", 10, 4, 5, 12, 6⟩, ⟨"B", 12, 4, 5, 13, 5⟩] "A" =
          some ⟨"A", 10, 4, 5, 12, 6⟩ := by decide
      rw [hA] at hh
      cases hh
      simp [fitsInt64]
    · show awayFits (simulateMatch (fun x : ℝ => (10 : ℝ) ^ x)
          (ratingOr1200 (fun _ => none) "A") (ratingOr1200 (fun _ => none) "B") (1 / 4) (1 / 4))
        (updateHome (simulateMatch (fun x : ℝ => (10 : ℝ) ^ x)
          (ratingOr1200 (fun _ => none) "A") (ratingOr1200 (fun _ => none) "B") (1 / 4) (1 / 4))
          (baseTeamMap [⟨"A", 10, 4, 5, 12, 6⟩, ⟨"B", 12, 4, 5, 13, 5⟩]) "A") "B"
      rw [ratingOr1200_none, ratingOr1200_none, simulateMatch_even_quarter]
      intro a ha
      have hB : baseTeamMap [⟨"A", 10, 4, 5, 12, 6⟩, ⟨"B", 12, 4, 5, 13, 5⟩] "B" =
          some ⟨"B", 12, 4, 5, 13, 5⟩ := by decide
      rw [updateHome_other _ _ _ _ (by decide), hB] at ha
      cases ha
      simp [fitsInt64]
  ⟨hfits, by decide,
    trial_standings_only_increase (fun x : ℝ => (10 : ℝ) ^ x) (fun _ => none)
      (fun _ => (1 / 4 : ℝ)) 0 [⟨"A", 10, 4, 5, 12, 6⟩, ⟨"B", 12, 4, 5, 13, 5⟩]
      [Match.mk "A" "B" "" false "2024-03-01"]
      "A" ⟨"A", 10, 4, 5, 12, 6⟩ hfits (by decide)⟩

/-- The sets and points of a sampled outcome are at most 3. -/
theorem simulateMatch_le_three {F : Type} [LinearOrderedField F] (pow10 : F → F)
    (homeElo awayElo r1 r2 : F) :
    (simulateMatch pow10 homeElo awayElo r1 r2).HomeSets ≤ 3 ∧
    (simulateMatch pow10 homeElo awayElo r1 r2).AwaySets ≤ 3 ∧
    (simulateMatch pow10 homeElo awayElo r1 r2).HomePoints ≤ 3 ∧
    (simulateMatch pow10 homeElo awayElo r1 r2).AwayPoints ≤ 3 := by
  simp only [simulateMatch]
  generalize 1 / (1 + pow10 ((awayElo - homeElo) / 400)) = e
  by_cases hw : r1 < e
  · simp only [hw, decide_True, if_true]
    refine ⟨?_, ?_, ?_, ?_⟩ <;> split_ifs <;> simp
  · simp only [hw, decide_False, Bool.false_eq_true, if_false]
    refine ⟨?_, ?_, ?_, ?_⟩ <;> split_ifs <;> simp

/-- With room for 3 more in every standing, no addition of the home update
overflows, and the room left afterwards is 3 less. -/
theorem updateHome_room (res : MatchOutcome) (simStats : String → Option TeamStats)
    (hName : String) (c : Int) (hc : 0 ≤ c)
    (h1 : 0 ≤ res.HomeSets ∧ res.HomeSets ≤ 3) (h2 : 0 ≤ res.AwaySets ∧ res.AwaySets ≤ 3)
    (h3 : 0 ≤ res.HomePoints ∧ res.HomePoints ≤ 3)
    (hroom : ∀ k t, simStats k = some t → hasRoom (c + 3) t) :
    homeFits res simStats hName ∧
    ∀ k t, updateHome res simStats hName k = some t → hasRoom c t := by
  refine ⟨?_, ?_⟩
  · intro h hh
    have hr := hroom hName h hh
    simp only [hasRoom] at hr
    simp only [fitsInt64]
    refine ⟨?_, ?_, ?_, ?_, ?_⟩
    · omega
    · intro _; omega
    · omega
    · omega
    · omega
  · intro k t hk
    by_cases hkh : k = hName
    · subst hkh
      cases hh : simStats k with
      | none =>
        rw [updateHome_of_none res simStats k hh, hh] at hk
        cases hk
      | some h =>
        rw [updateHome_of_some res simStats k h hh, mapSet_same] at hk
        cases hk
        have hr := hroom k h hh
        simp only [hasRoom] at hr ⊢
        unfold wrapInt64
        refine ⟨?_, ?_, ?_, ?_, ?_⟩
        · show _ ≤ (h.Played + 1 + 9223372036854775808) % 18446744073709551616
              - 9223372036854775808 ∧ _
          omega
        · show _ ≤ (if res.HomeWin = true then (h.Wins + 1 + 9223372036854775808)
              % 18446744073709551616 - 9223372036854775808 else h.Wins) ∧ _
          split_ifs <;> omega
        · show _ ≤ (h.Points + res.HomePoints + 9223372036854775808) % 18446744073709551616
              - 9223372036854775808 ∧ _
          omega
        · show _ ≤ (h.SetsWon + res.HomeSets + 9223372036854775808) % 18446744073709551616
              - 9223372036854775808 ∧ _
          omega
        · show _ ≤ (h.SetsLost + res.AwaySets + 9223372036854775808) % 18446744073709551616
              - 9223372036854775808 ∧ _
          omega
    · rw [updateHome_other res simStats hName k hkh] at hk
      have hr := hroom k t hk
      simp only [hasRoom] at hr ⊢
      omega

/-- With room for 3 more in every standing, no addition of the away update
overflows, and the room left afterwards is 3 less. -/
theorem updateAway_room (res : MatchOutcome) (simStats : String → Option TeamStats)
    (aName : String) (c : Int) (hc : 0 ≤ c)
    (h1 : 0 ≤ res.HomeSets ∧ res.HomeSets ≤ 3) (h2 : 0 ≤ res.AwaySets ∧ res.AwaySets ≤ 3)
    (h3 : 0 ≤ res.AwayPoints ∧ res.AwayPoints ≤ 3)
    (hroom : ∀ k t, simStats k = some t → hasRoom (c + 3) t) :
    awayFits res simStats aName ∧
    ∀ k t, updateAway res simStats aName k = some t → hasRoom c t := by
  refine ⟨?_, ?_⟩
  · intro a ha
    have hr := hroom aName a ha
    simp only [hasRoom] at hr
    simp only [fitsInt64]
    refine ⟨?_, ?_, ?_, ?_, ?_⟩
    · omega
    · intro _; omega
    · omega
    · omega
    · omega
  · intro k t hk
    by_cases hka : k = aName
    · subst hka
      cases ha : simStats k with
      | none =>
        rw [updateAway_of_none res simStats k ha, ha] at hk
        cases hk
      | some a =>
        rw [updateAway_of_some res simStats k a ha, mapSet_same] at hk
        cases hk
        have hr := hroom k a ha
        simp only [hasRoom] at hr ⊢
        unfold wrapInt64
        refine ⟨?_, ?_, ?_, ?_, ?_⟩
        · show _ ≤ (a.Played + 1 + 9223372036854775808) % 18446744073709551616
              - 9223372036854775808 ∧ _
          omega
        · show _ ≤ (if (!res.HomeWin) = true then (a.Wins + 1 + 9223372036854775808)
              % 18446744073709551616 - 9223372036854775808 else a.Wins) ∧ _
          split_ifs <;> omega
        · show _ ≤ (a.Points + res.AwayPoints + 9223372036854775808) % 18446744073709551616
              - 9223372036854775808 ∧ _
          omega
        · show _ ≤ (a.SetsWon + res.AwaySets + 9223372036854775808) % 18446744073709551616
              - 9223372036854775808 ∧ _
          omega
        · show _ ≤ (a.SetsLost + res.HomeSets + 9223372036854775808) % 18446744073709551616
              - 9223372036854775808 ∧ _
          omega
    · rw [updateAway_other res simStats aName k hka] at hk
      have hr := hroom k t hk
      simp only [hasRoom] at hr ⊢
      omega

/-- When every number of the standings is a 64-bit integer with room for 6 more
per fixture, no addition overflows during the replay, whatever the ratings and
the draws. -/
theorem replayFits_of_room {F : Type} [LinearOrderedField F] (pow10 : F → F)
    (eloMap : String → Option F) (rnd : Nat → F) (fixtures : List Match)
    (st : Nat × (String → Option TeamStats))
    (hroom : ∀ k t, st.2 k = some t → hasRoom (6 * (fixtures.length : Int)) t) :
    replayFits pow10 eloMap rnd fixtures st := by
  induction fixtures generalizing st with
  | nil => trivial
  | cons m fixtures ih =>
    obtain ⟨p1, p2, p3, p4⟩ := simulateMatch_nonneg pow10 (ratingOr1200 eloMap m.HomeTeam)
      (ratingOr1200 eloMap m.AwayTeam) (rnd st.1) (rnd (st.1 + 1))
    obtain ⟨q1, q2, q3, q4⟩ := simulateMatch_le_three pow10 (ratingOr1200 eloMap m.HomeTeam)
      (ratingOr1200 eloMap m.AwayTeam) (rnd st.1) (rnd (st.1 + 1))
    have hlen : (6 : Int) * ((m :: fixtures).length : Int) =
        6 * (fixtures.length : Int) + 3 + 3 := by
      rw [List.length_cons]
      push_cast
      ring
    have hnn : (0 : Int) ≤ 6 * (fixtures.length : Int) := by positivity
    rw [hlen] at hroom
    have hhome := updateHome_room _ st.2 m.HomeTeam (6 * (fixtures.length : Int) + 3)
      (by omega) ⟨p1, q1⟩ ⟨p2, q2⟩ ⟨p3, q3⟩ hroom
    have haway := updateAway_room _ _ m.AwayTeam (6 * (fixtures.length : Int))
      hnn ⟨p1, q1⟩ ⟨p2, q2⟩ ⟨p4, q4⟩ hhome.2
    exact ⟨⟨hhome.1, haway.1⟩, ih _ haway.2⟩

/-- The entries of `baseTeamMap` are teams of the request. -/
theorem baseTeamMap_mem (teams : List TeamStats) (k : String) (t : TeamStats)
    (h : baseTeamMap teams k = some t) : t ∈ teams := by
  have hgen : ∀ (l : List TeamStats) (m0 : String → Option TeamStats),
      (l.foldl (fun m t => mapSet m t.Name t) m0) k = some t → t ∈ l ∨ m0 k = some t := by
    intro l
    induction l with
    | nil => intro m0 h0; exact Or.inr h0
    | cons x l ih =>
      intro m0 h0
      rw [List.foldl_cons] at h0
      rcases ih _ h0 with hl | hx
      · exact Or.inl (List.mem_cons_of_mem _ hl)
      · by_cases hk : k = x.Name
        · rw [hk, mapSet_same] at hx
          cases hx
          exact Or.inl (List.mem_cons_self _ _)
        · rw [mapSet_other _ _ _ _ hk] at hx
          exact Or.inr hx
  rcases hgen teams (fun _ => none) h with hl | hn
  · exact hl
  · cases hn

/-- A request whose baseline numbers are 64-bit integers with room for 6 more
per fixture: no addition of a trial overflows, whatever the ratings and the
draws. -/
theorem replayFits_of_baseline_room {F : Type} [LinearOrderedField F] (pow10 : F → F)
    (eloMap : String → Option F) (rnd : Nat → F) (n : Nat) (teams : List TeamStats)
    (fixtures : List Match)
    (hroom : ∀ t ∈ teams, hasRoom (6 * (fixtures.length : Int)) t) :
    replayFits pow10 eloMap rnd fixtures (n, baseTeamMap teams) :=
  replayFits_of_room pow10 eloMap rnd fixtures (n, baseTeamMap teams)
    (fun k t hk => hroom t (baseTeamMap_mem teams k t hk))

/-! ### Validation and the short answer -/

/-- C14: for a valid request (a target team and at least one team) whose
fixture has no unplayed match, an empty fixture included, `Calculate` draws no
random number, runs no trial and answers `bestRank = 1`, `worstRank = 1` without
any probability field, whatever the random stream. -/
theorem Calculate_all_played {F : Type} [LinearOrderedField F] (pow10 : F → F)
    (sortMatches : (Match → Match → Bool) → List Match → List Match)
    (sortTeams : (TeamStats → TeamStats → Bool) → List TeamStats → List TeamStats)
    (rangeOrder : Nat → List String → List String) (rnd : Nat → F)
    (req : CalculateRequest) (htarget : req.TargetTeam ≠ "") (hteams : req.Teams ≠ [])
    (hplayed : ∀ m ∈ req.Fixture, m.IsPlayed = true) :
    Calculate pow10 sortMatches sortTeams rangeOrder rnd req =
      (CalculateResponse.allPlayed 1 1 "All matches played.", 0) := by
  have hvalid : ¬ (req.TargetTeam = "" ∨ req.Teams.length = 0) := by
    rintro (h | h)
    · exact htarget h
    · exact hteams (List.length_eq_zero.mp h)
  have hnone : req.Fixture.filter (fun m => !m.IsPlayed) = [] := by
    rw [List.filter_eq_nil_iff]
    intro m hm
    simp [hplayed m hm]
  simp only [Calculate]
  rw [if_neg hvalid, hnone]
  simp

/-- C14, witness: two teams and one match, already played. -/
theorem Calculate_all_played_witness :
    (CalculateRequest.mk [⟨"A", 3, 1, 1, 3, 0⟩, ⟨"B", 0, 0, 1, 0, 3⟩]
        [Match.mk "A" "B" "3-0" true "2024-01-01"] "A").TargetTeam ≠ "" ∧
    (CalculateRequest.mk [⟨"A", 3, 1, 1, 3, 0⟩, ⟨"B", 0, 0, 1, 0, 3⟩]
        [Match.mk "A" "B" "3-0" true "2024-01-01"] "A").Teams ≠ [] ∧
    (∀ m ∈ (CalculateRequest.mk [⟨"A", 3, 1, 1, 3, 0⟩, ⟨"B", 0, 0, 1, 0, 3⟩]
        [Match.mk "A" "B" "3-0" true "2024-01-01"] "A").Fixture, m.IsPlayed = true) ∧
    Calculate (fun x : ℝ => (10 : ℝ) ^ x) stableSortSlice stableSortSlice (fun _ keys => keys)
        (fun _ => (1 / 2 : ℝ))
        (CalculateRequest.mk [⟨"A", 3, 1, 1, 3, 0⟩, ⟨"B", 0, 0, 1, 0, 3⟩]
          [Match.mk "A" "B" "3-0" true "2024-01-01"] "A") =
      (CalculateResponse.allPlayed 1 1 "All matches played.", 0) :=
  ⟨by decide, by decide, by decide,
    Calculate_all_played (fun x : ℝ => (10 : ℝ) ^ x) stableSortSlice stableSortSlice
      (fun _ keys => keys) (fun _ => (1 / 2 : ℝ))
      (CalculateRequest.mk [⟨"A", 3, 1, 1, 3, 0⟩, ⟨"B", 0, 0, 1, 0, 3⟩]
        [Match.mk "A" "B" "3-0" true "2024-01-01"] "A")
      (by decide) (by decide) (by decide)⟩

/-- C15, counterexample: a request to `Calculate` with a team and a target team
but no fixture is not rejected, it gets the short answer; a request to
`PredictAll` with a team but neither upcoming nor past matches is not rejected,
it gets the empty map of predictions. -/
theorem missing_lists_not_rejected :
    Calculate (fun x : ℝ => (10 : ℝ) ^ x) stableSortSlice stableSortSlice (fun _ keys => keys)
        (fun _ => (1 / 2 : ℝ)) (CalculateRequest.mk [⟨"A", 0, 0, 0, 0, 0⟩] [] "A") =
      (CalculateResponse.allPlayed 1 1 "All matches played.", 0) ∧
    PredictAll (fun x : ℝ => (10 : ℝ) ^ x) stableSortSlice [⟨"A", 0, 0, 0, 0, 0⟩] [] [] =
      Except.ok (fun _ => none) := by
  constructor
  · simp [Calculate]
  · simp [PredictAll]

/-- C15, as amended: `Calculate` answers 400 exactly when `teams` is empty or
`targetTeam` is empty, and `PredictAll` answers 400 exactly when `teams` is
empty; the rejection draws no random number and does not depend on the ratings.
A missing or empty `fixture`, `upcomingMatches` or `allMatches` is not a reason
to reject. -/
theorem validation_rejects_exactly {F : Type} [LinearOrderedField F] (pow10 : F → F)
    (sortMatches : (Match → Match → Bool) → List Match → List Match)
    (sortTeams : (TeamStats → TeamStats → Bool) → List TeamStats → List TeamStats)
    (rangeOrder : Nat → List String → List String) (rnd : Nat → F)
    (req : CalculateRequest) (teams : List TeamStats) (upcomingMatches allMatches : List Match) :
    (req.Teams = [] ∨ req.TargetTeam = "" →
      Calculate pow10 sortMatches sortTeams rangeOrder rnd req =
        (CalculateResponse.error 400 "Missing required fields", 0)) ∧
    (req.Teams ≠ [] → req.TargetTeam ≠ "" → ∀ status message,
      (Calculate pow10 sortMatches sortTeams rangeOrder rnd req).1 ≠
        CalculateResponse.error status message) ∧
    (teams = [] →
      PredictAll pow10 sortMatches teams upcomingMatches allMatches =
        Except.error (400, "Missing match data")) ∧
    (teams ≠ [] → ∃ predictions,
      PredictAll pow10 sortMatches teams upcomingMatches allMatches =
        Except.ok predictions) := by
  refine ⟨?_, ?_, ?_, ?_⟩
  · intro h
    have hinvalid : req.TargetTeam = "" ∨ req.Teams.length = 0 := by
      rcases h with h | h
      · exact Or.inr (by rw [h]; rfl)
      · exact Or.inl h
    simp only [Calculate]
    rw [if_pos hinvalid]
  · intro hteams htarget status message
    have hvalid : ¬ (req.TargetTeam = "" ∨ req.Teams.length = 0) := by
      rintro (h | h)
      · exact htarget h
      · exact hteams (List.length_eq_zero.mp h)
    simp only [Calculate]
    rw [if_neg hvalid]
    split_ifs <;> simp
  · intro h
    subst h
    simp [PredictAll]
  · intro h
    have hlen : ¬ teams.length = 0 := fun h0 => h (List.length_eq_zero.mp h0)
    refine ⟨upcomingMatches.foldl
      (predictStep pow10 (CalculateElo pow10 sortMatches teams allMatches)) (fun _ => none), ?_⟩
    simp only [PredictAll]
    rw [if_neg hlen]

/-! ### The recorded ranks -/

/-- Every entry of a map filled like `baseTeamMap` carries its key as name. -/
theorem foldl_teamMap_name (teams : List TeamStats) (m0 : String → Option TeamStats)
    (h0 : ∀ k t, m0 k = some t → t.Name = k) (k : String) (t : TeamStats)
    (hk : (teams.foldl (fun m t => mapSet m t.Name t) m0) k = some t) : t.Name = k := by
  induction teams generalizing m0 with
  | nil => exact h0 k t hk
  | cons x teams ih =>
    rw [List.foldl_cons] at hk
    refine ih (mapSet m0 x.Name x) ?_ hk
    intro k' t' hk'
    by_cases hkx : k' = x.Name
    · rw [hkx, mapSet_same] at hk'
      cases hk'
      exact hkx.symm
    · rw [mapSet_other _ _ _ _ hkx] at hk'
      exact h0 k' t' hk'

/-- The keys of a map filled like `baseTeamMap` are the old keys and the names
of the teams. -/
theorem foldl_teamMap_none_iff (teams : List TeamStats) (m0 : String → Option TeamStats)
    (k : String) :
    (teams.foldl (fun m t => mapSet m t.Name t) m0) k = none ↔
      m0 k = none ∧ k ∉ teams.map (fun t => t.Name) := by
  induction teams generalizing m0 with
  | nil => simp
  | cons x teams ih =>
    rw [List.foldl_cons, ih, List.map_cons, List.mem_cons]
    by_cases hkx : k = x.Name
    · rw [hkx, mapSet_same]
      simp
    · rw [mapSet_other _ _ _ _ hkx]
      simp [hkx]

/-- A team name of the request is a key of `baseTeamMap`, with an entry of that
name. -/
theorem baseTeamMap_of_mem (teams : List TeamStats) (k : String)
    (hk : k ∈ teams.map (fun t => t.Name)) :
    ∃ t, baseTeamMap teams k = some t ∧ t.Name = k := by
  cases hb : baseTeamMap teams k with
  | none =>
    have := (foldl_teamMap_none_iff teams (fun _ => none) k).mp hb
    exact absurd hk this.2
  | some t =>
    exact ⟨t, rfl, foldl_teamMap_name teams (fun _ => none)
      (fun _ _ h => by cases h) k t hb⟩

/-- A name that is not a team name of the request is no key of `baseTeamMap`. -/
theorem baseTeamMap_of_not_mem (teams : List TeamStats) (k : String)
    (hk : k ∉ teams.map (fun t => t.Name)) : baseTeamMap teams k = none :=
  (foldl_teamMap_none_iff teams (fun _ => none) k).mpr ⟨rfl, hk⟩

/-- After the fixtures of a trial every team name of the request still has an
entry of that name. -/
theorem trial_entry_of_mem {F : Type} [LinearOrderedField F] (pow10 : F → F)
    (eloMap : String → Option F) (rnd : Nat → F) (n : Nat) (teams : List TeamStats)
    (fixtures : List Match) (k : String) (hk : k ∈ teams.map (fun t => t.Name)) :
    ∃ t, (fixtures.foldl (fixtureStep pow10 eloMap rnd) (n, baseTeamMap teams)).2 k = some t ∧
      t.Name = k := by
  obtain ⟨t0, ht0, hn0⟩ := baseTeamMap_of_mem teams k hk
  obtain ⟨t, ht, hg⟩ :=
    ((foldl_fixtureStep_kept pow10 eloMap rnd fixtures (n, baseTeamMap teams)) k).2 t0 ht0
  exact ⟨t, ht, hg.trans hn0⟩

/-- Listing the entries of a map key by key gives back the keys as names. -/
theorem map_name_filterMap (f : String → Option TeamStats) (l : List String)
    (h : ∀ k ∈ l, ∃ t, f k = some t ∧ t.Name = k) :
    (l.filterMap f).map (fun t => t.Name) = l := by
  induction l with
  | nil => rfl
  | cons k l ih =>
    obtain ⟨t, ht, hn⟩ := h k (List.mem_cons_self _ _)
    rw [List.filterMap_cons_some ht, List.map_cons, hn,
      ih (fun x hx => h x (List.mem_cons_of_mem _ hx))]

/-- The rank recorded by one trial: when the target team is a team of the
request, exactly one rank between 1 and the number of distinct team names;
otherwise none. -/
theorem runTrial_rank {F : Type} [LinearOrderedField F] (pow10 : F → F)
    (sortTeams : (TeamStats → TeamStats → Bool) → List TeamStats → List TeamStats)
    (rangeOrder : Nat → List String → List String)
    (hsort : SortSliceSpec sortTeams) (horder : RangeOrderSpec rangeOrder)
    (eloMap : String → Option F) (rnd : Nat → F) (teams : List TeamStats)
    (fixtures : List Match) (targetTeam : String) (i n : Nat) :
    (targetTeam ∈ teams.map (fun t => t.Name) →
      ∃ r : Int, (runTrial pow10 sortTeams rangeOrder eloMap rnd teams fixtures targetTeam
        i n).2 = some r ∧ 1 ≤ r ∧ r ≤ ((teamNames teams).length : Int)) ∧
    (targetTeam ∉ teams.map (fun t => t.Name) →
      (runTrial pow10 sortTeams rangeOrder eloMap rnd teams fixtures targetTeam i n).2 =
        none) := by
  have hkeys : ∀ k ∈ rangeOrder i (teamNames teams),
      ∃ t, (fixtures.foldl (fixtureStep pow10 eloMap rnd) (n, baseTeamMap teams)).2 k = some t ∧
        t.Name = k := by
    intro k hk
    have hk' : k ∈ teamNames teams := (horder i (teamNames teams)).mem_iff.mp hk
    exact trial_entry_of_mem pow10 eloMap rnd n teams fixtures k (List.mem_dedup.mp hk')
  have hnames := map_name_filterMap _ _ hkeys
  have hperm := (hsort rankLess rankLess_irrefl rankLess_trans rankLess_negTrans
    ((rangeOrder i (teamNames teams)).filterMap
      (fixtures.foldl (fixtureStep pow10 eloMap rnd) (n, baseTeamMap teams)).2)).1
  have hmem : ∀ x : String,
      (∃ t ∈ sortTeams rankLess ((rangeOrder i (teamNames teams)).filterMap
        (fixtures.foldl (fixtureStep pow10 eloMap rnd) (n, baseTeamMap teams)).2),
        t.Name = x) ↔ x ∈ teams.map (fun t => t.Name) := by
    intro x
    constructor
    · rintro ⟨t, ht, hx⟩
      have h2 : x ∈ ((rangeOrder i (teamNames teams)).filterMap
          (fixtures.foldl (fixtureStep pow10 eloMap rnd) (n, baseTeamMap teams)).2).map
          (fun t => t.Name) := List.mem_map.mpr ⟨t, hperm.mem_iff.mp ht, hx⟩
      rw [hnames] at h2
      exact List.mem_dedup.mp ((horder i (teamNames teams)).mem_iff.mp h2)
    · intro hx
      have h2 : x ∈ rangeOrder i (teamNames teams) :=
        (horder i (teamNames teams)).mem_iff.mpr (List.mem_dedup.mpr hx)
      rw [← hnames] at h2
      obtain ⟨t, ht, hxt⟩ := List.mem_map.mp h2
      exact ⟨t, hperm.mem_iff.mpr ht, hxt⟩
  have hlen : (sortTeams rankLess ((rangeOrder i (teamNames teams)).filterMap
      (fixtures.foldl (fixtureStep pow10 eloMap rnd) (n, baseTeamMap teams)).2)).length =
      (teamNames teams).length := by
    rw [hperm.length_eq, ← List.length_map _ (fun t : TeamStats => t.Name), hnames,
      (horder i (teamNames teams)).length_eq]
  simp only [runTrial, rankSort]
  constructor
  · intro htarget
    obtain ⟨t, ht, hx⟩ := (hmem targetTeam).mpr htarget
    have hidx := List.findIdx_lt_length_of_exists
      (p := fun t : TeamStats => t.Name == targetTeam) ⟨t, ht, by simp [hx]⟩
    rw [if_pos hidx]
    refine ⟨_, rfl, by omega, ?_⟩
    rw [← hlen]
    omega
  · intro htarget
    have hall : ∀ t ∈ sortTeams rankLess ((rangeOrder i (teamNames teams)).filterMap
        (fixtures.foldl (fixtureStep pow10 eloMap rnd) (n, baseTeamMap teams)).2),
        (t.Name == targetTeam) = false := by
      intro t ht
      have hne : t.Name ≠ targetTeam := fun hx => htarget ((hmem targetTeam).mp ⟨t, ht, hx⟩)
      simpa using hne
    have hidx := List.findIdx_eq_length.mpr hall
    rw [if_neg (by rw [hidx]; exact lt_irrefl _)]

/-- The ranks appended by a run of trials: one per trial, each between 1 and
the number of distinct team names, when the target team is a team of the
request, and none otherwise. -/
theorem foldl_trials_ranks {F : Type} [LinearOrderedField F] (pow10 : F → F)
    (sortTeams : (TeamStats → TeamStats → Bool) → List TeamStats → List TeamStats)
    (rangeOrder : Nat → List String → List String)
    (hsort : SortSliceSpec sortTeams) (horder : RangeOrderSpec rangeOrder)
    (eloMap : String → Option F) (rnd : Nat → F) (teams : List TeamStats)
    (fixtures : List Match) (targetTeam : String) (trials : List Nat)
    (acc : Nat × List Int) :
    (targetTeam ∈ teams.map (fun t => t.Name) →
      ∃ extra : List Int,
        (trials.foldl
          (fun acc i =>
            let t := runTrial pow10 sortTeams rangeOrder eloMap rnd teams fixtures
              targetTeam i acc.1
            (t.1, match t.2 with
              | some r => acc.2 ++ [r]
              | none => acc.2))
          acc).2 = acc.2 ++ extra ∧
        extra.length = trials.length ∧
        ∀ r ∈ extra, 1 ≤ r ∧ r ≤ ((teamNames teams).length : Int)) ∧
    (targetTeam ∉ teams.map (fun t => t.Name) →
      (trials.foldl
        (fun acc i =>
          let t := runTrial pow10 sortTeams rangeOrder eloMap rnd teams fixtures
            targetTeam i acc.1
          (t.1, match t.2 with
            | some r => acc.2 ++ [r]
            | none => acc.2))
        acc).2 = acc.2) := by
  induction trials generalizing acc with
  | nil =>
    exact ⟨fun _ => ⟨[], by simp, rfl, fun r hr => by cases hr⟩, fun _ => rfl⟩
  | cons i trials ih =>
    obtain ⟨hin, hout⟩ := runTrial_rank pow10 sortTeams rangeOrder hsort horder eloMap rnd
      teams fixtures targetTeam i acc.1
    rw [List.foldl_cons]
    constructor
    · intro htarget
      obtain ⟨r, hr, hr1, hr2⟩ := hin htarget
      obtain ⟨extra, he, hl, hb⟩ := (ih _).1 htarget
      refine ⟨r :: extra, ?_, ?_, ?_⟩
      · rw [he]
        simp only [hr, List.append_assoc, List.singleton_append]
      · rw [List.length_cons, List.length_cons, hl]
      · intro x hx
        rcases List.mem_cons.mp hx with rfl | hx'
        · exact ⟨hr1, hr2⟩
        · exact hb x hx'
    · intro htarget
      rw [(ih _).2 htarget]
      simp only [hout htarget]

/-- C16: for a valid request with at least one unplayed fixture, `Calculate`
aggregates a list of recorded ranks of length at most 1000, each between 1 and
the number of distinct team names.  If the target team is no team of the
request no rank is recorded in any trial and the list is empty, without any
failure; if it is one, every trial records exactly one rank and the list has
1000 entries (`sort.Slice` and the map iteration being any that return a
rearrangement). -/
theorem Calculate_recorded_ranks {F : Type} [LinearOrderedField F] (pow10 : F → F)
    (sortMatches : (Match → Match → Bool) → List Match → List Match)
    (sortTeams : (TeamStats → TeamStats → Bool) → List TeamStats → List TeamStats)
    (rangeOrder : Nat → List String → List String) (rnd : Nat → F)
    (req : CalculateRequest)
    (hsort : SortSliceSpec sortTeams) (horder : RangeOrderSpec rangeOrder)
    (htarget : req.TargetTeam ≠ "") (hteams : req.Teams ≠ [])
    (hunplayed : ∃ m ∈ req.Fixture, m.IsPlayed = false) :
    ∃ (ranks : List Int) (draws : Nat),
      Calculate pow10 sortMatches sortTeams rangeOrder rnd req =
        (CalculateResponse.projection (projectionResult req.Teams ranks), draws) ∧
      ranks = (simulateRanks pow10 sortTeams rangeOrder
        (CalculateElo pow10 sortMatches req.Teams req.Fixture) rnd req.Teams
        (req.Fixture.filter (fun m => !m.IsPlayed)) req.TargetTeam).2 ∧
      ranks.length ≤ 1000 ∧
      (∀ r ∈ ranks, 1 ≤ r ∧ r ≤ ((teamNames req.Teams).length : Int)) ∧
      (req.TargetTeam ∉ req.Teams.map (fun t => t.Name) →
        ranks = [] ∧
        ∀ i n, (runTrial pow10 sortTeams rangeOrder
          (CalculateElo pow10 sortMatches req.Teams req.Fixture) rnd req.Teams
          (req.Fixture.filter (fun m => !m.IsPlayed)) req.TargetTeam i n).2 = none) ∧
      (req.TargetTeam ∈ req.Teams.map (fun t => t.Name) →
        ranks.length = 1000 ∧
        ∀ i n, ∃ r, (runTrial pow10 sortTeams rangeOrder
          (CalculateElo pow10 sortMatches req.Teams req.Fixture) rnd req.Teams
          (req.Fixture.filter (fun m => !m.IsPlayed)) req.TargetTeam i n).2 = some r) := by
  have hvalid : ¬ (req.TargetTeam = "" ∨ req.Teams.length = 0) := by
    rintro (h | h)
    · exact htarget h
    · exact hteams (List.length_eq_zero.mp h)
  have hsome : ¬ (req.Fixture.filter (fun m => !m.IsPlayed)).length = 0 := by
    obtain ⟨m, hm, hp⟩ := hunplayed
    intro h0
    have hmem : m ∈ req.Fixture.filter (fun m => !m.IsPlayed) :=
      List.mem_filter.mpr ⟨hm, by simp [hp]⟩
    rw [List.length_eq_zero.mp h0] at hmem
    cases hmem
  obtain ⟨hin, hout⟩ := foldl_trials_ranks pow10 sortTeams rangeOrder hsort horder
    (CalculateElo pow10 sortMatches req.Teams req.Fixture) rnd req.Teams
    (req.Fixture.filter (fun m => !m.IsPlayed)) req.TargetTeam (List.range 1000) (0, [])
  refine ⟨(simulateRanks pow10 sortTeams rangeOrder
      (CalculateElo pow10 sortMatches req.Teams req.Fixture) rnd req.Teams
      (req.Fixture.filter (fun m => !m.IsPlayed)) req.TargetTeam).2,
    (simulateRanks pow10 sortTeams rangeOrder
      (CalculateElo pow10 sortMatches req.Teams req.Fixture) rnd req.Teams
      (req.Fixture.filter (fun m => !m.IsPlayed)) req.TargetTeam).1, ?_, rfl, ?_, ?_, ?_, ?_⟩
  · simp only [Calculate]
    rw [if_neg hvalid, if_neg hsome]
  · by_cases hmem : req.TargetTeam ∈ req.Teams.map (fun t => t.Name)
    · obtain ⟨extra, he, hl, -⟩ := hin hmem
      simp only [simulateRanks]
      rw [he, List.nil_append, hl, List.length_range]
    · simp only [simulateRanks]
      rw [hout hmem]
      exact Nat.zero_le _
  · by_cases hmem : req.TargetTeam ∈ req.Teams.map (fun t => t.Name)
    · obtain ⟨extra, he, -, hb⟩ := hin hmem
      simp only [simulateRanks]
      rw [he, List.nil_append]
      exact hb
    · simp only [simulateRanks]
      rw [hout hmem]
      intro r hr
      cases hr
  · intro hmem
    refine ⟨?_, fun i n => ?_⟩
    · simp only [simulateRanks]
      exact hout hmem
    · exact (runTrial_rank pow10 sortTeams rangeOrder hsort horder _ rnd req.Teams _
        req.TargetTeam i n).2 hmem
  · intro hmem
    refine ⟨?_, fun i n => ?_⟩
    · obtain ⟨extra, he, hl, -⟩ := hin hmem
      simp only [simulateRanks]
      rw [he, List.nil_append, hl, List.length_range]
    · obtain ⟨r, hr, -⟩ := (runTrial_rank pow10 sortTeams rangeOrder hsort horder _ rnd
        req.Teams _ req.TargetTeam i n).1 hmem
      exact ⟨r, hr⟩

/-- C16, witness: A and B, one played and one unplayed match, target team A,
insertion sort as `sort.Slice` and the keys visited in their listed order. -/
theorem Calculate_recorded_ranks_witness :
    SortSliceSpec (@stableSortSlice TeamStats) ∧
    RangeOrderSpec (fun _ keys => keys) ∧
    (CalculateRequest.mk [⟨"A", 3, 1, 1, 3, 0⟩, ⟨"B", 0, 0, 1, 0, 3⟩]
          [Match.mk "A" "B" "3-0" true "2024-01-01", Match.mk "B" "A" "" false "2024-02-01"] "A").TargetTeam ≠ "" ∧
    (CalculateRequest.mk [⟨"A", 3, 1, 1, 3, 0⟩, ⟨"B", 0, 0, 1, 0, 3⟩]
          [Match.mk "A" "B" "3-0" true "2024-01-01", Match.mk "B" "A" "" false "2024-02-01"] "A").Teams ≠ [] ∧
    (∃ m ∈ (CalculateRequest.mk [⟨"A", 3, 1, 1, 3, 0⟩, ⟨"B", 0, 0, 1, 0, 3⟩]
          [Match.mk "A" "B" "3-0" true "2024-01-01", Match.mk "B" "A" "" false "2024-02-01"] "A").Fixture, m.IsPlayed = false) ∧
    ∃ (ranks : List Int) (draws : Nat),
      Calculate (fun x : ℝ => (10 : ℝ) ^ x) stableSortSlice stableSortSlice (fun _ keys => keys) (fun _ => (1 / 2 : ℝ)) (CalculateRequest.mk [⟨"A", 3, 1, 1, 3, 0⟩, ⟨"B", 0, 0, 1, 0, 3⟩]
          [Match.mk "A" "B" "3-0" true "2024-01-01", Match.mk "B" "A" "" false "2024-02-01"] "A") =
        (CalculateResponse.projection (projectionResult (CalculateRequest.mk [⟨"A", 3, 1, 1, 3, 0⟩, ⟨"B", 0, 0, 1, 0, 3⟩]
          [Match.mk "A" "B" "3-0" true "2024-01-01", Match.mk "B" "A" "" false "2024-02-01"] "A").Teams ranks), draws) ∧
      ranks = (simulateRanks (fun x : ℝ => (10 : ℝ) ^ x) stableSortSlice (fun _ keys => keys)
        (CalculateElo (fun x : ℝ => (10 : ℝ) ^ x) stableSortSlice (CalculateRequest.mk [⟨"A", 3, 1, 1, 3, 0⟩, ⟨"B", 0, 0, 1, 0, 3⟩]
          [Match.mk "A" "B" "3-0" true "2024-01-01", Match.mk "B" "A" "" false "2024-02-01"] "A").Teams (CalculateRequest.mk [⟨"A", 3, 1, 1, 3, 0⟩, ⟨"B", 0, 0, 1, 0, 3⟩]
          [Match.mk "A" "B" "3-0" true "2024-01-01", Match.mk "B" "A" "" false "2024-02-01"] "A").Fixture) (fun _ => (1 / 2 : ℝ)) (CalculateRequest.mk [⟨"A", 3, 1, 1, 3, 0⟩, ⟨"B", 0, 0, 1, 0, 3⟩]
          [Match.mk "A" "B" "3-0" true "2024-01-01", Match.mk "B" "A" "" false "2024-02-01"] "A").Teams
        ((CalculateRequest.mk [⟨"A", 3, 1, 1, 3, 0⟩, ⟨"B", 0, 0, 1, 0, 3⟩]
          [Match.mk "A" "B" "3-0" true "2024-01-01", Match.mk "B" "A" "" false "2024-02-01"] "A").Fixture.filter (fun m => !m.IsPlayed)) (CalculateRequest.mk [⟨"A", 3, 1, 1, 3, 0⟩, ⟨"B", 0, 0, 1, 0, 3⟩]
          [Match.mk "A" "B" "3-0" true "2024-01-01", Match.mk "B" "A" "" false "2024-02-01"] "A").TargetTeam).2 ∧
      ranks.length ≤ 1000 ∧
      (∀ r ∈ ranks, 1 ≤ r ∧ r ≤ ((teamNames (CalculateRequest.mk [⟨"A", 3, 1, 1, 3, 0⟩, ⟨"B", 0, 0, 1, 0, 3⟩]
          [Match.mk "A" "B" "3-0" true "2024-01-01", Match.mk "B" "A" "" false "2024-02-01"] "A").Teams).length : Int)) ∧
      ((CalculateRequest.mk [⟨"A", 3, 1, 1, 3, 0⟩, ⟨"B", 0, 0, 1, 0, 3⟩]
          [Match.mk "A" "B" "3-0" true "2024-01-01", Match.mk "B" "A" "" false "2024-02-01"] "A").TargetTeam ∉ (CalculateRequest.mk [⟨"A", 3, 1, 1, 3, 0⟩, ⟨"B", 0, 0, 1, 0, 3⟩]
          [Match.mk "A" "B" "3-0" true "2024-01-01", Match.mk "B" "A" "" false "2024-02-01"] "A").Teams.map (fun t => t.Name) →
        ranks = [] ∧
        ∀ i n, (runTrial (fun x : ℝ => (10 : ℝ) ^ x) stableSortSlice (fun _ keys => keys)
          (CalculateElo (fun x : ℝ => (10 : ℝ) ^ x) stableSortSlice (CalculateRequest.mk [⟨"A", 3, 1, 1, 3, 0⟩, ⟨"B", 0, 0, 1, 0, 3⟩]
          [Match.mk "A" "B" "3-0" true "2024-01-01", Match.mk "B" "A" "" false "2024-02-01"] "A").Teams (CalculateRequest.mk [⟨"A", 3, 1, 1, 3, 0⟩, ⟨"B", 0, 0, 1, 0, 3⟩]
          [Match.mk "A" "B" "3-0" true "2024-01-01", Match.mk "B" "A" "" false "2024-02-01"] "A").Fixture) (fun _ => (1 / 2 : ℝ)) (CalculateRequest.mk [⟨"A", 3, 1, 1, 3, 0⟩, ⟨"B", 0, 0, 1, 0, 3⟩]
          [Match.mk "A" "B" "3-0" true "2024-01-01", Match.mk "B" "A" "" false "2024-02-01"] "A").Teams
          ((CalculateRequest.mk [⟨"A", 3, 1, 1, 3, 0⟩, ⟨"B", 0, 0, 1, 0, 3⟩]
          [Match.mk "A" "B" "3-0" true "2024-01-01", Match.mk "B" "A" "" false "2024-02-01"] "A").Fixture.filter (fun m => !m.IsPlayed)) (CalculateRequest.mk [⟨"A", 3, 1, 1, 3, 0⟩, ⟨"B", 0, 0, 1, 0, 3⟩]
          [Match.mk "A" "B" "3-0" true "2024-01-01", Match.mk "B" "A" "" false "2024-02-01"] "A").TargetTeam i n).2 = none) ∧
      ((CalculateRequest.mk [⟨"A", 3, 1, 1, 3, 0⟩, ⟨"B", 0, 0, 1, 0, 3⟩]
          [Match.mk "A" "B" "3-0" true "2024-01-01", Match.mk "B" "A" "" false "2024-02-01"] "A").TargetTeam ∈ (CalculateRequest.mk [⟨"A", 3, 1, 1, 3, 0⟩, ⟨"B", 0, 0, 1, 0, 3⟩]
          [Match.mk "A" "B" "3-0" true "2024-01-01", Match.mk "B" "A" "" false "2024-02-01"] "A").Teams.map (fun t => t.Name) →
        ranks.length = 1000 ∧
        ∀ i n, ∃ r, (runTrial (fun x : ℝ => (10 : ℝ) ^ x) stableSortSlice (fun _ keys => keys)
          (CalculateElo (fun x : ℝ => (10 : ℝ) ^ x) stableSortSlice (CalculateRequest.mk [⟨"A", 3, 1, 1, 3, 0⟩, ⟨"B", 0, 0, 1, 0, 3⟩]
          [Match.mk "A" "B" "3-0" true "2024-01-01", Match.mk "B" "A" "" false "2024-02-01"] "A").Teams (CalculateRequest.mk [⟨"A", 3, 1, 1, 3, 0⟩, ⟨"B", 0, 0, 1, 0, 3⟩]
          [Match.mk "A" "B" "3-0" true "2024-01-01", Match.mk "B" "A" "" false "2024-02-01"] "A").Fixture) (fun _ => (1 / 2 : ℝ)) (CalculateRequest.mk [⟨"A", 3, 1, 1, 3, 0⟩, ⟨"B", 0, 0, 1, 0, 3⟩]
          [Match.mk "A" "B" "3-0" true "2024-01-01", Match.mk "B" "A" "" false "2024-02-01"] "A").Teams
          ((CalculateRequest.mk [⟨"A", 3, 1, 1, 3, 0⟩, ⟨"B", 0, 0, 1, 0, 3⟩]
          [Match.mk "A" "B" "3-0" true "2024-01-01", Match.mk "B" "A" "" false "2024-02-01"] "A").Fixture.filter (fun m => !m.IsPlayed)) (CalculateRequest.mk [⟨"A", 3, 1, 1, 3, 0⟩, ⟨"B", 0, 0, 1, 0, 3⟩]
          [Match.mk "A" "B" "3-0" true "2024-01-01", Match.mk "B" "A" "" false "2024-02-01"] "A").TargetTeam i n).2 = some r) :=
  ⟨stableSortSlice_spec, fun _ keys => List.Perm.refl keys, by decide, by decide,
    ⟨Match.mk "B" "A" "" false "2024-02-01", by decide, rfl⟩,
    Calculate_recorded_ranks (fun x : ℝ => (10 : ℝ) ^ x) stableSortSlice stableSortSlice
      (fun _ keys => keys) (fun _ => (1 / 2 : ℝ))
      (CalculateRequest.mk [⟨"A", 3, 1, 1, 3, 0⟩, ⟨"B", 0, 0, 1, 0, 3⟩]
          [Match.mk "A" "B" "3-0" true "2024-01-01", Match.mk "B" "A" "" false "2024-02-01"] "A")
      stableSortSlice_spec (fun _ keys => List.Perm.refl keys) (by decide) (by decide)
      ⟨Match.mk "B" "A" "" false "2024-02-01", by decide, rfl⟩⟩

/-! ### A target team below every other team -/

/-- A fixture leaves the entry of every team other than its two sides alone. -/
theorem fixtureStep_other {F : Type} [LinearOrderedField F] (pow10 : F → F)
    (eloMap : String → Option F) (rnd : Nat → F)
    (st : Nat × (String → Option TeamStats)) (m : Match) (k : String)
    (hh : k ≠ m.HomeTeam) (ha : k ≠ m.AwayTeam) :
    (fixtureStep pow10 eloMap rnd st m).2 k = st.2 k := by
  simp only [fixtureStep]
  rw [updateAway_other _ _ _ _ ha, updateHome_other _ _ _ _ hh]

/-- The fixtures of a trial leave the entry of a team that plays in none of them
alone. -/
theorem foldl_fixtureStep_other {F : Type} [LinearOrderedField F] (pow10 : F → F)
    (eloMap : String → Option F) (rnd : Nat → F) (fixtures : List Match) (k : String)
    (hk : ∀ m ∈ fixtures, m.HomeTeam ≠ k ∧ m.AwayTeam ≠ k)
    (st : Nat × (String → Option TeamStats)) :
    (fixtures.foldl (fixtureStep pow10 eloMap rnd) st).2 k = st.2 k := by
  induction fixtures generalizing st with
  | nil => rfl
  | cons m fixtures ih =>
    rw [List.foldl_cons, ih (fun x hx => hk x (List.mem_cons_of_mem _ hx))]
    obtain ⟨h1, h2⟩ := hk m (List.mem_cons_self _ _)
    exact fixtureStep_other pow10 eloMap rnd st m k (Ne.symm h1) (Ne.symm h2)

/-- The sorted list of a trial: its names are the distinct team names, every
element is the entry stored under its name, and no element is better than an
earlier one. -/
theorem trial_sorted_list {F : Type} [LinearOrderedField F] (pow10 : F → F)
    (sortTeams : (TeamStats → TeamStats → Bool) → List TeamStats → List TeamStats)
    (rangeOrder : Nat → List String → List String)
    (hsort : SortSliceSpec sortTeams) (horder : RangeOrderSpec rangeOrder)
    (eloMap : String → Option F) (rnd : Nat → F) (teams : List TeamStats)
    (fixtures : List Match) (i n : Nat) :
    ((sortTeams rankLess ((rangeOrder i (teamNames teams)).filterMap
        (fixtures.foldl (fixtureStep pow10 eloMap rnd) (n, baseTeamMap teams)).2)).map
        (fun t => t.Name)).Perm (teamNames teams) ∧
    (∀ x ∈ sortTeams rankLess ((rangeOrder i (teamNames teams)).filterMap
        (fixtures.foldl (fixtureStep pow10 eloMap rnd) (n, baseTeamMap teams)).2),
      (fixtures.foldl (fixtureStep pow10 eloMap rnd) (n, baseTeamMap teams)).2 x.Name =
        some x) ∧
    (sortTeams rankLess ((rangeOrder i (teamNames teams)).filterMap
        (fixtures.foldl (fixtureStep pow10 eloMap rnd) (n, baseTeamMap teams)).2)).Pairwise
      (fun a b => rankLess b a = false) := by
  have hkeys : ∀ k ∈ rangeOrder i (teamNames teams),
      ∃ t, (fixtures.foldl (fixtureStep pow10 eloMap rnd) (n, baseTeamMap teams)).2 k = some t ∧
        t.Name = k := by
    intro k hk
    have hk' : k ∈ teamNames teams := (horder i (teamNames teams)).mem_iff.mp hk
    exact trial_entry_of_mem pow10 eloMap rnd n teams fixtures k (List.mem_dedup.mp hk')
  have hnames := map_name_filterMap _ _ hkeys
  obtain ⟨hperm, hpair⟩ := hsort rankLess rankLess_irrefl rankLess_trans rankLess_negTrans
    ((rangeOrder i (teamNames teams)).filterMap
      (fixtures.foldl (fixtureStep pow10 eloMap rnd) (n, baseTeamMap teams)).2)
  refine ⟨?_, ?_, hpair⟩
  · have h1 := hperm.map (fun t : TeamStats => t.Name)
    rw [hnames] at h1
    exact h1.trans (horder i (teamNames teams))
  · intro x hx
    obtain ⟨k, hk, hkx⟩ := List.mem_filterMap.mp (hperm.mem_iff.mp hx)
    obtain ⟨t, ht, hn⟩ := hkeys k hk
    rw [hkx] at ht
    cases ht
    rw [hn]
    exact hkx

/-- A target team that plays none of the fixtures and starts with fewer points
than every other team is last in every trial in which no addition overflows: the
rank recorded is the number of distinct team names. -/
theorem runTrial_rank_of_lowest {F : Type} [LinearOrderedField F] (pow10 : F → F)
    (sortTeams : (TeamStats → TeamStats → Bool) → List TeamStats → List TeamStats)
    (rangeOrder : Nat → List String → List String)
    (hsort : SortSliceSpec sortTeams) (horder : RangeOrderSpec rangeOrder)
    (eloMap : String → Option F) (rnd : Nat → F) (teams : List TeamStats)
    (fixtures : List Match) (targetTeam : String) (i n : Nat) (t0 : TeamStats)
    (hfits : replayFits pow10 eloMap rnd fixtures (n, baseTeamMap teams))
    (hbase : baseTeamMap teams targetTeam = some t0)
    (hfree : ∀ m ∈ fixtures, m.HomeTeam ≠ targetTeam ∧ m.AwayTeam ≠ targetTeam)
    (hlow : ∀ k t, k ≠ targetTeam → baseTeamMap teams k = some t → t0.Points < t.Points) :
    (runTrial pow10 sortTeams rangeOrder eloMap rnd teams fixtures targetTeam i n).2 =
      some ((teamNames teams).length : Int) := by
  obtain ⟨hnames, hentry, hpair⟩ := trial_sorted_list pow10 sortTeams rangeOrder hsort horder
    eloMap rnd teams fixtures i n
  have hgrown := foldl_fixtureStep_grown pow10 eloMap rnd fixtures (n, baseTeamMap teams) hfits
  have htarget : (fixtures.foldl (fixtureStep pow10 eloMap rnd) (n, baseTeamMap teams)).2
      targetTeam = some t0 := by
    rw [foldl_fixtureStep_other pow10 eloMap rnd fixtures targetTeam hfree]
    exact hbase
  have ht0name : t0.Name = targetTeam :=
    foldl_teamMap_name teams (fun _ => none) (fun _ _ h => by cases h) targetTeam t0 hbase
  simp only [runTrial, rankSort]
  generalize hsorted : sortTeams rankLess ((rangeOrder i (teamNames teams)).filterMap
    (fixtures.foldl (fixtureStep pow10 eloMap rnd) (n, baseTeamMap teams)).2) = sorted
    at hnames hentry hpair
  -- an element named like the target is the target's entry; any other has more points
  have hsame : ∀ x ∈ sorted, x.Name = targetTeam → x = t0 := by
    intro x hx hn
    have h1 := hentry x hx
    rw [hn, htarget] at h1
    cases h1
    rfl
  have hbetter : ∀ x ∈ sorted, x.Name ≠ targetTeam → rankLess x t0 = true := by
    intro x hx hn
    have h1 := hentry x hx
    cases hb : baseTeamMap teams x.Name with
    | none =>
      have := (hgrown x.Name).1 hb
      rw [h1] at this
      cases this
    | some t =>
      obtain ⟨t', ht', hg⟩ := (hgrown x.Name).2 t hb
      rw [h1] at ht'
      cases ht'
      have hp := hlow x.Name t hn hb
      have hp' : t.Points ≤ x.Points := hg.2.2.2.1
      rw [rankLess_iff]
      exact Or.inl (lt_of_lt_of_le hp hp')
  have hnodup : sorted.Nodup := by
    apply List.Nodup.of_map (fun t : TeamStats => t.Name)
    rw [hnames.nodup_iff]
    exact List.nodup_dedup _
  have hmem0 : t0 ∈ sorted := by
    have hk : targetTeam ∈ sorted.map (fun t => t.Name) := by
      rw [hnames.mem_iff]
      have : targetTeam ∈ teams.map (fun t => t.Name) := by
        by_contra hnot
        rw [baseTeamMap_of_not_mem teams targetTeam hnot] at hbase
        cases hbase
      exact List.mem_dedup.mpr this
    obtain ⟨x, hx, hn⟩ := List.mem_map.mp hk
    rw [← hsame x hx hn]
    exact hx
  obtain ⟨l1, l2, hsplit⟩ := List.append_of_mem hmem0
  have hlen : sorted.length = (teamNames teams).length := by
    rw [← List.length_map sorted (fun t : TeamStats => t.Name), hnames.length_eq]
  subst hsplit
  have hnd := List.nodup_middle.mp hnodup
  have hnotin : t0 ∉ l1 ++ l2 := (List.nodup_cons.mp hnd).1
  have hl2 : l2 = [] := by
    cases l2 with
    | nil => rfl
    | cons y l2 =>
      exfalso
      have hy : y ∈ l1 ++ t0 :: y :: l2 := by simp
      have hyne : y.Name ≠ targetTeam := by
        intro hn
        have := hsame y hy hn
        exact hnotin (by rw [← this]; simp)
      have h1 := hbetter y hy hyne
      have h2 : rankLess y t0 = false := by
        have hp := (List.pairwise_append.mp hpair).2.1
        exact List.rel_of_pairwise_cons hp (List.mem_cons_self _ _)
      rw [h1] at h2
      exact Bool.noConfusion h2
  subst hl2
  have hl1 : ∀ x ∈ l1, (x.Name == targetTeam) = false := by
    intro x hx
    have hxs : x ∈ l1 ++ [t0] := List.mem_append_left _ hx
    have hne : x.Name ≠ targetTeam := by
      intro hn
      have := hsame x hxs hn
      exact hnotin (by rw [← this]; simp [hx])
    simpa using hne
  have hidx : List.findIdx (fun t : TeamStats => t.Name == targetTeam) (l1 ++ [t0]) =
      l1.length := by
    rw [List.findIdx_append, List.findIdx_eq_length.mpr hl1, if_neg (lt_irrefl _),
      List.findIdx_cons]
    simp [ht0name]
  rw [hidx, if_pos (by simp)]
  rw [← hlen]
  simp

end VolleySimulator
